import Mathlib

/-!
# SSC-32M servo controller: motion profile and pulse-edge scheduling

A shallow embedding of `servo_calculations.c`, `servo_pulse.c` and the timer
compare interrupt of `timer.c`, together with the global data of `globals.h`.

Machine integers are natural numbers or integers reduced explicitly at every
store: `u8`, `u16`, `u32`, `u64` for the unsigned types and `i16`, `i32` for the
two's complement signed types.  The target is an AVR, so `int` has 16 bits and
`long` has 32 bits.  Arrays are total functions on the index; the code only
touches the indices below the array length.
-/

namespace SSC32M

/-! ## Machine integers -/

/-- Reduction to `uint8_t`. -/
def u8 (n : Nat) : Nat := n % 256

/-- Reduction to `uint16_t`. -/
def u16 (n : Nat) : Nat := n % 65536

/-- Reduction to `uint32_t`. -/
def u32 (n : Nat) : Nat := n % 4294967296

/-- Reduction to `uint64_t`. -/
def u64 (n : Nat) : Nat := n % 18446744073709551616

/-- Reduction to `int16_t` (two's complement). -/
def i16 (x : Int) : Int := (x + 32768) % 65536 - 32768

/-- Reduction to `int32_t` (two's complement). -/
def i32 (x : Int) : Int := (x + 2147483648) % 4294967296 - 2147483648

/-- Conversion of a signed value to `uint32_t`. -/
def u32OfInt (x : Int) : Nat := (x % 4294967296).toNat

/-! ## Constants of `globals.h` -/

abbrev NUM_SERVOS : Nat := 12
abbrev MINIMUM_PW : Nat := 500
abbrev MAXIMUM_PW : Nat := 2500
abbrev RISING_EDGE_SPACING : Nat := 20
abbrev SERVO_PULSE_PERIOD_MS : Nat := 20

/-! ## Data model of `globals.h` -/

/-- The three I/O ports that carry servo pins. -/
inductive Port where
  | A | B | C
  deriving DecidableEq, Repr

/-- Address of a port register: `PORTx_OUTSET`, `PORTx_OUTCLR` or `PORTx_DIRSET`;
`NULL` is the null pointer that a zero-filled edge entry holds before
`servo_pulse_update` has written it. -/
inductive RegAddr where
  | OUTSET (p : Port)
  | OUTCLR (p : Port)
  | DIRSET (p : Port)
  | NULL
  deriving DecidableEq, Repr

/-- Pin definition, `PinDef_t`. -/
structure PinDef where
  outsetRegAddr : RegAddr
  outclrRegAddr : RegAddr
  dirsetRegAddr : RegAddr
  bitMap : Nat
  deriving DecidableEq, Repr

/-- Edge array entry, `EdgeDef_t`. -/
structure EdgeDef where
  regAddr : RegAddr
  bitMap : Nat
  nextEdge : Nat
  deriving DecidableEq, Repr

/-- Pulse array entry, `PulseDef_t`. -/
structure PulseDef where
  targetPW : Nat
  currentPW_l16 : Nat
  deltaPW_l16 : Int
  deriving DecidableEq, Repr

/-- Servo command entry, `ServoCmd_t`. -/
structure ServoCmd where
  isCommanded : Bool
  targetPW : Nat
  targetSpeed : Nat
  deriving DecidableEq, Repr

/-- Entry of the file-static `pulseWidths` array of `servo_pulse.c`. -/
structure pulseWidth_t where
  servoNum : Nat
  pw : Nat
  deriving DecidableEq, Repr

/-- Pin of port `p` with bit number `b`. -/
def mkPin (p : Port) (b : Nat) : PinDef :=
  { outsetRegAddr := RegAddr.OUTSET p, outclrRegAddr := RegAddr.OUTCLR p,
    dirsetRegAddr := RegAddr.DIRSET p, bitMap := 2 ^ b }

/-- Pin definition array `ServoPinDefs` of `globals.c`, indexed by servo number. -/
def ServoPinDefs : Nat → PinDef
  | 0 => mkPin Port.A 6
  | 1 => mkPin Port.A 7
  | 2 => mkPin Port.B 0
  | 3 => mkPin Port.B 1
  | 4 => mkPin Port.B 2
  | 5 => mkPin Port.B 3
  | 6 => mkPin Port.B 4
  | 7 => mkPin Port.B 5
  | 8 => mkPin Port.C 0
  | 9 => mkPin Port.C 1
  | 10 => mkPin Port.C 2
  | _ => mkPin Port.C 3

/-- The globals of the firmware that the scheduling core reads or writes, the
file-static `pulseWidths` array, and the hardware registers the timer interrupt
writes. -/
structure State where
  ServoPulseEdges : Nat → EdgeDef
  EdgeIndex : Nat
  ServoPulseDefs : Nat → PulseDef
  ServoCmdArray : Nat → ServoCmd
  ServoCmdMoveTime : Nat
  ServoCmdWaiting : Bool
  LoopCount : Nat
  MillisRemainingInCommand : Int
  pulseWidths : Nat → pulseWidth_t
  TCA0_SINGLE_CMP0 : Nat
  TCA0_CMP0_flag : Bool
  PORT_OUT : Port → Nat

/-! ## `servo_pulse.c` -/

/-- Lines 84 to 89 of `servo_pulse_update`: add the delta to the current pulse
width (`uint32_t += int32_t`, so modulo `2^32`) and clip to the target on
overshoot. -/
def accumulate (pulseDef : PulseDef) : PulseDef :=
  let cur := u32OfInt ((pulseDef.currentPW_l16 : Int) + pulseDef.deltaPW_l16)
  if (pulseDef.deltaPW_l16 > 0 ∧ cur > u32 (pulseDef.targetPW * 65536))
      ∨ (pulseDef.deltaPW_l16 < 0 ∧ cur < u32 (pulseDef.targetPW * 65536)) then
    { pulseDef with currentPW_l16 := u32 (pulseDef.targetPW * 65536) }
  else
    { pulseDef with currentPW_l16 := cur }

/-- Lines 92 to 102: the sort key of a pulse width, one beyond the range when
the width is outside it. -/
def sortKey (currentPW_l16 : Nat) : Nat :=
  let pw := u16 (currentPW_l16 / 65536)
  if pw < MINIMUM_PW then MINIMUM_PW - 1
  else if pw > MAXIMUM_PW then MAXIMUM_PW + 1
  else pw

/-- Body of the first inner loop (lines 80 to 102). -/
def accumulateBody (groupNum offsetInGroup : Nat) (s : State) : State :=
  let servoNum := groupNum * 3 + offsetInGroup
  let pulseDef := accumulate (s.ServoPulseDefs servoNum)
  { s with
    ServoPulseDefs := Function.update s.ServoPulseDefs servoNum pulseDef
    pulseWidths := Function.update s.pulseWidths offsetInGroup
      { servoNum := servoNum, pw := sortKey pulseDef.currentPW_l16 } }

/-- Lines 111 to 120: smallest pulse width among positions `i .. 2` and the
first position that holds it, as the pair `(minPW, minIdx)`. -/
def findMin (i : Nat) (a : Nat → pulseWidth_t) : Nat × Nat :=
  (List.range' (i + 1) (3 - (i + 1))).foldl
    (fun m j => if (a j).pw < m.1 then ((a j).pw, j) else m) ((a i).pw, i)

/-- Lines 124 to 129: move entry `minIdx` down to position `i`, shifting the
entries in between up by one. -/
def insertAt (i minIdx : Nat) (a : Nat → pulseWidth_t) : Nat → pulseWidth_t :=
  let temp := a minIdx
  let shifted := ((List.range' (i + 1) (minIdx - i)).reverse).foldl
    (fun b k => Function.update b k (b (k - 1))) a
  Function.update shifted i temp

/-- Body of the outer sort loop (lines 111 to 130). -/
def sortBody (i : Nat) (a : Nat → pulseWidth_t) : Nat → pulseWidth_t :=
  let m := findMin i a
  if m.2 ≠ i then insertAt i m.2 a else a

/-- The insertion sort of lines 109 to 131. -/
def sortPulseWidths (a : Nat → pulseWidth_t) : Nat → pulseWidth_t :=
  (List.range 2).foldl (fun b i => sortBody i b) a

/-- Body of the edge loop (lines 139 to 178), for sorted position
`offsetInGroup`; the loop state is the edge array and `risingEdgeNum`. -/
def edgeBody (risingEdgeTime : Nat) (a : Nat → pulseWidth_t) (offsetInGroup : Nat)
    (st : (Nat → EdgeDef) × Nat) : (Nat → EdgeDef) × Nat :=
  let edges := st.1
  let risingEdgeNum := st.2
  let servoNum := (a offsetInGroup).servoNum
  let pw := (a offsetInGroup).pw
  let bitMap := (ServoPinDefs servoNum).bitMap
  let rising : EdgeDef :=
    { nextEdge := u16 (risingEdgeTime + offsetInGroup * RISING_EDGE_SPACING)
      bitMap := bitMap
      regAddr := if pw < MINIMUM_PW then (ServoPinDefs servoNum).outclrRegAddr
                 else (ServoPinDefs servoNum).outsetRegAddr }
  let edges := Function.update edges risingEdgeNum rising
  let fallingEdgeNum := u8 (risingEdgeNum + 3)
  let fallingEdgeTime := u16 ((edges risingEdgeNum).nextEdge + pw)
  let falling : EdgeDef :=
    { nextEdge := fallingEdgeTime
      bitMap := bitMap
      regAddr := if pw > MAXIMUM_PW then (ServoPinDefs servoNum).outsetRegAddr
                 else (ServoPinDefs servoNum).outclrRegAddr }
  let edges := Function.update edges fallingEdgeNum falling
  (edges, u8 (risingEdgeNum + 1))

/-- Body of the adjusting loop (line 188). -/
def adjustBody (edgeNum : Nat) (edges : Nat → EdgeDef) (i : Nat) : Nat → EdgeDef :=
  Function.update edges (edgeNum + i)
    { edges (edgeNum + i) with nextEdge := (edges (edgeNum + i + 1)).nextEdge }

/-- Lines 135 to 200: write the six edges of group `groupNum` from the sorted
array `a`, then turn each stored time into the time of the following edge. -/
def writeEdges (groupNum : Nat) (a : Nat → pulseWidth_t) (edges : Nat → EdgeDef) :
    Nat → EdgeDef :=
  let risingEdgeTime := u16 (groupNum * 3000)
  let risingEdgeNum := u8 (groupNum * 6)
  let edges := ((List.range 3).foldl
    (fun st offsetInGroup => edgeBody risingEdgeTime a offsetInGroup st)
    (edges, risingEdgeNum)).1
  let edgeNum := u8 (groupNum * 6)
  let edges := (List.range 5).foldl (adjustBody edgeNum) edges
  let last : EdgeDef :=
    { edges (edgeNum + 5) with
      nextEdge := if risingEdgeTime < 9000 then u16 (risingEdgeTime + 3000) else 0 }
  Function.update edges (edgeNum + 5) last

/-- The first inner loop (lines 78 to 103) for group `groupNum`. -/
def accumulateLoop (groupNum : Nat) (s : State) : State :=
  (List.range 3).foldl (fun t offsetInGroup => accumulateBody groupNum offsetInGroup t) s

/-- Body of the loop over the groups (lines 77 to 200). -/
def groupBody (groupNum : Nat) (s : State) : State :=
  let s := accumulateLoop groupNum s
  let s := { s with pulseWidths := sortPulseWidths s.pulseWidths }
  { s with ServoPulseEdges := writeEdges groupNum s.pulseWidths s.ServoPulseEdges }

/-- The function `servo_pulse_update`. -/
def servo_pulse_update (s : State) : State :=
  if s.EdgeIndex < 2 * NUM_SERVOS then s
  else
    let s := { s with EdgeIndex := 0 }
    let s := { s with LoopCount := u64 (s.LoopCount + 1) }
    let millis := i32 (s.MillisRemainingInCommand - SERVO_PULSE_PERIOD_MS)
    let s := { s with MillisRemainingInCommand := if millis < 0 then 0 else millis }
    (List.range 4).foldl (fun t groupNum => groupBody groupNum t) s

/-! ## `timer.c` -/

/-- Store of `value` to the port register at `regAddr`: a write to `OUTSET`
sets the pins of the written bits, a write to `OUTCLR` clears them; `DIRSET`
does not change the output levels.  A store through the null pointer is no
write to a port output register and is modelled as leaving the levels as they
are. -/
def writeReg (out : Port → Nat) (regAddr : RegAddr) (value : Nat) : Port → Nat :=
  match regAddr with
  | RegAddr.OUTSET p => Function.update out p (u8 (out p ||| value))
  | RegAddr.OUTCLR p => Function.update out p (u8 (out p &&& (255 ^^^ u8 value)))
  | RegAddr.DIRSET _ => out
  | RegAddr.NULL => out

/-- The timer compare interrupt `ISR(TCA0_CMP0_vect)`.  The embedding follows
the code while `EdgeIndex` is below 24: the code has no bound test, and with
`EdgeIndex` at 24 or more it reads past the end of the 24-entry table, where the
total function of the model has an entry of its own. -/
def ISR_TCA0_CMP0 (s : State) : State :=
  let edge := s.ServoPulseEdges s.EdgeIndex
  { s with
    TCA0_CMP0_flag := false
    EdgeIndex := u8 (s.EdgeIndex + 1)
    PORT_OUT := writeReg s.PORT_OUT edge.regAddr edge.bitMap
    TCA0_SINGLE_CMP0 := edge.nextEdge }

/-! ## `servo_calculations.c` -/

/-- The test of lines 59 to 60 and 89 to 90: the servo is commanded to, or is
currently at, logic 0 or logic 1. -/
def isImmediate (cmd : ServoCmd) (pulseDef : PulseDef) : Bool :=
  cmd.targetPW == 0 || cmd.targetPW == 0xFFFF
    || pulseDef.targetPW == 0 || pulseDef.targetPW == 0xFFFF

/-- Lines 64 to 66: magnitude of the change in pulse width, an `int16_t`. -/
def servoPwDeltaAbs (targetPW currentPW_l16 : Nat) : Int :=
  let servoPwDelta : Int := i16 ((targetPW : Int) - (u16 (currentPW_l16 / 65536) : Int))
  if servoPwDelta < 0 then i16 (-servoPwDelta) else servoPwDelta

/-- Lines 70 to 72: the move time of one servo in milliseconds, computed in
`unsigned long` and clipped to 16 bits. -/
def servoMoveTime (servoPwDelta : Int) (targetSpeed : Nat) : Nat :=
  let servoMoveTime := u32 (1000 * u32OfInt servoPwDelta) / targetSpeed
  if servoMoveTime > 0xFFFF then 0xFFFF else servoMoveTime

/-- Body of the move time loop (lines 45 to 74); the loop state is the command
array and `moveTime_ms`. -/
def moveTimeBody (defs : Nat → PulseDef) (st : (Nat → ServoCmd) × Nat) (servoNum : Nat) :
    (Nat → ServoCmd) × Nat :=
  let cmds := st.1
  let moveTime_ms := st.2
  if !(cmds servoNum).isCommanded then st
  else if isImmediate (cmds servoNum) (defs servoNum) then st
  else
    let servoPwDelta := servoPwDeltaAbs (cmds servoNum).targetPW (defs servoNum).currentPW_l16
    let cmds :=
      if (cmds servoNum).targetSpeed = 0 then
        Function.update cmds servoNum { cmds servoNum with targetSpeed := 1 }
      else cmds
    let servoMoveTime := servoMoveTime servoPwDelta (cmds servoNum).targetSpeed
    let moveTime_ms := if servoMoveTime > moveTime_ms then u16 servoMoveTime else moveTime_ms
    (cmds, moveTime_ms)

/-- Lines 89 to 103 for one commanded servo: the new pulse array entry, or `none`
when line 103 divides by a zero `moveTime_ms`. -/
def deltaChannel (cmd : ServoCmd) (moveTime_ms : Nat) (pulseDef : PulseDef) : Option PulseDef :=
  if isImmediate cmd pulseDef then
    some { targetPW := cmd.targetPW
           currentPW_l16 := u32 (cmd.targetPW * 65536)
           deltaPW_l16 := 0 }
  else
    let targetPW := cmd.targetPW
    let servoPwDelta_L16 : Int :=
      i32 ((u32 (targetPW * 65536) : Int) - (pulseDef.currentPW_l16 : Int))
    if moveTime_ms = 0 then none
    else
      some { targetPW := targetPW
             currentPW_l16 := pulseDef.currentPW_l16
             deltaPW_l16 := i32 (SERVO_PULSE_PERIOD_MS * Int.tdiv servoPwDelta_L16 moveTime_ms) }

/-- Body of the delta loop (lines 79 to 107); the loop state is the pulse array
and `MillisRemainingInCommand`. -/
def deltaBody (cmds : Nat → ServoCmd) (moveTime_ms : Nat) (st : (Nat → PulseDef) × Int)
    (servoNum : Nat) : Option ((Nat → PulseDef) × Int) :=
  let defs := st.1
  if !(cmds servoNum).isCommanded then some st
  else
    match deltaChannel (cmds servoNum) moveTime_ms (defs servoNum) with
    | none => none
    | some pulseDef =>
      some (Function.update defs servoNum pulseDef,
        if isImmediate (cmds servoNum) (defs servoNum) then st.2 else (moveTime_ms : Int))

/-- The move time computed by lines 42 to 75, with the command array as the
loop leaves it. -/
def moveTimeLoop (s : State) : (Nat → ServoCmd) × Nat :=
  (List.range NUM_SERVOS).foldl (moveTimeBody s.ServoPulseDefs)
    (s.ServoCmdArray, s.ServoCmdMoveTime)

/-- The function `servo_calculations_update`; `none` stands for the division
by zero of line 103. -/
def servo_calculations_update (s : State) : Option State :=
  if !s.ServoCmdWaiting then some s
  else
    let s := { s with ServoCmdWaiting := false }
    let st := moveTimeLoop s
    let s := { s with ServoCmdArray := st.1 }
    let moveTime_ms := st.2
    match (List.range NUM_SERVOS).foldlM (deltaBody s.ServoCmdArray moveTime_ms)
        (s.ServoPulseDefs, s.MillisRemainingInCommand) with
    | none => none
    | some r =>
      let s := { s with ServoPulseDefs := r.1, MillisRemainingInCommand := r.2 }
      let cmds := (List.range NUM_SERVOS).foldl
        (fun c i => Function.update c i
          { isCommanded := false, targetSpeed := 65535, targetPW := 0 }) s.ServoCmdArray
      some { s with ServoCmdArray := cmds, ServoCmdWaiting := false, ServoCmdMoveTime := 0 }

/-- A servo of the command takes the timed path of lines 98 to 106: it is
commanded and neither its commanded nor its stored target is logic 0 or 1. -/
def timeProfiled (cmd : ServoCmd) (pulseDef : PulseDef) : Bool :=
  cmd.isCommanded && !isImmediate cmd pulseDef

/-- The move time that lines 64 to 72 compute for one servo, with the zero
speed replaced by 1 as lines 68 to 69 do. -/
def servoVote (cmd : ServoCmd) (pulseDef : PulseDef) : Nat :=
  servoMoveTime (servoPwDeltaAbs cmd.targetPW pulseDef.currentPW_l16)
    (if cmd.targetSpeed = 0 then 1 else cmd.targetSpeed)

/-- Two command entries that the move time loop cannot tell apart. -/
def sameCmd (c d : ServoCmd) : Prop :=
  c.isCommanded = d.isCommanded ∧ c.targetPW = d.targetPW
    ∧ (if c.targetSpeed = 0 then 1 else c.targetSpeed)
        = (if d.targetSpeed = 0 then 1 else d.targetSpeed)

/-! ## Frames -/

/-- The timer interrupt runs until every edge of the table has been output. -/
def drainEdges (s : State) : State :=
  Nat.iterate ISR_TCA0_CMP0 (2 * NUM_SERVOS - s.EdgeIndex) s

/-- One frame of the main loop: the interrupt outputs the remaining edges, then
`servo_pulse_update` regenerates the table. -/
def pulseFrame (s : State) : State :=
  servo_pulse_update (drainEdges s)

/-- The state after `k` frames without a new command. -/
def pulseFrames (k : Nat) (s : State) : State :=
  Nat.iterate pulseFrame k s

/-- The times at which the entries of the edge table are output: entry 0 at
tick 0, entry `k + 1` at the `nextEdge` stored in entry `k`. -/
def fireTime (edges : Nat → EdgeDef) : Nat → Nat
  | 0 => 0
  | k + 1 => (edges k).nextEdge

/-- A state with every global zero, as the C runtime leaves them at start; the
register pointers of the edge entries are null. -/
def zeroState : State :=
  { ServoPulseEdges := fun _ => { regAddr := RegAddr.NULL, bitMap := 0, nextEdge := 0 }
    EdgeIndex := 0
    ServoPulseDefs := fun _ => { targetPW := 0, currentPW_l16 := 0, deltaPW_l16 := 0 }
    ServoCmdArray := fun _ => { isCommanded := false, targetPW := 0, targetSpeed := 0 }
    ServoCmdMoveTime := 0
    ServoCmdWaiting := false
    LoopCount := 0
    MillisRemainingInCommand := 0
    pulseWidths := fun _ => { servoNum := 0, pw := 0 }
    TCA0_SINGLE_CMP0 := 0
    TCA0_CMP0_flag := false
    PORT_OUT := fun _ => 0 }

/-! ## States and notions used by the statements -/

/-- The sort key in the words of the specification: the width in microseconds,
forced to `minimum - 1` below the minimum pulse width and to `maximum + 1` above
the maximum. -/
def specKey (currentPW_l16 : Nat) : Nat :=
  let width := currentPW_l16 / 65536
  if width < MINIMUM_PW then MINIMUM_PW - 1
  else if width > MAXIMUM_PW then MAXIMUM_PW + 1
  else width

/-- A channel at rest at width `w`. -/
def restAt (w : Nat) : PulseDef := { targetPW := w, currentPW_l16 := w * 65536, deltaPW_l16 := 0 }

/-- The pending command that the parser leaves after a line that sets the pulse
width `pw` of servo `n` and the move time `t`, with the default speed. -/
def commandPW (s : State) (n pw t : Nat) : State :=
  { s with
    ServoCmdArray := Function.update s.ServoCmdArray n
      { isCommanded := true, targetPW := pw, targetSpeed := 65535 }
    ServoCmdMoveTime := t
    ServoCmdWaiting := true }

/-- Every servo off, no command pending, all edges output. -/
def idleState : State :=
  { zeroState with
    ServoCmdArray := fun _ => { isCommanded := false, targetPW := 0, targetSpeed := 65535 }
    EdgeIndex := 24 }

/-- Scenario B: servo 0 at rest at 1500 and servo 2 at rest at 2000, with the
pending command "servo 0 to 2000, servo 2 to 2100, move time 1000". -/
def scenarioB : State :=
  { zeroState with
    ServoPulseDefs := fun n => if n = 0 then restAt 1500 else if n = 2 then restAt 2000 else restAt 0
    ServoCmdArray := fun n =>
      if n = 0 then { isCommanded := true, targetPW := 2000, targetSpeed := 65535 }
      else if n = 2 then { isCommanded := true, targetPW := 2100, targetSpeed := 65535 }
      else { isCommanded := false, targetPW := 0, targetSpeed := 65535 }
    ServoCmdMoveTime := 1000
    ServoCmdWaiting := true
    EdgeIndex := 24 }

/-- Entry `e` of the edge table belongs to channel `c`: it carries the pin bit
of `c` and addresses the set or the clear register of the port of `c`. -/
def entryOf (e : EdgeDef) (c : Nat) : Prop :=
  e.bitMap = (ServoPinDefs c).bitMap
    ∧ (e.regAddr = (ServoPinDefs c).outsetRegAddr ∨ e.regAddr = (ServoPinDefs c).outclrRegAddr)

/-! ## Initialisation (`main.c`) -/

/-- The function `parse_commands_init` of `parse_commands.c`: every servo is
commanded to pulse width 0 and the command is marked as waiting. -/
def parse_commands_init (s : State) : State :=
  { s with
    ServoCmdArray := (List.range NUM_SERVOS).foldl
      (fun c servoNum => Function.update c servoNum
        { isCommanded := true, targetPW := 0, targetSpeed := 0 }) s.ServoCmdArray
    ServoCmdMoveTime := 0
    ServoCmdWaiting := true }

/-- The function `servo_calculations_init`. -/
def servo_calculations_init (s : State) : Option State :=
  servo_calculations_update s

/-- The function `servo_pulse_init`: every servo pin is driven to 0 and made an
output, then the edge table is written for the first time. -/
def servo_pulse_init (s : State) : State :=
  let out := (List.range NUM_SERVOS).foldl
    (fun o servoNum =>
      writeReg (writeReg o (ServoPinDefs servoNum).outclrRegAddr (ServoPinDefs servoNum).bitMap)
        (ServoPinDefs servoNum).dirsetRegAddr (ServoPinDefs servoNum).bitMap) s.PORT_OUT
  servo_pulse_update { s with PORT_OUT := out, EdgeIndex := 2 * NUM_SERVOS }

/-- The function `timer_init` of `timer.c`, as far as the compare channel goes:
the compare value is 0 for the first interrupt and the flag is cleared. -/
def timer_init (s : State) : State :=
  { s with TCA0_SINGLE_CMP0 := 0, TCA0_CMP0_flag := false }

/-- The initialisations of `main`, in their order, from the zeroed globals. -/
def initState : Option State :=
  match servo_calculations_init (parse_commands_init zeroState) with
  | none => none
  | some s => some (timer_init (servo_pulse_init s))

/-- The states reachable from initialisation by any interleaving of timer
compare interrupts, calls of `servo_calculations_update` and calls of
`servo_pulse_update`, and by the parser storing a pending command. -/
inductive Reachable : State → Prop where
  | init (s : State) (h : initState = some s) : Reachable s
  | interrupt (s : State) (h : Reachable s) : Reachable (ISR_TCA0_CMP0 s)
  | calculations (s t : State) (h : Reachable s) (ht : servo_calculations_update s = some t) :
      Reachable t
  | pulse (s : State) (h : Reachable s) : Reachable (servo_pulse_update s)
  | command (s : State) (h : Reachable s) (cmds : Nat → ServoCmd) (moveTime : Nat) :
      Reachable { s with ServoCmdArray := cmds, ServoCmdMoveTime := moveTime,
                         ServoCmdWaiting := true }

/-- The reachable states when the interrupt runs only while edges are left in
the table, that is, when the main loop regenerates the table before the compare
match of the next frame. -/
inductive ReachableInFrame : State → Prop where
  | init (s : State) (h : initState = some s) : ReachableInFrame s
  | interrupt (s : State) (h : ReachableInFrame s) (hk : s.EdgeIndex < 2 * NUM_SERVOS) :
      ReachableInFrame (ISR_TCA0_CMP0 s)
  | calculations (s t : State) (h : ReachableInFrame s)
      (ht : servo_calculations_update s = some t) : ReachableInFrame t
  | pulse (s : State) (h : ReachableInFrame s) : ReachableInFrame (servo_pulse_update s)
  | command (s : State) (h : ReachableInFrame s) (cmds : Nat → ServoCmd) (moveTime : Nat) :
      ReachableInFrame { s with ServoCmdArray := cmds, ServoCmdMoveTime := moveTime,
                                ServoCmdWaiting := true }

/-! ## `uart.c` and the command functions of `parse_commands.c` -/

/-- Size of the transmit queue, `uart.c` line 34. -/
abbrev TXQ_NBYTES : Nat := 255

/-- The transmit side of `uart.c`: the queue, its add index, and the data
register empty interrupt enable bit of `USART0_CTRLA`. -/
structure Uart where
  tx_queue : Nat → Nat
  txq_add_idx : Nat
  USART0_DREIE : Bool

/-- The function `uart_tx_put_char`: the byte is stored at the add index, which
then moves on by one and wraps at the queue size; the queue is not checked for
being full. -/
def uart_tx_put_char (txByte : Nat) (u : Uart) : Uart :=
  let u := { u with USART0_DREIE := false }
  let u := { u with tx_queue := Function.update u.tx_queue u.txq_add_idx (u8 txByte) }
  let u := { u with txq_add_idx := u8 (u.txq_add_idx + 1) }
  let u := if u.txq_add_idx ≥ TXQ_NBYTES then { u with txq_add_idx := 0 } else u
  { u with USART0_DREIE := true }

/-- The function `ParseServoLimp`, for the value `servoNum` of the file-static
servo number: the selected servo is commanded to pulse width 0. -/
def ParseServoLimp (servoNum : Nat) (s : State) : State :=
  if servoNum < NUM_SERVOS then
    { s with ServoCmdArray := Function.update s.ServoCmdArray servoNum
              { s.ServoCmdArray servoNum with isCommanded := true, targetPW := 0 } }
  else s

/-- Lines 162 to 166 of `parse_commands_update`: a carriage return marks the
command as waiting. -/
def carriageReturn (s : State) : State :=
  { s with ServoCmdWaiting := true }

/-- Lines 300 to 314 of `ParseQStatus`: the status character of a servo,
`'1'` (49) for no pulse, `'4'` (52) for moving, `'6'` (54) for holding. -/
def statusChar (pulseDef : PulseDef) : Nat :=
  if pulseDef.currentPW_l16 = 0 then 49
  else if pulseDef.currentPW_l16 ≠ u32 (pulseDef.targetPW * 65536) then 52
  else 54

/-- The function `ParseQStatus`, for the value `servoNum` of the file-static
servo number: `'*'` (42), the servo number in decimal (`'0'` is 48), `'Q'` (81),
the status character and a carriage return (13) are put on the transmit queue.
The globals of the servo core are passed through. -/
def ParseQStatus (servoNum : Nat) (s : State) (u : Uart) : State × Uart :=
  if servoNum < NUM_SERVOS then
    let u := uart_tx_put_char 42 u
    let u := if servoNum ≥ 10 then uart_tx_put_char (servoNum / 10 + 48) u else u
    let u := uart_tx_put_char (servoNum % 10 + 48) u
    let u := uart_tx_put_char 81 u
    let u := uart_tx_put_char (statusChar (s.ServoPulseDefs servoNum)) u
    let u := uart_tx_put_char 13 u
    (s, u)
  else (s, u)

/-- The transmit queue after the bytes `bs` have been put on it in order. -/
def putChars (bs : List Nat) (u : Uart) : Uart :=
  bs.foldl (fun v b => uart_tx_put_char b v) u

/-- The bytes put on the transmit queue between `u` and `u'`: the queue
entries of `u'` from the add index of `u` up to the add index of `u'`. -/
def sent (u u' : Uart) : List Nat :=
  (List.range ((u'.txq_add_idx + TXQ_NBYTES - u.txq_add_idx) % TXQ_NBYTES)).map
    (fun i => u'.tx_queue ((u.txq_add_idx + i) % TXQ_NBYTES))

/-- An empty transmit queue, as the C runtime leaves it at start. -/
def uartZero : Uart :=
  { tx_queue := fun _ => 0, txq_add_idx := 0, USART0_DREIE := false }

/-- Servo 0 at rest at 1500 with the pending command "servo 0 to 1600 at speed
0". -/
def zeroSpeedCommand : State :=
  { idleState with
    ServoPulseDefs := fun n => if n = 0 then restAt 1500 else restAt 0
    ServoCmdArray := fun n =>
      if n = 0 then { isCommanded := true, targetPW := 1600, targetSpeed := 0 }
      else { isCommanded := false, targetPW := 0, targetSpeed := 65535 }
    ServoCmdWaiting := true }

/-- The function `ParseServoHold`, for the value `servoNum` of the file-static
servo number: the current pulse width of the selected servo is set to its
target. -/
def ParseServoHold (servoNum : Nat) (s : State) : State :=
  if servoNum < NUM_SERVOS then
    { s with ServoPulseDefs := Function.update s.ServoPulseDefs servoNum
              { s.ServoPulseDefs servoNum with
                currentPW_l16 := u32 ((s.ServoPulseDefs servoNum).targetPW * 65536) } }
  else s

/-- The function `ParseServoPW`, for the value `servoNum` of the file-static
servo number: a pulse width within the servo range is stored as the commanded
width of the selected servo. -/
def ParseServoPW (servoNum argument : Nat) (s : State) : State :=
  if servoNum < NUM_SERVOS ∧ argument ≥ MINIMUM_PW ∧ argument ≤ MAXIMUM_PW then
    { s with ServoCmdArray := Function.update s.ServoCmdArray servoNum
              { s.ServoCmdArray servoNum with isCommanded := true, targetPW := argument } }
  else s

/-- The states reachable from initialisation by timer compare interrupts that
find an entry of the table to output (`EdgeIndex` below 24), calls of
`servo_calculations_update` (commits) and of `servo_pulse_update`, pending
commands stored by the parser, and Hold commands. -/
inductive ReachableWithHold : State → Prop where
  | init (s : State) (h : initState = some s) : ReachableWithHold s
  | interrupt (s : State) (h : ReachableWithHold s) (hk : s.EdgeIndex < 2 * NUM_SERVOS) :
      ReachableWithHold (ISR_TCA0_CMP0 s)
  | calculations (s t : State) (h : ReachableWithHold s)
      (ht : servo_calculations_update s = some t) : ReachableWithHold t
  | pulse (s : State) (h : ReachableWithHold s) : ReachableWithHold (servo_pulse_update s)
  | command (s : State) (h : ReachableWithHold s) (cmds : Nat → ServoCmd) (moveTime : Nat) :
      ReachableWithHold { s with ServoCmdArray := cmds, ServoCmdMoveTime := moveTime,
                                 ServoCmdWaiting := true }
  | hold (s : State) (h : ReachableWithHold s) (servoNum : Nat) :
      ReachableWithHold (ParseServoHold servoNum s)

/-! ## The edge table written by `servo_pulse_update` -/

theorem range2 : List.range 2 = [0, 1] := by decide
theorem range3 : List.range 3 = [0, 1, 2] := by decide
theorem range4 : List.range 4 = [0, 1, 2, 3] := by decide
theorem range5 : List.range 5 = [0, 1, 2, 3, 4] := by decide

theorem findMin_zero (a : Nat → pulseWidth_t) :
    findMin 0 a =
      if (a 1).pw < (a 0).pw then
        (if (a 2).pw < (a 1).pw then ((a 2).pw, 2) else ((a 1).pw, 1))
      else (if (a 2).pw < (a 0).pw then ((a 2).pw, 2) else ((a 0).pw, 0)) := by
  simp only [findMin, List.range', List.foldl]
  split_ifs <;> rfl

theorem findMin_one (a : Nat → pulseWidth_t) :
    findMin 1 a = if (a 2).pw < (a 1).pw then ((a 2).pw, 2) else ((a 1).pw, 1) := by
  simp only [findMin, List.range', List.foldl]

theorem insertAt_zero_one (a : Nat → pulseWidth_t) :
    insertAt 0 1 a = Function.update (Function.update a 1 (a 0)) 0 (a 1) := by
  simp [insertAt, List.range']

theorem insertAt_zero_two (a : Nat → pulseWidth_t) :
    insertAt 0 2 a
      = Function.update (Function.update (Function.update a 2 (a 1)) 1 (a 0)) 0 (a 2) := by
  simp [insertAt, List.range']

theorem insertAt_one_two (a : Nat → pulseWidth_t) :
    insertAt 1 2 a = Function.update (Function.update a 2 (a 1)) 1 (a 2) := by
  simp [insertAt, List.range']

/-- The sort of three entries as a case table. -/
theorem sortPulseWidths_cases (a : Nat → pulseWidth_t) :
    ∃ i j k : Nat, (sortPulseWidths a 0 = a i ∧ sortPulseWidths a 1 = a j ∧ sortPulseWidths a 2 = a k)
      ∧ i < 3 ∧ j < 3 ∧ k < 3 ∧ i ≠ j ∧ i ≠ k ∧ j ≠ k
      ∧ (a i).pw ≤ (a j).pw ∧ (a j).pw ≤ (a k).pw
      ∧ ((a i).pw = (a j).pw → i < j) ∧ ((a j).pw = (a k).pw → j < k)
      ∧ ((a i).pw = (a k).pw → i < k) := by
  simp only [sortPulseWidths, range2, List.foldl, sortBody, findMin_zero, findMin_one]
  by_cases h10 : (a 1).pw < (a 0).pw <;> by_cases h20 : (a 2).pw < (a 0).pw <;>
    by_cases h21 : (a 2).pw < (a 1).pw
  all_goals simp [h10, h20, h21, insertAt_zero_one, insertAt_zero_two, insertAt_one_two]
  all_goals first
    | omega
    | (refine ⟨_, _, _, ⟨rfl, rfl, rfl⟩, ?_⟩; omega)

theorem sortKey_bounds (c : Nat) : 499 ≤ sortKey c ∧ sortKey c ≤ 2501 := by
  unfold sortKey
  simp only [MINIMUM_PW, MAXIMUM_PW]
  split_ifs <;> omega

/-- The six entries that `writeEdges` stores for group `g`. -/
theorem writeEdges_spec (g : Nat) (hg : g < 4) (a : Nat → pulseWidth_t) (E : Nat → EdgeDef)
    (h0 : (a 0).pw ≤ 2501) (h1 : (a 1).pw ≤ 2501) (h2 : (a 2).pw ≤ 2501) :
    writeEdges g a E (6 * g) =
        { regAddr := if (a 0).pw < MINIMUM_PW then (ServoPinDefs (a 0).servoNum).outclrRegAddr
            else (ServoPinDefs (a 0).servoNum).outsetRegAddr
          bitMap := (ServoPinDefs (a 0).servoNum).bitMap
          nextEdge := 3000 * g + 20 }
    ∧ writeEdges g a E (6 * g + 1) =
        { regAddr := if (a 1).pw < MINIMUM_PW then (ServoPinDefs (a 1).servoNum).outclrRegAddr
            else (ServoPinDefs (a 1).servoNum).outsetRegAddr
          bitMap := (ServoPinDefs (a 1).servoNum).bitMap
          nextEdge := 3000 * g + 40 }
    ∧ writeEdges g a E (6 * g + 2) =
        { regAddr := if (a 2).pw < MINIMUM_PW then (ServoPinDefs (a 2).servoNum).outclrRegAddr
            else (ServoPinDefs (a 2).servoNum).outsetRegAddr
          bitMap := (ServoPinDefs (a 2).servoNum).bitMap
          nextEdge := 3000 * g + (a 0).pw }
    ∧ writeEdges g a E (6 * g + 3) =
        { regAddr := if (a 0).pw > MAXIMUM_PW then (ServoPinDefs (a 0).servoNum).outsetRegAddr
            else (ServoPinDefs (a 0).servoNum).outclrRegAddr
          bitMap := (ServoPinDefs (a 0).servoNum).bitMap
          nextEdge := 3000 * g + 20 + (a 1).pw }
    ∧ writeEdges g a E (6 * g + 4) =
        { regAddr := if (a 1).pw > MAXIMUM_PW then (ServoPinDefs (a 1).servoNum).outsetRegAddr
            else (ServoPinDefs (a 1).servoNum).outclrRegAddr
          bitMap := (ServoPinDefs (a 1).servoNum).bitMap
          nextEdge := 3000 * g + 40 + (a 2).pw }
    ∧ writeEdges g a E (6 * g + 5) =
        { regAddr := if (a 2).pw > MAXIMUM_PW then (ServoPinDefs (a 2).servoNum).outsetRegAddr
            else (ServoPinDefs (a 2).servoNum).outclrRegAddr
          bitMap := (ServoPinDefs (a 2).servoNum).bitMap
          nextEdge := if g < 3 then 3000 * g + 3000 else 0 } := by
  interval_cases g
  all_goals
    simp [writeEdges, range3, range5, edgeBody, adjustBody, u8, u16, Function.update,
      RISING_EDGE_SPACING]
    omega

/-- Entries outside the six of group `g` are not written. -/
theorem writeEdges_other (g : Nat) (hg : g < 4) (a : Nat → pulseWidth_t) (E : Nat → EdgeDef)
    (m : Nat) (hm : m < 6 * g ∨ 6 * g + 6 ≤ m) : writeEdges g a E m = E m := by
  interval_cases g
  all_goals
    simp [writeEdges, range3, range5, edgeBody, adjustBody, u8, u16, Function.update]
    split_ifs <;> first | rfl | omega

theorem accumulateLoop_defs (g : Nat) (t : State) (n : Nat) :
    (accumulateLoop g t).ServoPulseDefs n
      = if g * 3 ≤ n ∧ n < g * 3 + 3 then accumulate (t.ServoPulseDefs n)
        else t.ServoPulseDefs n := by
  simp only [accumulateLoop, range3, List.foldl, accumulateBody, Function.update_apply]
  split_ifs <;> first | rfl | omega | (subst_vars; simp)

theorem accumulateLoop_pulseWidths (g : Nat) (t : State) (o : Nat) (ho : o < 3) :
    (accumulateLoop g t).pulseWidths o
      = { servoNum := g * 3 + o
          pw := sortKey (accumulate (t.ServoPulseDefs (g * 3 + o))).currentPW_l16 } := by
  interval_cases o <;>
    simp [accumulateLoop, range3, List.foldl, accumulateBody, Function.update_apply]

theorem groupBody_defs (g : Nat) (t : State) (n : Nat) :
    (groupBody g t).ServoPulseDefs n
      = if g * 3 ≤ n ∧ n < g * 3 + 3 then accumulate (t.ServoPulseDefs n)
        else t.ServoPulseDefs n := by
  simp only [groupBody]
  exact accumulateLoop_defs g t n

theorem accumulateLoop_edges (g : Nat) (t : State) :
    (accumulateLoop g t).ServoPulseEdges = t.ServoPulseEdges := by
  simp [accumulateLoop, range3, accumulateBody]

theorem groupBody_edges_other (g : Nat) (hg : g < 4) (t : State) (m : Nat)
    (hm : m < 6 * g ∨ 6 * g + 6 ≤ m) :
    (groupBody g t).ServoPulseEdges m = t.ServoPulseEdges m := by
  simp only [groupBody]
  rw [writeEdges_other g hg _ _ m hm, accumulateLoop_edges]

/-- The other globals are not written by the loop over the groups. -/
theorem groupBody_frame (g : Nat) (t : State) :
    (groupBody g t).EdgeIndex = t.EdgeIndex
    ∧ (groupBody g t).ServoCmdArray = t.ServoCmdArray
    ∧ (groupBody g t).ServoCmdMoveTime = t.ServoCmdMoveTime
    ∧ (groupBody g t).ServoCmdWaiting = t.ServoCmdWaiting
    ∧ (groupBody g t).LoopCount = t.LoopCount
    ∧ (groupBody g t).MillisRemainingInCommand = t.MillisRemainingInCommand
    ∧ (groupBody g t).TCA0_SINGLE_CMP0 = t.TCA0_SINGLE_CMP0
    ∧ (groupBody g t).TCA0_CMP0_flag = t.TCA0_CMP0_flag
    ∧ (groupBody g t).PORT_OUT = t.PORT_OUT := by
  simp [groupBody, accumulateLoop, range3, accumulateBody]

/-- What one pass of the loop over the groups stores in the edge table: the
three channels of the group in the order `i, j, k` of their sort keys. -/
theorem groupBody_spec (g : Nat) (hg : g < 4) (t : State) :
    ∃ i j k : Nat, i < 3 ∧ j < 3 ∧ k < 3 ∧ i ≠ j ∧ i ≠ k ∧ j ≠ k
      ∧ (∀ K : Nat → Nat,
          (∀ o, o < 3 → K o = sortKey (accumulate (t.ServoPulseDefs (g * 3 + o))).currentPW_l16) →
          (K i ≤ K j ∧ K j ≤ K k
          ∧ (K i = K j → i < j) ∧ (K j = K k → j < k) ∧ (K i = K k → i < k)
          ∧ (groupBody g t).ServoPulseEdges (6 * g) =
              { regAddr := if K i < MINIMUM_PW then (ServoPinDefs (g * 3 + i)).outclrRegAddr
                  else (ServoPinDefs (g * 3 + i)).outsetRegAddr
                bitMap := (ServoPinDefs (g * 3 + i)).bitMap
                nextEdge := 3000 * g + 20 }
          ∧ (groupBody g t).ServoPulseEdges (6 * g + 1) =
              { regAddr := if K j < MINIMUM_PW then (ServoPinDefs (g * 3 + j)).outclrRegAddr
                  else (ServoPinDefs (g * 3 + j)).outsetRegAddr
                bitMap := (ServoPinDefs (g * 3 + j)).bitMap
                nextEdge := 3000 * g + 40 }
          ∧ (groupBody g t).ServoPulseEdges (6 * g + 2) =
              { regAddr := if K k < MINIMUM_PW then (ServoPinDefs (g * 3 + k)).outclrRegAddr
                  else (ServoPinDefs (g * 3 + k)).outsetRegAddr
                bitMap := (ServoPinDefs (g * 3 + k)).bitMap
                nextEdge := 3000 * g + K i }
          ∧ (groupBody g t).ServoPulseEdges (6 * g + 3) =
              { regAddr := if K i > MAXIMUM_PW then (ServoPinDefs (g * 3 + i)).outsetRegAddr
                  else (ServoPinDefs (g * 3 + i)).outclrRegAddr
                bitMap := (ServoPinDefs (g * 3 + i)).bitMap
                nextEdge := 3000 * g + 20 + K j }
          ∧ (groupBody g t).ServoPulseEdges (6 * g + 4) =
              { regAddr := if K j > MAXIMUM_PW then (ServoPinDefs (g * 3 + j)).outsetRegAddr
                  else (ServoPinDefs (g * 3 + j)).outclrRegAddr
                bitMap := (ServoPinDefs (g * 3 + j)).bitMap
                nextEdge := 3000 * g + 40 + K k }
          ∧ (groupBody g t).ServoPulseEdges (6 * g + 5) =
              { regAddr := if K k > MAXIMUM_PW then (ServoPinDefs (g * 3 + k)).outsetRegAddr
                  else (ServoPinDefs (g * 3 + k)).outclrRegAddr
                bitMap := (ServoPinDefs (g * 3 + k)).bitMap
                nextEdge := if g < 3 then 3000 * g + 3000 else 0 })) := by
  obtain ⟨i, j, k, ⟨e0, e1, e2⟩, hi, hj, hk, hij, hik, hjk, o1, o2, s1, s2, s3⟩ :=
    sortPulseWidths_cases (accumulateLoop g t).pulseWidths
  refine ⟨i, j, k, hi, hj, hk, hij, hik, hjk, ?_⟩
  intro K hK
  rw [accumulateLoop_pulseWidths g t i hi, accumulateLoop_pulseWidths g t j hj] at o1 s1
  rw [accumulateLoop_pulseWidths g t j hj, accumulateLoop_pulseWidths g t k hk] at o2 s2
  rw [accumulateLoop_pulseWidths g t i hi, accumulateLoop_pulseWidths g t k hk] at s3
  rw [accumulateLoop_pulseWidths g t i hi] at e0
  rw [accumulateLoop_pulseWidths g t j hj] at e1
  rw [accumulateLoop_pulseWidths g t k hk] at e2
  simp only at o1 o2 s1 s2 s3
  rw [← hK i hi, ← hK j hj] at o1 s1
  rw [← hK j hj, ← hK k hk] at o2 s2
  rw [← hK i hi, ← hK k hk] at s3
  rw [← hK i hi] at e0
  rw [← hK j hj] at e1
  rw [← hK k hk] at e2
  have bi := sortKey_bounds (accumulate (t.ServoPulseDefs (g * 3 + i))).currentPW_l16
  have bj := sortKey_bounds (accumulate (t.ServoPulseDefs (g * 3 + j))).currentPW_l16
  have bk := sortKey_bounds (accumulate (t.ServoPulseDefs (g * 3 + k))).currentPW_l16
  rw [← hK i hi] at bi
  rw [← hK j hj] at bj
  rw [← hK k hk] at bk
  have W := writeEdges_spec g hg (sortPulseWidths (accumulateLoop g t).pulseWidths)
    (accumulateLoop g t).ServoPulseEdges (by rw [e0]; exact bi.2) (by rw [e1]; exact bj.2)
    (by rw [e2]; exact bk.2)
  simp only [e0, e1, e2] at W
  refine ⟨o1, o2, s1, s2, s3, ?_⟩
  simpa only [groupBody] using W

/-- With every edge output, `servo_pulse_update` runs the loop over the four
groups. -/
theorem servo_pulse_update_regen (s : State) (h : 24 ≤ s.EdgeIndex) :
    servo_pulse_update s
      = groupBody 3 (groupBody 2 (groupBody 1 (groupBody 0
          { s with
            EdgeIndex := 0
            LoopCount := u64 (s.LoopCount + 1)
            MillisRemainingInCommand :=
              if i32 (s.MillisRemainingInCommand - SERVO_PULSE_PERIOD_MS) < 0 then 0
              else i32 (s.MillisRemainingInCommand - SERVO_PULSE_PERIOD_MS) }))) := by
  have h' : ¬ s.EdgeIndex < 2 * NUM_SERVOS := by simp only [NUM_SERVOS]; omega
  simp only [servo_pulse_update, h', if_false, range4, List.foldl]

/-- A regenerating `servo_pulse_update` accumulates every channel once. -/
theorem servo_pulse_update_defs (s : State) (h : 24 ≤ s.EdgeIndex) (n : Nat) :
    (servo_pulse_update s).ServoPulseDefs n
      = if n < 12 then accumulate (s.ServoPulseDefs n) else s.ServoPulseDefs n := by
  rw [servo_pulse_update_regen s h]
  simp only [groupBody_defs]
  split_ifs <;> first | rfl | omega

/-- The edge table after a regenerating `servo_pulse_update`: for every group
the three channels appear in the order `i, j, k` of their sort keys `K`. -/
theorem servo_pulse_update_spec (s : State) (h : 24 ≤ s.EdgeIndex) (g : Nat) (hg : g < 4) :
    ∃ i j k : Nat, i < 3 ∧ j < 3 ∧ k < 3 ∧ i ≠ j ∧ i ≠ k ∧ j ≠ k
      ∧ (∀ K : Nat → Nat,
          (∀ o, o < 3 →
            K o = sortKey ((servo_pulse_update s).ServoPulseDefs (g * 3 + o)).currentPW_l16) →
          (K i ≤ K j ∧ K j ≤ K k
          ∧ (K i = K j → i < j) ∧ (K j = K k → j < k) ∧ (K i = K k → i < k)
          ∧ (servo_pulse_update s).ServoPulseEdges (6 * g) =
              { regAddr := if K i < MINIMUM_PW then (ServoPinDefs (g * 3 + i)).outclrRegAddr
                  else (ServoPinDefs (g * 3 + i)).outsetRegAddr
                bitMap := (ServoPinDefs (g * 3 + i)).bitMap
                nextEdge := 3000 * g + 20 }
          ∧ (servo_pulse_update s).ServoPulseEdges (6 * g + 1) =
              { regAddr := if K j < MINIMUM_PW then (ServoPinDefs (g * 3 + j)).outclrRegAddr
                  else (ServoPinDefs (g * 3 + j)).outsetRegAddr
                bitMap := (ServoPinDefs (g * 3 + j)).bitMap
                nextEdge := 3000 * g + 40 }
          ∧ (servo_pulse_update s).ServoPulseEdges (6 * g + 2) =
              { regAddr := if K k < MINIMUM_PW then (ServoPinDefs (g * 3 + k)).outclrRegAddr
                  else (ServoPinDefs (g * 3 + k)).outsetRegAddr
                bitMap := (ServoPinDefs (g * 3 + k)).bitMap
                nextEdge := 3000 * g + K i }
          ∧ (servo_pulse_update s).ServoPulseEdges (6 * g + 3) =
              { regAddr := if K i > MAXIMUM_PW then (ServoPinDefs (g * 3 + i)).outsetRegAddr
                  else (ServoPinDefs (g * 3 + i)).outclrRegAddr
                bitMap := (ServoPinDefs (g * 3 + i)).bitMap
                nextEdge := 3000 * g + 20 + K j }
          ∧ (servo_pulse_update s).ServoPulseEdges (6 * g + 4) =
              { regAddr := if K j > MAXIMUM_PW then (ServoPinDefs (g * 3 + j)).outsetRegAddr
                  else (ServoPinDefs (g * 3 + j)).outclrRegAddr
                bitMap := (ServoPinDefs (g * 3 + j)).bitMap
                nextEdge := 3000 * g + 40 + K k }
          ∧ (servo_pulse_update s).ServoPulseEdges (6 * g + 5) =
              { regAddr := if K k > MAXIMUM_PW then (ServoPinDefs (g * 3 + k)).outsetRegAddr
                  else (ServoPinDefs (g * 3 + k)).outclrRegAddr
                bitMap := (ServoPinDefs (g * 3 + k)).bitMap
                nextEdge := if g < 3 then 3000 * g + 3000 else 0 })) := by
  have hd := servo_pulse_update_defs s h
  rw [servo_pulse_update_regen s h] at hd ⊢
  interval_cases g
  · obtain ⟨i, j, k, hi, hj, hk, hij, hik, hjk, H⟩ := groupBody_spec 0 (by omega)
      { s with
        EdgeIndex := 0
        LoopCount := u64 (s.LoopCount + 1)
        MillisRemainingInCommand :=
          if i32 (s.MillisRemainingInCommand - SERVO_PULSE_PERIOD_MS) < 0 then 0
          else i32 (s.MillisRemainingInCommand - SERVO_PULSE_PERIOD_MS) }
    refine ⟨i, j, k, hi, hj, hk, hij, hik, hjk, ?_⟩
    intro K hK
    have H' := H K (by
      intro o ho
      rw [hK o ho, hd]
      simp only [groupBody_defs]
      split_ifs <;> first | rfl | omega)
    simp (disch := omega) only [groupBody_edges_other]
    exact H'
  · obtain ⟨i, j, k, hi, hj, hk, hij, hik, hjk, H⟩ := groupBody_spec 1 (by omega)
      (groupBody 0 { s with
        EdgeIndex := 0
        LoopCount := u64 (s.LoopCount + 1)
        MillisRemainingInCommand :=
          if i32 (s.MillisRemainingInCommand - SERVO_PULSE_PERIOD_MS) < 0 then 0
          else i32 (s.MillisRemainingInCommand - SERVO_PULSE_PERIOD_MS) })
    refine ⟨i, j, k, hi, hj, hk, hij, hik, hjk, ?_⟩
    intro K hK
    have H' := H K (by
      intro o ho
      rw [hK o ho, hd]
      simp only [groupBody_defs]
      split_ifs <;> first | rfl | omega)
    simp (disch := omega) only [groupBody_edges_other]
    exact H'
  · obtain ⟨i, j, k, hi, hj, hk, hij, hik, hjk, H⟩ := groupBody_spec 2 (by omega)
      (groupBody 1 (groupBody 0 { s with
        EdgeIndex := 0
        LoopCount := u64 (s.LoopCount + 1)
        MillisRemainingInCommand :=
          if i32 (s.MillisRemainingInCommand - SERVO_PULSE_PERIOD_MS) < 0 then 0
          else i32 (s.MillisRemainingInCommand - SERVO_PULSE_PERIOD_MS) }))
    refine ⟨i, j, k, hi, hj, hk, hij, hik, hjk, ?_⟩
    intro K hK
    have H' := H K (by
      intro o ho
      rw [hK o ho, hd]
      simp only [groupBody_defs]
      split_ifs <;> first | rfl | omega)
    simp (disch := omega) only [groupBody_edges_other]
    exact H'
  · obtain ⟨i, j, k, hi, hj, hk, hij, hik, hjk, H⟩ := groupBody_spec 3 (by omega)
      (groupBody 2 (groupBody 1 (groupBody 0 { s with
        EdgeIndex := 0
        LoopCount := u64 (s.LoopCount + 1)
        MillisRemainingInCommand :=
          if i32 (s.MillisRemainingInCommand - SERVO_PULSE_PERIOD_MS) < 0 then 0
          else i32 (s.MillisRemainingInCommand - SERVO_PULSE_PERIOD_MS) })))
    refine ⟨i, j, k, hi, hj, hk, hij, hik, hjk, ?_⟩
    intro K hK
    exact H K (by
      intro o ho
      rw [hK o ho, hd]
      simp only [groupBody_defs]
      split_ifs <;> first | rfl | omega)

/-! ## The commit of `servo_calculations_update` -/

theorem servoMoveTime_le (d : Int) (v : Nat) : servoMoveTime d v ≤ 65535 := by
  unfold servoMoveTime
  simp only
  split_ifs <;> omega

theorem sameCmd_vote {c d : ServoCmd} (h : sameCmd c d) (p : PulseDef) :
    servoVote c p = servoVote d p ∧ timeProfiled c p = timeProfiled d p
      ∧ isImmediate c p = isImmediate d p := by
  obtain ⟨h1, h2, h3⟩ := h
  simp only [servoVote, timeProfiled, isImmediate, h1, h2, h3, and_self]

theorem moveTimeBody_spec (defs : Nat → PulseDef) (cmds : Nat → ServoCmd) (m n : Nat) :
    (∀ n', sameCmd ((moveTimeBody defs (cmds, m) n).1 n') (cmds n'))
    ∧ (moveTimeBody defs (cmds, m) n).2
        = if timeProfiled (cmds n) (defs n) then max m (servoVote (cmds n) (defs n)) else m := by
  unfold moveTimeBody timeProfiled
  by_cases hc : (cmds n).isCommanded = true
  · by_cases hi : isImmediate (cmds n) (defs n) = true
    · simp [hc, hi, sameCmd]
    · simp only [hc, hi, Bool.not_true, Bool.false_eq_true, if_false, Bool.not_false,
        Bool.and_self, if_true]
      constructor
      · intro n'
        by_cases hs : (cmds n).targetSpeed = 0
        · by_cases hn : n' = n
          · subst hn; simp [hs, hc, sameCmd]
          · simp [hs, sameCmd, Function.update_noteq hn]
        · simp [hs, sameCmd]
      · have hv : ∀ v, servoMoveTime (servoPwDeltaAbs (cmds n).targetPW (defs n).currentPW_l16) v
            ≤ 65535 := fun v => servoMoveTime_le _ v
        by_cases hs : (cmds n).targetSpeed = 0
        · simp only [hs, if_true, Function.update_same, servoVote]
          have := hv 1
          simp only [u16]
          split_ifs <;> omega
        · simp only [hs, if_false, servoVote]
          have := hv (cmds n).targetSpeed
          simp only [u16]
          split_ifs <;> omega
  · simp [hc, sameCmd]

/-- The move time loop over a list of servos: the result is the largest of the
starting value and the move times of the time-profiled servos of the list. -/
theorem moveTimeFold_spec (defs : Nat → PulseDef) (c0 : Nat → ServoCmd) (l : List Nat) :
    ∀ (st : (Nat → ServoCmd) × Nat), (∀ n, sameCmd (st.1 n) (c0 n)) →
      (∀ n, sameCmd ((l.foldl (moveTimeBody defs) st).1 n) (c0 n))
      ∧ st.2 ≤ (l.foldl (moveTimeBody defs) st).2
      ∧ (∀ n ∈ l, timeProfiled (c0 n) (defs n) = true →
          servoVote (c0 n) (defs n) ≤ (l.foldl (moveTimeBody defs) st).2)
      ∧ ((l.foldl (moveTimeBody defs) st).2 = st.2
          ∨ ∃ n ∈ l, timeProfiled (c0 n) (defs n) = true
              ∧ (l.foldl (moveTimeBody defs) st).2 = servoVote (c0 n) (defs n)) := by
  induction l with
  | nil => intro st h; simp [h]
  | cons a l ih =>
    intro st h
    obtain ⟨hb1, hb2⟩ := moveTimeBody_spec defs st.1 st.2 a
    have hsame : ∀ n, sameCmd ((moveTimeBody defs st a).1 n) (c0 n) := by
      intro n
      obtain ⟨x1, x2, x3⟩ := hb1 n
      obtain ⟨y1, y2, y3⟩ := h n
      exact ⟨x1.trans y1, x2.trans y2, x3.trans y3⟩
    obtain ⟨i1, i2, i3, i4⟩ := ih (moveTimeBody defs st a) hsame
    obtain ⟨v1, v2, _⟩ := sameCmd_vote (h a) (defs a)
    have hb2' : (moveTimeBody defs st a).2
        = if timeProfiled (c0 a) (defs a) then max st.2 (servoVote (c0 a) (defs a)) else st.2 := by
      rw [← v1, ← v2]; exact hb2
    simp only [List.foldl_cons, List.mem_cons]
    refine ⟨i1, ?_, ?_, ?_⟩
    · refine le_trans ?_ i2
      rw [hb2']; split_ifs
      · exact le_max_left _ _
      · exact le_refl _
    · intro n hn htp
      rcases hn with rfl | hn
      · refine le_trans ?_ i2
        rw [hb2', if_pos htp]; exact le_max_right _ _
      · exact i3 n hn htp
    · rcases i4 with e | ⟨n, hn, htp, e⟩
      · rw [e, hb2']
        by_cases htp : timeProfiled (c0 a) (defs a) = true
        · rw [if_pos htp]
          rcases le_total st.2 (servoVote (c0 a) (defs a)) with hle | hle
          · right; exact ⟨a, Or.inl rfl, htp, max_eq_right hle⟩
          · left; exact max_eq_left hle
        · rw [if_neg htp]; left; rfl
      · right; exact ⟨n, Or.inr hn, htp, e⟩

theorem sameCmd_refl (c : ServoCmd) : sameCmd c c := ⟨rfl, rfl, rfl⟩

/-- The computed move duration is the maximum of the commanded move time and
the move times of the time-profiled servos. -/
theorem moveTimeLoop_spec (s : State) :
    (∀ n, sameCmd ((moveTimeLoop s).1 n) (s.ServoCmdArray n))
    ∧ s.ServoCmdMoveTime ≤ (moveTimeLoop s).2
    ∧ (∀ n, n < 12 → timeProfiled (s.ServoCmdArray n) (s.ServoPulseDefs n) = true →
        servoVote (s.ServoCmdArray n) (s.ServoPulseDefs n) ≤ (moveTimeLoop s).2)
    ∧ ((moveTimeLoop s).2 = s.ServoCmdMoveTime
        ∨ ∃ n, n < 12 ∧ timeProfiled (s.ServoCmdArray n) (s.ServoPulseDefs n) = true
            ∧ (moveTimeLoop s).2 = servoVote (s.ServoCmdArray n) (s.ServoPulseDefs n)) := by
  obtain ⟨h1, h2, h3, h4⟩ := moveTimeFold_spec s.ServoPulseDefs s.ServoCmdArray
    (List.range NUM_SERVOS) (s.ServoCmdArray, s.ServoCmdMoveTime) (fun n => sameCmd_refl _)
  refine ⟨h1, h2, ?_, ?_⟩
  · intro n hn htp
    exact h3 n (List.mem_range.mpr hn) htp
  · rcases h4 with e | ⟨n, hn, htp, e⟩
    · left; exact e
    · right; exact ⟨n, List.mem_range.mp hn, htp, e⟩

theorem deltaChannel_sameCmd {c d : ServoCmd} (h : sameCmd c d) (D : Nat) (p : PulseDef) :
    deltaChannel c D p = deltaChannel d D p := by
  obtain ⟨_, h2, _⟩ := h
  simp only [deltaChannel, isImmediate, h2]

/-- Line 103 is reached with a zero divisor exactly for a time-profiled servo
and a zero move duration. -/
theorem deltaChannel_isSome (cmd : ServoCmd) (D : Nat) (p : PulseDef) :
    (deltaChannel cmd D p).isSome = (isImmediate cmd p || decide (D ≠ 0)) := by
  unfold deltaChannel
  by_cases hi : isImmediate cmd p = true
  · simp [hi]
  · by_cases hD : D = 0 <;> simp [hi, hD]

theorem deltaBody_spec (cmds : Nat → ServoCmd) (D : Nat) (st : (Nat → PulseDef) × Int) (a : Nat)
    (ok : D ≠ 0 ∨ timeProfiled (cmds a) (st.1 a) = false) :
    ∃ r, deltaBody cmds D st a = some r
      ∧ (∀ n, n ≠ a → r.1 n = st.1 n)
      ∧ ((cmds a).isCommanded = true → deltaChannel (cmds a) D (st.1 a) = some (r.1 a))
      ∧ ((cmds a).isCommanded = false → r.1 a = st.1 a)
      ∧ r.2 = if timeProfiled (cmds a) (st.1 a) then (D : Int) else st.2 := by
  unfold deltaBody
  by_cases hc : (cmds a).isCommanded = true
  · have hs : (deltaChannel (cmds a) D (st.1 a)).isSome = true := by
      rw [deltaChannel_isSome]
      rcases ok with hD | htp
      · simp [hD]
      · simp only [timeProfiled, hc, Bool.true_and, Bool.not_eq_false'] at htp
        simp [htp]
    obtain ⟨p, hp⟩ := Option.isSome_iff_exists.mp hs
    simp only [hc, Bool.not_true, Bool.false_eq_true, if_false, hp]
    refine ⟨_, rfl, ?_, ?_, ?_, ?_⟩
    · intro n hn; simp [Function.update_noteq hn]
    · intro _; simp
    · intro h; simp at h
    · simp only [timeProfiled, hc, Bool.true_and]
      by_cases hi : isImmediate (cmds a) (st.1 a) = true <;> simp [hi]
  · simp only [Bool.not_eq_true] at hc
    simp only [hc, Bool.not_false, if_true]
    refine ⟨st, rfl, fun _ _ => rfl, ?_, fun _ => rfl, ?_⟩
    · intro h; simp at h
    · simp [timeProfiled, hc]

theorem deltaBody_none (cmds : Nat → ServoCmd) (st : (Nat → PulseDef) × Int) (a : Nat)
    (htp : timeProfiled (cmds a) (st.1 a) = true) : deltaBody cmds 0 st a = none := by
  simp only [timeProfiled, Bool.and_eq_true, Bool.not_eq_true'] at htp
  simp [deltaBody, deltaChannel, htp.1, htp.2]

/-- The delta loop over a list of distinct servos, when line 103 never divides
by zero. -/
theorem deltaFold_some (cmds : Nat → ServoCmd) (D : Nat) (l : List Nat) (hl : l.Nodup) :
    ∀ (st : (Nat → PulseDef) × Int),
      (D ≠ 0 ∨ ∀ n ∈ l, timeProfiled (cmds n) (st.1 n) = false) →
      ∃ r, l.foldlM (deltaBody cmds D) st = some r
        ∧ (∀ n, n ∈ l → (cmds n).isCommanded = true →
            deltaChannel (cmds n) D (st.1 n) = some (r.1 n))
        ∧ (∀ n, ¬ (n ∈ l ∧ (cmds n).isCommanded = true) → r.1 n = st.1 n)
        ∧ r.2 = if l.any (fun n => timeProfiled (cmds n) (st.1 n)) then (D : Int) else st.2 := by
  induction l with
  | nil => intro st _; exact ⟨st, rfl, by simp, by simp, by simp⟩
  | cons a l ih =>
    intro st ok
    have hal : a ∉ l := (List.nodup_cons.mp hl).1
    obtain ⟨r1, e1, f1, c1, u1, m1⟩ := deltaBody_spec cmds D st a (by
      rcases ok with h | h
      · exact Or.inl h
      · exact Or.inr (h a (List.mem_cons_self a l)))
    have same : ∀ n ∈ l, r1.1 n = st.1 n := fun n hn => f1 n (fun h => hal (h ▸ hn))
    obtain ⟨r, e, c, u, m⟩ := ih (List.nodup_cons.mp hl).2 r1 (by
      rcases ok with h | h
      · exact Or.inl h
      · right; intro n hn
        rw [same n hn]; exact h n (List.mem_cons_of_mem a hn))
    refine ⟨r, ?_, ?_, ?_, ?_⟩
    · simp only [List.foldlM_cons, e1]; exact e
    · intro n hn hc
      rcases List.mem_cons.mp hn with rfl | hn
      · rw [c1 hc]
        congr 1
        exact (u n (fun h => hal h.1)).symm
      · rw [← same n hn]; exact c n hn hc
    · intro n hn
      by_cases hnl : n ∈ l
      · have hc : ¬ (cmds n).isCommanded = true := fun hc => hn ⟨List.mem_cons_of_mem a hnl, hc⟩
        rw [u n (fun h => hc h.2), same n hnl]
      · rw [u n (fun h => hnl h.1)]
        by_cases hna : n = a
        · subst hna
          have hc : (cmds n).isCommanded = false := by
            by_contra hc
            exact hn ⟨List.mem_cons_self n l, by simpa using hc⟩
          exact u1 hc
        · exact f1 n hna
    · rw [m, m1]
      have hany : (l.any fun n => timeProfiled (cmds n) (r1.1 n))
          = (l.any fun n => timeProfiled (cmds n) (st.1 n)) := by
        apply Bool.eq_iff_iff.mpr
        simp only [List.any_eq_true]
        constructor
        · rintro ⟨n, hn, h⟩; exact ⟨n, hn, by rw [← same n hn]; exact h⟩
        · rintro ⟨n, hn, h⟩; exact ⟨n, hn, by rw [same n hn]; exact h⟩
      rw [hany]
      simp only [List.any_cons]
      by_cases h1 : timeProfiled (cmds a) (st.1 a) = true
      · simp [h1]
      · simp [h1]

/-- The delta loop stops at line 103 when the move duration is zero and a servo
of the list is time-profiled. -/
theorem deltaFold_none (cmds : Nat → ServoCmd) (l : List Nat) (hl : l.Nodup) :
    ∀ (st : (Nat → PulseDef) × Int),
      (∃ n ∈ l, timeProfiled (cmds n) (st.1 n) = true) →
      l.foldlM (deltaBody cmds 0) st = none := by
  induction l with
  | nil => intro st h; simp at h
  | cons a l ih =>
    intro st h
    have hal : a ∉ l := (List.nodup_cons.mp hl).1
    by_cases ha : timeProfiled (cmds a) (st.1 a) = true
    · simp [List.foldlM_cons, deltaBody_none cmds st a ha]
    · obtain ⟨r1, e1, f1, _⟩ := deltaBody_spec cmds 0 st a (Or.inr (by simpa using ha))
      simp only [List.foldlM_cons, e1]
      apply ih (List.nodup_cons.mp hl).2
      obtain ⟨n, hn, htp⟩ := h
      rcases List.mem_cons.mp hn with rfl | hn
      · exact absurd htp ha
      · exact ⟨n, hn, by rw [f1 n (fun h => hal (h ▸ hn))]; exact htp⟩

theorem range12_nodup : (List.range NUM_SERVOS).Nodup := List.nodup_range NUM_SERVOS

theorem resetFold_apply (l : List Nat) :
    ∀ (c : Nat → ServoCmd) (n : Nat), n ∈ l →
      (l.foldl (fun c i => Function.update c i
        { isCommanded := false, targetSpeed := 65535, targetPW := 0 }) c) n
        = { isCommanded := false, targetSpeed := 65535, targetPW := 0 } := by
  induction l using List.reverseRecOn with
  | nil => intro c n h; simp at h
  | append_singleton l a ih =>
    intro c n h
    simp only [List.foldl_append, List.foldl_cons, List.foldl_nil]
    by_cases hna : n = a
    · subst hna; simp
    · rw [Function.update_noteq hna]
      apply ih
      rcases List.mem_append.mp h with h | h
      · exact h
      · simp at h; exact absurd h hna

/-- The commit completes whenever line 103 does not divide by zero, and then
every commanded servo holds the entry that `deltaChannel` computes for it. -/
theorem servo_calculations_update_some (s : State) (hw : s.ServoCmdWaiting = true)
    (ok : (moveTimeLoop s).2 ≠ 0
      ∨ ∀ n, n < 12 → timeProfiled (s.ServoCmdArray n) (s.ServoPulseDefs n) = false) :
    ∃ s', servo_calculations_update s = some s'
      ∧ (∀ n, n < 12 → (s.ServoCmdArray n).isCommanded = true →
          deltaChannel (s.ServoCmdArray n) (moveTimeLoop s).2 (s.ServoPulseDefs n)
            = some (s'.ServoPulseDefs n))
      ∧ (∀ n, ¬ (n < 12 ∧ (s.ServoCmdArray n).isCommanded = true) →
          s'.ServoPulseDefs n = s.ServoPulseDefs n)
      ∧ s'.MillisRemainingInCommand
          = (if (List.range NUM_SERVOS).any
                (fun n => timeProfiled (s.ServoCmdArray n) (s.ServoPulseDefs n))
             then ((moveTimeLoop s).2 : Int) else s.MillisRemainingInCommand)
      ∧ s'.ServoPulseEdges = s.ServoPulseEdges ∧ s'.EdgeIndex = s.EdgeIndex
      ∧ s'.LoopCount = s.LoopCount ∧ s'.pulseWidths = s.pulseWidths
      ∧ s'.TCA0_SINGLE_CMP0 = s.TCA0_SINGLE_CMP0 ∧ s'.TCA0_CMP0_flag = s.TCA0_CMP0_flag
      ∧ s'.PORT_OUT = s.PORT_OUT
      ∧ s'.ServoCmdWaiting = false ∧ s'.ServoCmdMoveTime = 0
      ∧ (∀ n, n < 12 → s'.ServoCmdArray n
          = { isCommanded := false, targetSpeed := 65535, targetPW := 0 }) := by
  obtain ⟨hs, -, -, -⟩ := moveTimeLoop_spec s
  have hloop : moveTimeLoop { s with ServoCmdWaiting := false } = moveTimeLoop s := rfl
  have htp : ∀ n, timeProfiled ((moveTimeLoop s).1 n) (s.ServoPulseDefs n)
      = timeProfiled (s.ServoCmdArray n) (s.ServoPulseDefs n) :=
    fun n => (sameCmd_vote (hs n) _).2.1
  obtain ⟨r, e, c, u, m⟩ := deltaFold_some (moveTimeLoop s).1 (moveTimeLoop s).2
    (List.range NUM_SERVOS) range12_nodup (s.ServoPulseDefs, s.MillisRemainingInCommand) (by
      rcases ok with h | h
      · exact Or.inl h
      · right; intro n hn
        rw [htp]; exact h n (List.mem_range.mp hn))
  simp only [servo_calculations_update, hw, Bool.not_true, Bool.false_eq_true, if_false, hloop, e]
  refine ⟨_, rfl, ?_, ?_, ?_, rfl, rfl, rfl, rfl, rfl, rfl, rfl, rfl, rfl, ?_⟩
  · intro n hn hc
    rw [← deltaChannel_sameCmd (hs n)]
    exact c n (List.mem_range.mpr hn) (by rw [(hs n).1]; exact hc)
  · intro n hn
    apply u
    rintro ⟨h1, h2⟩
    exact hn ⟨List.mem_range.mp h1, by rw [← (hs n).1]; exact h2⟩
  · simp only [m]
    congr 1
    simp only [htp]
  · intro n hn
    exact resetFold_apply _ _ n (List.mem_range.mpr hn)

/-- The commit divides by zero at line 103 when the computed move duration is
zero and some servo of the command is time-profiled. -/
theorem servo_calculations_update_none (s : State) (hw : s.ServoCmdWaiting = true)
    (hD : (moveTimeLoop s).2 = 0)
    (h : ∃ n, n < 12 ∧ timeProfiled (s.ServoCmdArray n) (s.ServoPulseDefs n) = true) :
    servo_calculations_update s = none := by
  obtain ⟨hs, -, -, -⟩ := moveTimeLoop_spec s
  have hloop : moveTimeLoop { s with ServoCmdWaiting := false } = moveTimeLoop s := rfl
  obtain ⟨n, hn, htp⟩ := h
  have e := deltaFold_none (moveTimeLoop s).1 (List.range NUM_SERVOS) range12_nodup
    (s.ServoPulseDefs, s.MillisRemainingInCommand)
    ⟨n, List.mem_range.mpr hn, by rw [(sameCmd_vote (hs n) _).2.1]; exact htp⟩
  simp only [servo_calculations_update, hw, Bool.not_true, Bool.false_eq_true, if_false, hloop,
    hD, e]

/-! ## Accumulation over frames -/

theorem accumulate_up (T c d : Nat) (hT : T < 65536) (hc : c ≤ T * 65536)
    (hd : T * 65536 + d < 4294967296) :
    accumulate { targetPW := T, currentPW_l16 := c, deltaPW_l16 := (d : Int) }
      = { targetPW := T, currentPW_l16 := min (T * 65536) (c + d), deltaPW_l16 := (d : Int) } := by
  unfold accumulate
  simp only [u32OfInt, u32]
  have e1 : (((c : Int) + (d : Int)) % 4294967296).toNat = c + d := by omega
  have e2 : T * 65536 % 4294967296 = T * 65536 := by omega
  rw [e1, e2]
  split_ifs with h <;> congr 1 <;> omega

theorem accumulate_down (T c d : Nat) (hc : T * 65536 ≤ c) (hc2 : c < 4294967296)
    (hd : d ≤ T * 65536) :
    accumulate { targetPW := T, currentPW_l16 := c, deltaPW_l16 := -(d : Int) }
      = { targetPW := T, currentPW_l16 := max (T * 65536) (c - d), deltaPW_l16 := -(d : Int) } := by
  unfold accumulate
  simp only [u32OfInt, u32]
  have e1 : (((c : Int) + -(d : Int)) % 4294967296).toNat = c - d := by omega
  have e2 : T * 65536 % 4294967296 = T * 65536 := by omega
  rw [e1, e2]
  split_ifs with h <;> congr 1 <;> omega

theorem accumulate_up_iterate (T d : Nat) (hT : T < 65536) (hd : T * 65536 + d < 4294967296)
    (k : Nat) : ∀ c, c ≤ T * 65536 →
    Nat.iterate accumulate k { targetPW := T, currentPW_l16 := c, deltaPW_l16 := (d : Int) }
      = { targetPW := T, currentPW_l16 := min (T * 65536) (c + k * d), deltaPW_l16 := (d : Int) } := by
  induction k with
  | zero => intro c hc; simp [hc]
  | succ k ih =>
    intro c hc
    rw [Function.iterate_succ_apply, accumulate_up T c d hT hc hd, ih _ (min_le_left _ _)]
    congr 1
    rcases le_total (T * 65536) (c + d) with h | h
    · rw [min_eq_left h, min_eq_left, min_eq_left]
      · nlinarith
      · exact Nat.le_add_right _ _
    · rw [min_eq_right h]; congr 1; ring

theorem accumulate_down_iterate (T d : Nat) (hd : d ≤ T * 65536)
    (k : Nat) : ∀ c, T * 65536 ≤ c → c < 4294967296 →
    Nat.iterate accumulate k { targetPW := T, currentPW_l16 := c, deltaPW_l16 := -(d : Int) }
      = { targetPW := T, currentPW_l16 := max (T * 65536) (c - k * d),
          deltaPW_l16 := -(d : Int) } := by
  induction k with
  | zero => intro c hc _; simp [hc]
  | succ k ih =>
    intro c hc hc2
    rw [Function.iterate_succ_apply, accumulate_down T c d hc hc2 hd,
      ih _ (le_max_left _ _) (by omega)]
    congr 1
    rcases le_total (c - d) (T * 65536) with h | h
    · rw [max_eq_left h, max_eq_left (by omega), max_eq_left]
      have : (k + 1) * d = k * d + d := by ring
      omega
    · rw [max_eq_right h]
      have : (k + 1) * d = k * d + d := by ring
      rw [this]
      congr 1
      omega

theorem ISR_iterate (m : Nat) : ∀ s : State, s.EdgeIndex + m ≤ 24 →
    (Nat.iterate ISR_TCA0_CMP0 m s).EdgeIndex = s.EdgeIndex + m
    ∧ (Nat.iterate ISR_TCA0_CMP0 m s).ServoPulseDefs = s.ServoPulseDefs := by
  induction m with
  | zero => intro s _; exact ⟨rfl, rfl⟩
  | succ m ih =>
    intro s h
    rw [Function.iterate_succ_apply]
    have e : (ISR_TCA0_CMP0 s).EdgeIndex = s.EdgeIndex + 1 := by
      simp only [ISR_TCA0_CMP0, u8]; omega
    obtain ⟨h1, h2⟩ := ih (ISR_TCA0_CMP0 s) (by rw [e]; omega)
    exact ⟨by rw [h1, e]; omega, by rw [h2]; rfl⟩

theorem drainEdges_spec (s : State) :
    24 ≤ (drainEdges s).EdgeIndex ∧ (drainEdges s).ServoPulseDefs = s.ServoPulseDefs := by
  unfold drainEdges
  by_cases h : s.EdgeIndex ≤ 24
  · obtain ⟨h1, h2⟩ := ISR_iterate (2 * NUM_SERVOS - s.EdgeIndex) s (by simp only [NUM_SERVOS]; omega)
    exact ⟨by rw [h1]; simp only [NUM_SERVOS]; omega, h2⟩
  · have e : 2 * NUM_SERVOS - s.EdgeIndex = 0 := by simp only [NUM_SERVOS]; omega
    rw [e]
    exact ⟨by simp only [Function.iterate_zero, id]; omega, rfl⟩

/-- One frame accumulates every channel once. -/
theorem pulseFrame_defs (s : State) (n : Nat) :
    (pulseFrame s).ServoPulseDefs n
      = if n < 12 then accumulate (s.ServoPulseDefs n) else s.ServoPulseDefs n := by
  obtain ⟨h1, h2⟩ := drainEdges_spec s
  rw [pulseFrame, servo_pulse_update_defs _ h1, h2]

/-- After `k` frames channel `n` has been accumulated `k` times. -/
theorem pulseFrames_defs (k : Nat) (n : Nat) (hn : n < 12) : ∀ s : State,
    (pulseFrames k s).ServoPulseDefs n = Nat.iterate accumulate k (s.ServoPulseDefs n) := by
  induction k with
  | zero => intro s; rfl
  | succ k ih =>
    intro s
    have e : pulseFrames (k + 1) s = pulseFrames k (pulseFrame s) := by
      simp only [pulseFrames, Function.iterate_succ_apply]
    rw [e, ih, pulseFrame_defs, if_pos hn, Function.iterate_succ_apply]

/-! ## The stored delta -/

/-- The move time of a servo whose widths are below 32768: the absolute
difference of the widths at the commanded speed, clipped to 16 bits. -/
theorem servoVote_eq (cmd : ServoCmd) (p : PulseDef) (hT : cmd.targetPW < 32768)
    (hw : p.currentPW_l16 / 65536 < 32768) :
    servoVote cmd p
      = min 65535 (1000 * ((cmd.targetPW - p.currentPW_l16 / 65536)
            + (p.currentPW_l16 / 65536 - cmd.targetPW))
          / (if cmd.targetSpeed = 0 then 1 else cmd.targetSpeed)) := by
  have e : servoPwDeltaAbs cmd.targetPW p.currentPW_l16
      = (((cmd.targetPW - p.currentPW_l16 / 65536)
            + (p.currentPW_l16 / 65536 - cmd.targetPW) : Nat) : Int) := by
    unfold servoPwDeltaAbs
    simp only [i16, u16]
    split_ifs <;> omega
  unfold servoVote
  rw [e]
  unfold servoMoveTime
  simp only [u32OfInt, u32]
  have e2 : ((((cmd.targetPW - p.currentPW_l16 / 65536)
            + (p.currentPW_l16 / 65536 - cmd.targetPW) : Nat) : Int) % 4294967296).toNat
      = (cmd.targetPW - p.currentPW_l16 / 65536) + (p.currentPW_l16 / 65536 - cmd.targetPW) := by
    omega
  rw [e2]
  have e3 : 1000 * ((cmd.targetPW - p.currentPW_l16 / 65536)
      + (p.currentPW_l16 / 65536 - cmd.targetPW)) % 4294967296
      = 1000 * ((cmd.targetPW - p.currentPW_l16 / 65536)
      + (p.currentPW_l16 / 65536 - cmd.targetPW)) := by omega
  rw [e3]
  generalize 1000 * ((cmd.targetPW - p.currentPW_l16 / 65536)
      + (p.currentPW_l16 / 65536 - cmd.targetPW))
      / (if cmd.targetSpeed = 0 then 1 else cmd.targetSpeed) = X
  rw [Nat.min_def]
  split_ifs <;> omega

theorem deltaChannel_profiled (cmd : ServoCmd) (D : Nat) (p : PulseDef)
    (hi : isImmediate cmd p = false) (hD : D ≠ 0) :
    deltaChannel cmd D p
      = some { targetPW := cmd.targetPW
               currentPW_l16 := p.currentPW_l16
               deltaPW_l16 := i32 (SERVO_PULSE_PERIOD_MS * Int.tdiv
                 (i32 ((u32 (cmd.targetPW * 65536) : Int) - (p.currentPW_l16 : Int))) D) } := by
  simp [deltaChannel, hi, hD]

theorem deltaChannel_immediate (cmd : ServoCmd) (D : Nat) (p : PulseDef)
    (hi : isImmediate cmd p = true) :
    deltaChannel cmd D p
      = some { targetPW := cmd.targetPW
               currentPW_l16 := u32 (cmd.targetPW * 65536)
               deltaPW_l16 := 0 } := by
  simp [deltaChannel, hi]

/-- An upward move: the stored delta is `20 * ((target - current) / D)`. -/
theorem delta_up (T c D : Nat) (hT : T * 65536 < 2147483648) (hc : c ≤ T * 65536)
    (hq : 20 * ((T * 65536 - c) / D) < 2147483648) :
    i32 (SERVO_PULSE_PERIOD_MS * Int.tdiv (i32 ((u32 (T * 65536) : Int) - (c : Int))) D)
      = ((20 * ((T * 65536 - c) / D) : Nat) : Int) := by
  have e1 : i32 ((u32 (T * 65536) : Int) - (c : Int)) = ((T * 65536 - c : Nat) : Int) := by
    simp only [i32, u32]; omega
  rw [e1, Int.tdiv_eq_ediv (Int.ofNat_zero_le _) (Int.ofNat_zero_le _)]
  have e2 : (((T * 65536 - c : Nat) : Int) / (D : Int)) = (((T * 65536 - c) / D : Nat) : Int) := by
    norm_cast
  rw [e2]
  simp only [i32, SERVO_PULSE_PERIOD_MS]
  push_cast
  omega

/-- A downward move: the stored delta is `-(20 * ((current - target) / D))`. -/
theorem delta_down (T c D : Nat) (hc2 : c < 2147483648) (hc : T * 65536 ≤ c)
    (hq : 20 * ((c - T * 65536) / D) < 2147483648) :
    i32 (SERVO_PULSE_PERIOD_MS * Int.tdiv (i32 ((u32 (T * 65536) : Int) - (c : Int))) D)
      = -((20 * ((c - T * 65536) / D) : Nat) : Int) := by
  have e1 : i32 ((u32 (T * 65536) : Int) - (c : Int)) = -((c - T * 65536 : Nat) : Int) := by
    simp only [i32, u32]; omega
  rw [e1, Int.neg_tdiv, Int.tdiv_eq_ediv (Int.ofNat_zero_le _) (Int.ofNat_zero_le _)]
  have e2 : (((c - T * 65536 : Nat) : Int) / (D : Int)) = (((c - T * 65536) / D : Nat) : Int) := by
    norm_cast
  rw [e2]
  simp only [i32, SERVO_PULSE_PERIOD_MS]
  push_cast
  omega

/-- The per-frame step never leaves the signed 32-bit range when the widths lie
in the servo range and the move duration is at least the move time of the servo. -/
theorem step_bound (T c D sp x : Nat) (hT : 500 ≤ T ∧ T ≤ 2500)
    (hW : 500 ≤ c / 65536 ∧ c / 65536 ≤ 2500) (hD : 1 ≤ D) (hsp : 1 ≤ sp ∧ sp ≤ 65535)
    (hv : min 65535 (1000 * ((T - c / 65536) + (c / 65536 - T)) / sp) ≤ D)
    (hx : x = T * 65536 - c ∨ x = c - T * 65536) :
    20 * (x / D) < 2147483648 := by
  by_cases ha : (T - c / 65536) + (c / 65536 - T) ≤ 1637
  · have h1 : x / D ≤ x := Nat.div_le_self x D
    omega
  · have h24 : 24 ≤ 1000 * ((T - c / 65536) + (c / 65536 - T)) / sp := by
      rw [Nat.le_div_iff_mul_le (by omega)]
      omega
    have hD24 : 24 ≤ D := by
      rcases le_total 65535 (1000 * ((T - c / 65536) + (c / 65536 - T)) / sp) with h | h
      · rw [min_eq_left h] at hv; omega
      · rw [min_eq_right h] at hv; omega
    have h1 : x / D ≤ x / 24 := Nat.div_le_div_left hD24 (by omega)
    omega

/-! ## Claims -/

/-- The `nextEdge` values of the six entries of group `g` after a regenerating
`servo_pulse_update`, in terms of the three sorted keys `a ≤ b ≤ c`. -/
theorem group_nextEdges (s : State) (h : 24 ≤ s.EdgeIndex) (g : Nat) (hg : g < 4) :
    ∃ a b c : Nat, 499 ≤ a ∧ a ≤ b ∧ b ≤ c ∧ c ≤ 2501
      ∧ ((servo_pulse_update s).ServoPulseEdges (6 * g)).nextEdge = 3000 * g + 20
      ∧ ((servo_pulse_update s).ServoPulseEdges (6 * g + 1)).nextEdge = 3000 * g + 40
      ∧ ((servo_pulse_update s).ServoPulseEdges (6 * g + 2)).nextEdge = 3000 * g + a
      ∧ ((servo_pulse_update s).ServoPulseEdges (6 * g + 3)).nextEdge = 3000 * g + 20 + b
      ∧ ((servo_pulse_update s).ServoPulseEdges (6 * g + 4)).nextEdge = 3000 * g + 40 + c
      ∧ ((servo_pulse_update s).ServoPulseEdges (6 * g + 5)).nextEdge
          = if g < 3 then 3000 * g + 3000 else 0 := by
  obtain ⟨i, j, k, -, -, -, -, -, -, H⟩ := servo_pulse_update_spec s h g hg
  obtain ⟨o1, o2, -, -, -, e0, e1, e2, e3, e4, e5⟩ :=
    H (fun o => sortKey ((servo_pulse_update s).ServoPulseDefs (g * 3 + o)).currentPW_l16)
      (fun _ _ => rfl)
  refine ⟨_, _, _, (sortKey_bounds _).1, o1, o2, (sortKey_bounds _).2, ?_, ?_, ?_, ?_, ?_, ?_⟩
  · rw [e0]
  · rw [e1]
  · rw [e2]
  · rw [e3]
  · rw [e4]
  · rw [e5]

/-- C3, minimum edge spacing: after a regenerating `servo_pulse_update` the fire
times of the 24 table entries increase strictly, consecutive entries are at
least `RISING_EDGE_SPACING` ticks apart, and the six fire times of group `g` lie
in the window from `3000 * g` up to, not including, `3000 * g + 3000`. -/
theorem edge_spacing (s : State) (h : 24 ≤ s.EdgeIndex) :
    (∀ k, k + 1 < 24 →
        fireTime (servo_pulse_update s).ServoPulseEdges k + RISING_EDGE_SPACING
          ≤ fireTime (servo_pulse_update s).ServoPulseEdges (k + 1))
    ∧ (∀ a b, a < b → b < 24 →
        fireTime (servo_pulse_update s).ServoPulseEdges a
          < fireTime (servo_pulse_update s).ServoPulseEdges b)
    ∧ (∀ g i, g < 4 → i < 6 →
        3000 * g ≤ fireTime (servo_pulse_update s).ServoPulseEdges (6 * g + i)
        ∧ fireTime (servo_pulse_update s).ServoPulseEdges (6 * g + i) < 3000 * g + 3000) := by
  obtain ⟨a0, b0, c0, x0⟩ := group_nextEdges s h 0 (by omega)
  obtain ⟨a1, b1, c1, x1⟩ := group_nextEdges s h 1 (by omega)
  obtain ⟨a2, b2, c2, x2⟩ := group_nextEdges s h 2 (by omega)
  obtain ⟨a3, b3, c3, x3⟩ := group_nextEdges s h 3 (by omega)
  simp only [Nat.mul_zero, Nat.mul_one, Nat.zero_add, Nat.reduceMul, Nat.reduceAdd,
    Nat.reduceLT, if_true, if_false, Nat.lt_irrefl] at x0 x1 x2 x3
  have gap : ∀ k, k + 1 < 24 →
      fireTime (servo_pulse_update s).ServoPulseEdges k + RISING_EDGE_SPACING
        ≤ fireTime (servo_pulse_update s).ServoPulseEdges (k + 1) := by
    intro k hk
    simp only [RISING_EDGE_SPACING]
    have hk' : k < 23 := by omega
    clear hk
    interval_cases k <;> simp only [fireTime, Nat.reduceAdd] <;> omega
  refine ⟨gap, ?_, ?_⟩
  · intro a b hab hb
    induction b with
    | zero => omega
    | succ b ih =>
      have hg := gap b hb
      simp only [RISING_EDGE_SPACING] at hg
      rcases Nat.lt_succ_iff_lt_or_eq.mp hab with h1 | h1
      · have := ih h1 (by omega); omega
      · subst h1; omega
  · intro g i hg hi
    interval_cases g <;> interval_cases i <;> simp only [fireTime, Nat.reduceAdd, Nat.reduceMul] <;>
      omega

set_option maxRecDepth 100000 in
/-- Witness of C3 at the idle state: the gate is open and the spacing holds. -/
theorem edge_spacing_witness :
    24 ≤ idleState.EdgeIndex ∧
    ((∀ k, k + 1 < 24 →
        fireTime (servo_pulse_update idleState).ServoPulseEdges k + RISING_EDGE_SPACING
          ≤ fireTime (servo_pulse_update idleState).ServoPulseEdges (k + 1))
    ∧ (∀ a b, a < b → b < 24 →
        fireTime (servo_pulse_update idleState).ServoPulseEdges a
          < fireTime (servo_pulse_update idleState).ServoPulseEdges b)
    ∧ (∀ g i, g < 4 → i < 6 →
        3000 * g ≤ fireTime (servo_pulse_update idleState).ServoPulseEdges (6 * g + i)
        ∧ fireTime (servo_pulse_update idleState).ServoPulseEdges (6 * g + i) < 3000 * g + 3000)) :=
  ⟨by decide, edge_spacing idleState (by decide)⟩

/-- An accumulated pulse width fits 32 bits. -/
theorem accumulate_lt (p : PulseDef) : (accumulate p).currentPW_l16 < 4294967296 := by
  unfold accumulate
  simp only [u32OfInt, u32]
  split_ifs <;> simp only <;> omega

/-- For a 32-bit pulse width the sort key of the code is the key of the
specification. -/
theorem sortKey_eq (c : Nat) (hc : c < 4294967296) : sortKey c = specKey c := by
  unfold sortKey specKey
  have e : u16 (c / 65536) = c / 65536 := by simp only [u16]; omega
  simp only [e]

/-- C10, group sort: after a regenerating `servo_pulse_update` the rising
entries `6 * g`, `6 * g + 1`, `6 * g + 2` of every group `g` carry the pins of
the three channels `c0`, `c1`, `c2` of the group in the order of non-decreasing
sort keys, the key of a channel being its width `currentPW_l16 / 65536` replaced
by 499 below 500 and by 2501 above 2500; channels with equal keys appear in
increasing channel number. -/
theorem group_sort (s : State) (h : 24 ≤ s.EdgeIndex) (g : Nat) (hg : g < 4) :
    ∃ c0 c1 c2 : Nat,
      (3 * g ≤ c0 ∧ c0 < 3 * g + 3) ∧ (3 * g ≤ c1 ∧ c1 < 3 * g + 3)
      ∧ (3 * g ≤ c2 ∧ c2 < 3 * g + 3) ∧ c0 ≠ c1 ∧ c0 ≠ c2 ∧ c1 ≠ c2
      ∧ ((servo_pulse_update s).ServoPulseEdges (6 * g)).bitMap = (ServoPinDefs c0).bitMap
      ∧ (((servo_pulse_update s).ServoPulseEdges (6 * g)).regAddr = (ServoPinDefs c0).outsetRegAddr
        ∨ ((servo_pulse_update s).ServoPulseEdges (6 * g)).regAddr
            = (ServoPinDefs c0).outclrRegAddr)
      ∧ ((servo_pulse_update s).ServoPulseEdges (6 * g + 1)).bitMap = (ServoPinDefs c1).bitMap
      ∧ (((servo_pulse_update s).ServoPulseEdges (6 * g + 1)).regAddr
            = (ServoPinDefs c1).outsetRegAddr
        ∨ ((servo_pulse_update s).ServoPulseEdges (6 * g + 1)).regAddr
            = (ServoPinDefs c1).outclrRegAddr)
      ∧ ((servo_pulse_update s).ServoPulseEdges (6 * g + 2)).bitMap = (ServoPinDefs c2).bitMap
      ∧ (((servo_pulse_update s).ServoPulseEdges (6 * g + 2)).regAddr
            = (ServoPinDefs c2).outsetRegAddr
        ∨ ((servo_pulse_update s).ServoPulseEdges (6 * g + 2)).regAddr
            = (ServoPinDefs c2).outclrRegAddr)
      ∧ specKey ((servo_pulse_update s).ServoPulseDefs c0).currentPW_l16
          ≤ specKey ((servo_pulse_update s).ServoPulseDefs c1).currentPW_l16
      ∧ specKey ((servo_pulse_update s).ServoPulseDefs c1).currentPW_l16
          ≤ specKey ((servo_pulse_update s).ServoPulseDefs c2).currentPW_l16
      ∧ (specKey ((servo_pulse_update s).ServoPulseDefs c0).currentPW_l16
          = specKey ((servo_pulse_update s).ServoPulseDefs c1).currentPW_l16 → c0 < c1)
      ∧ (specKey ((servo_pulse_update s).ServoPulseDefs c1).currentPW_l16
          = specKey ((servo_pulse_update s).ServoPulseDefs c2).currentPW_l16 → c1 < c2)
      ∧ (specKey ((servo_pulse_update s).ServoPulseDefs c0).currentPW_l16
          = specKey ((servo_pulse_update s).ServoPulseDefs c2).currentPW_l16 → c0 < c2) := by
  obtain ⟨i, j, k, hi, hj, hk, hij, hik, hjk, H⟩ := servo_pulse_update_spec s h g hg
  have hK : ∀ o, o < 3 →
      specKey ((servo_pulse_update s).ServoPulseDefs (g * 3 + o)).currentPW_l16
        = sortKey ((servo_pulse_update s).ServoPulseDefs (g * 3 + o)).currentPW_l16 := by
    intro o ho
    rw [sortKey_eq]
    rw [servo_pulse_update_defs s h, if_pos (by omega)]
    exact accumulate_lt _
  obtain ⟨o1, o2, s1, s2, s3, e0, e1, e2, -, -, -⟩ :=
    H (fun o => specKey ((servo_pulse_update s).ServoPulseDefs (g * 3 + o)).currentPW_l16) hK
  refine ⟨g * 3 + i, g * 3 + j, g * 3 + k, by omega, by omega, by omega, by omega, by omega,
    by omega, ?_, ?_, ?_, ?_, ?_, ?_, o1, o2, ?_, ?_, ?_⟩
  · rw [e0]
  · rw [e0]; simp only; split_ifs
    · exact Or.inr rfl
    · exact Or.inl rfl
  · rw [e1]
  · rw [e1]; simp only; split_ifs
    · exact Or.inr rfl
    · exact Or.inl rfl
  · rw [e2]
  · rw [e2]; simp only; split_ifs
    · exact Or.inr rfl
    · exact Or.inl rfl
  · intro h'; have := s1 h'; omega
  · intro h'; have := s2 h'; omega
  · intro h'; have := s3 h'; omega

set_option maxRecDepth 100000 in
/-- Witness of C10 at the idle state, for group 0. -/
theorem group_sort_witness :
    (24 ≤ idleState.EdgeIndex ∧ 0 < 4) ∧
    (∃ c0 c1 c2 : Nat,
      (3 * 0 ≤ c0 ∧ c0 < 3 * 0 + 3) ∧ (3 * 0 ≤ c1 ∧ c1 < 3 * 0 + 3)
      ∧ (3 * 0 ≤ c2 ∧ c2 < 3 * 0 + 3) ∧ c0 ≠ c1 ∧ c0 ≠ c2 ∧ c1 ≠ c2
      ∧ ((servo_pulse_update idleState).ServoPulseEdges (6 * 0)).bitMap = (ServoPinDefs c0).bitMap
      ∧ (((servo_pulse_update idleState).ServoPulseEdges (6 * 0)).regAddr = (ServoPinDefs c0).outsetRegAddr
        ∨ ((servo_pulse_update idleState).ServoPulseEdges (6 * 0)).regAddr
            = (ServoPinDefs c0).outclrRegAddr)
      ∧ ((servo_pulse_update idleState).ServoPulseEdges (6 * 0 + 1)).bitMap = (ServoPinDefs c1).bitMap
      ∧ (((servo_pulse_update idleState).ServoPulseEdges (6 * 0 + 1)).regAddr
            = (ServoPinDefs c1).outsetRegAddr
        ∨ ((servo_pulse_update idleState).ServoPulseEdges (6 * 0 + 1)).regAddr
            = (ServoPinDefs c1).outclrRegAddr)
      ∧ ((servo_pulse_update idleState).ServoPulseEdges (6 * 0 + 2)).bitMap = (ServoPinDefs c2).bitMap
      ∧ (((servo_pulse_update idleState).ServoPulseEdges (6 * 0 + 2)).regAddr
            = (ServoPinDefs c2).outsetRegAddr
        ∨ ((servo_pulse_update idleState).ServoPulseEdges (6 * 0 + 2)).regAddr
            = (ServoPinDefs c2).outclrRegAddr)
      ∧ specKey ((servo_pulse_update idleState).ServoPulseDefs c0).currentPW_l16
          ≤ specKey ((servo_pulse_update idleState).ServoPulseDefs c1).currentPW_l16
      ∧ specKey ((servo_pulse_update idleState).ServoPulseDefs c1).currentPW_l16
          ≤ specKey ((servo_pulse_update idleState).ServoPulseDefs c2).currentPW_l16
      ∧ (specKey ((servo_pulse_update idleState).ServoPulseDefs c0).currentPW_l16
          = specKey ((servo_pulse_update idleState).ServoPulseDefs c1).currentPW_l16 → c0 < c1)
      ∧ (specKey ((servo_pulse_update idleState).ServoPulseDefs c1).currentPW_l16
          = specKey ((servo_pulse_update idleState).ServoPulseDefs c2).currentPW_l16 → c1 < c2)
      ∧ (specKey ((servo_pulse_update idleState).ServoPulseDefs c0).currentPW_l16
          = specKey ((servo_pulse_update idleState).ServoPulseDefs c2).currentPW_l16 → c0 < c2)) :=
  ⟨⟨by decide, by decide⟩, group_sort idleState (by decide) 0 (by decide)⟩

theorem timeProfiled_iff (cmd : ServoCmd) (p : PulseDef) :
    timeProfiled cmd p = true ↔
      (cmd.isCommanded = true ∧ cmd.targetPW ≠ 0 ∧ cmd.targetPW ≠ 0xFFFF
        ∧ p.targetPW ≠ 0 ∧ p.targetPW ≠ 0xFFFF) := by
  simp only [timeProfiled, isImmediate, Bool.and_eq_true, Bool.not_eq_true', Bool.or_eq_false_iff,
    beq_eq_false_iff_ne, ne_eq]
  tauto

/-- C6, sentinel snap: in a commit that completes, every commanded channel
whose commanded width or whose stored target is 0 or 0xFFFF gets the commanded
width as target, the commanded width shifted left by 16 as current width and a
zero delta, whatever the speeds, the move time and the other channels are. -/
theorem sentinel_snap (s : State) (n : Nat) (hw : s.ServoCmdWaiting = true) (hn : n < 12)
    (hc : (s.ServoCmdArray n).isCommanded = true)
    (hT : (s.ServoCmdArray n).targetPW ≤ 65535)
    (hsent : (s.ServoCmdArray n).targetPW = 0 ∨ (s.ServoCmdArray n).targetPW = 0xFFFF
      ∨ (s.ServoPulseDefs n).targetPW = 0 ∨ (s.ServoPulseDefs n).targetPW = 0xFFFF)
    (ok : (moveTimeLoop s).2 ≠ 0
      ∨ ∀ m, m < 12 → timeProfiled (s.ServoCmdArray m) (s.ServoPulseDefs m) = false) :
    ∃ s', servo_calculations_update s = some s'
      ∧ (s'.ServoPulseDefs n).targetPW = (s.ServoCmdArray n).targetPW
      ∧ (s'.ServoPulseDefs n).currentPW_l16 = (s.ServoCmdArray n).targetPW * 65536
      ∧ (s'.ServoPulseDefs n).deltaPW_l16 = 0 := by
  obtain ⟨s', e, c, -⟩ := servo_calculations_update_some s hw ok
  have hi : isImmediate (s.ServoCmdArray n) (s.ServoPulseDefs n) = true := by
    simp only [isImmediate, Bool.or_eq_true, beq_iff_eq]
    tauto
  have hv := c n hn hc
  rw [deltaChannel_immediate _ _ _ hi] at hv
  have hv' := Option.some.inj hv
  refine ⟨s', e, ?_, ?_, ?_⟩
  · rw [← hv']
  · rw [← hv']; simp only [u32]; omega
  · rw [← hv']

set_option maxRecDepth 100000 in
/-- Witness of C6: servo 0 is switched on at 1500 from the idle state, where its
stored target is 0. -/
theorem sentinel_snap_witness :
    ((commandPW idleState 0 1500 0).ServoCmdWaiting = true
      ∧ ((commandPW idleState 0 1500 0).ServoCmdArray 0).isCommanded = true
      ∧ ((commandPW idleState 0 1500 0).ServoPulseDefs 0).targetPW = 0) ∧
    (∃ s', servo_calculations_update (commandPW idleState 0 1500 0) = some s'
      ∧ (s'.ServoPulseDefs 0).targetPW = ((commandPW idleState 0 1500 0).ServoCmdArray 0).targetPW
      ∧ (s'.ServoPulseDefs 0).currentPW_l16 = ((commandPW idleState 0 1500 0).ServoCmdArray 0).targetPW * 65536
      ∧ (s'.ServoPulseDefs 0).deltaPW_l16 = 0) :=
  ⟨⟨by decide, by decide, by decide⟩,
    sentinel_snap (commandPW idleState 0 1500 0) 0 (by decide) (by decide) (by decide) (by decide)
      (Or.inr (Or.inr (Or.inl (by decide)))) (Or.inr (by decide))⟩

/-- C5 as the code has it, per-frame delta: in a commit with move duration
`D ≥ 1` a time-profiled channel gets the commanded width as target, keeps its
current width, and stores the delta `20 * (diff / D)` reduced to 32 bits, where
`diff` is the commanded width shifted left by 16 minus the current width as a
signed 32-bit value and the truncating division is done before the
multiplication. -/
theorem per_frame_delta (s : State) (n : Nat) (hw : s.ServoCmdWaiting = true) (hn : n < 12)
    (htp : timeProfiled (s.ServoCmdArray n) (s.ServoPulseDefs n) = true)
    (hD : 1 ≤ (moveTimeLoop s).2) :
    ∃ s', servo_calculations_update s = some s'
      ∧ (s'.ServoPulseDefs n).targetPW = (s.ServoCmdArray n).targetPW
      ∧ (s'.ServoPulseDefs n).currentPW_l16 = (s.ServoPulseDefs n).currentPW_l16
      ∧ (s'.ServoPulseDefs n).deltaPW_l16
          = i32 (20 * Int.tdiv
              (i32 ((u32 ((s.ServoCmdArray n).targetPW * 65536) : Int)
                - ((s.ServoPulseDefs n).currentPW_l16 : Int)))
              ((moveTimeLoop s).2 : Int)) := by
  obtain ⟨s', e, c, -⟩ := servo_calculations_update_some s hw (Or.inl (by omega))
  simp only [timeProfiled, Bool.and_eq_true, Bool.not_eq_true'] at htp
  have hv := c n hn htp.1
  rw [deltaChannel_profiled _ _ _ htp.2 (by omega)] at hv
  have hv' := Option.some.inj hv
  refine ⟨s', e, ?_, ?_, ?_⟩
  · rw [← hv']
  · rw [← hv']
  · rw [← hv']; rfl

set_option maxRecDepth 100000 in
/-- Witness of C5 as the code has it: servo 2 of scenario B. -/
theorem per_frame_delta_witness :
    (scenarioB.ServoCmdWaiting = true
      ∧ timeProfiled (scenarioB.ServoCmdArray 2) (scenarioB.ServoPulseDefs 2) = true
      ∧ 1 ≤ (moveTimeLoop scenarioB).2) ∧
    (∃ s', servo_calculations_update scenarioB = some s'
      ∧ (s'.ServoPulseDefs 2).targetPW = (scenarioB.ServoCmdArray 2).targetPW
      ∧ (s'.ServoPulseDefs 2).currentPW_l16 = (scenarioB.ServoPulseDefs 2).currentPW_l16
      ∧ (s'.ServoPulseDefs 2).deltaPW_l16
          = i32 (20 * Int.tdiv
              (i32 ((u32 ((scenarioB.ServoCmdArray 2).targetPW * 65536) : Int)
                - ((scenarioB.ServoPulseDefs 2).currentPW_l16 : Int)))
              ((moveTimeLoop scenarioB).2 : Int))) :=
  ⟨⟨by decide, by decide, by decide⟩,
    per_frame_delta scenarioB 2 (by decide) (by decide) (by decide) (by decide)⟩

/-- The entry that a commit stores for a time-profiled channel whose widths lie
in the servo range: the delta is `20 * (distance / D)` towards the target. -/
theorem commit_in_range (s : State) (n : Nat) (hw : s.ServoCmdWaiting = true) (hn : n < 12)
    (htp : timeProfiled (s.ServoCmdArray n) (s.ServoPulseDefs n) = true)
    (hD : 1 ≤ (moveTimeLoop s).2)
    (hT : 500 ≤ (s.ServoCmdArray n).targetPW ∧ (s.ServoCmdArray n).targetPW ≤ 2500)
    (hW : 500 ≤ (s.ServoPulseDefs n).currentPW_l16 / 65536
      ∧ (s.ServoPulseDefs n).currentPW_l16 / 65536 ≤ 2500)
    (hS : (s.ServoCmdArray n).targetSpeed ≤ 65535) :
    ∃ s', servo_calculations_update s = some s'
      ∧ ((s.ServoPulseDefs n).currentPW_l16 ≤ (s.ServoCmdArray n).targetPW * 65536 →
          s'.ServoPulseDefs n =
            { targetPW := (s.ServoCmdArray n).targetPW
              currentPW_l16 := (s.ServoPulseDefs n).currentPW_l16
              deltaPW_l16 := ((20 * (((s.ServoCmdArray n).targetPW * 65536
                - (s.ServoPulseDefs n).currentPW_l16) / (moveTimeLoop s).2) : Nat) : Int) })
      ∧ ((s.ServoCmdArray n).targetPW * 65536 ≤ (s.ServoPulseDefs n).currentPW_l16 →
          s'.ServoPulseDefs n =
            { targetPW := (s.ServoCmdArray n).targetPW
              currentPW_l16 := (s.ServoPulseDefs n).currentPW_l16
              deltaPW_l16 := -((20 * (((s.ServoPulseDefs n).currentPW_l16
                - (s.ServoCmdArray n).targetPW * 65536) / (moveTimeLoop s).2) : Nat) : Int) })
      ∧ 20 * (((s.ServoCmdArray n).targetPW * 65536
                - (s.ServoPulseDefs n).currentPW_l16) / (moveTimeLoop s).2) < 2147483648
      ∧ 20 * (((s.ServoPulseDefs n).currentPW_l16
                - (s.ServoCmdArray n).targetPW * 65536) / (moveTimeLoop s).2) < 2147483648 := by
  obtain ⟨s', e, c, -⟩ := servo_calculations_update_some s hw (Or.inl (by omega))
  obtain ⟨-, -, h3, -⟩ := moveTimeLoop_spec s
  have hv := h3 n hn htp
  rw [servoVote_eq _ _ (by omega) (by omega)] at hv
  have hsp : 1 ≤ (if (s.ServoCmdArray n).targetSpeed = 0 then 1 else (s.ServoCmdArray n).targetSpeed)
      ∧ (if (s.ServoCmdArray n).targetSpeed = 0 then 1 else (s.ServoCmdArray n).targetSpeed)
          ≤ 65535 := by
    split_ifs <;> omega
  have b1 := step_bound _ _ _ _ _ hT hW hD hsp hv (Or.inl rfl)
  have b2 := step_bound _ _ _ _ _ hT hW hD hsp hv (Or.inr rfl)
  simp only [timeProfiled, Bool.and_eq_true, Bool.not_eq_true'] at htp
  have hc := c n hn htp.1
  rw [deltaChannel_profiled _ _ _ htp.2 (by omega)] at hc
  have hc' := (Option.some.inj hc).symm
  refine ⟨s', e, ?_, ?_, b1, b2⟩
  · intro hup
    rw [hc', delta_up _ _ _ (by omega) hup b1]
  · intro hdown
    rw [hc', delta_down _ _ _ (by omega) hdown b2]

/-- Arithmetic of an upward move: after `N` steps of `20 * (x / D)` with
`D ≤ 20 * N` less than `D` of the distance `x` is left. -/
theorem steps_cover (x D N : Nat) (hD : 1 ≤ D) (hN : D ≤ 20 * N) :
    x < N * (20 * (x / D)) + D ∧ (D ∣ x → x ≤ N * (20 * (x / D))) := by
  have h1 : D * (x / D) + x % D = x := Nat.div_add_mod x D
  have h2 : x % D < D := Nat.mod_lt x (by omega)
  have h3 : D * (x / D) ≤ (20 * N) * (x / D) := Nat.mul_le_mul_right _ hN
  have h4 : N * (20 * (x / D)) = (20 * N) * (x / D) := by ring
  constructor
  · omega
  · intro hdvd
    have h5 : x % D = 0 := Nat.mod_eq_zero_of_dvd hdvd
    omega

/-- C2 as the code has it, arrival: in a commit with move duration `D ≥ 1`, for
a time-profiled channel with commanded and current widths in the range 500 to
2500 that moves upward, or downward with a per-frame step of at most the
target, the current width after `ceil (D / 20)` frames is on the starting side
of the target and less than `D` (under one microsecond) away from it, and is
exactly the target when `D` divides the distance of the move. -/
theorem arrival (s : State) (n : Nat) (hw : s.ServoCmdWaiting = true) (hn : n < 12)
    (htp : timeProfiled (s.ServoCmdArray n) (s.ServoPulseDefs n) = true)
    (hD : 1 ≤ (moveTimeLoop s).2)
    (hT : 500 ≤ (s.ServoCmdArray n).targetPW ∧ (s.ServoCmdArray n).targetPW ≤ 2500)
    (hW : 500 ≤ (s.ServoPulseDefs n).currentPW_l16 / 65536
      ∧ (s.ServoPulseDefs n).currentPW_l16 / 65536 ≤ 2500)
    (hS : (s.ServoCmdArray n).targetSpeed ≤ 65535)
    (hdir : (s.ServoPulseDefs n).currentPW_l16 ≤ (s.ServoCmdArray n).targetPW * 65536
      ∨ 20 * (((s.ServoPulseDefs n).currentPW_l16 - (s.ServoCmdArray n).targetPW * 65536)
          / (moveTimeLoop s).2) ≤ (s.ServoCmdArray n).targetPW * 65536) :
    ∃ s', servo_calculations_update s = some s'
      ∧ (s'.ServoPulseDefs n).targetPW = (s.ServoCmdArray n).targetPW
      ∧ ((s.ServoPulseDefs n).currentPW_l16 ≤ (s.ServoCmdArray n).targetPW * 65536 →
          ((pulseFrames (((moveTimeLoop s).2 + 19) / 20) s').ServoPulseDefs n).currentPW_l16
              ≤ (s.ServoCmdArray n).targetPW * 65536
          ∧ (s.ServoCmdArray n).targetPW * 65536
              < ((pulseFrames (((moveTimeLoop s).2 + 19) / 20) s').ServoPulseDefs n).currentPW_l16
                + (moveTimeLoop s).2)
      ∧ ((s.ServoCmdArray n).targetPW * 65536 ≤ (s.ServoPulseDefs n).currentPW_l16 →
          (s.ServoCmdArray n).targetPW * 65536
              ≤ ((pulseFrames (((moveTimeLoop s).2 + 19) / 20) s').ServoPulseDefs n).currentPW_l16
          ∧ ((pulseFrames (((moveTimeLoop s).2 + 19) / 20) s').ServoPulseDefs n).currentPW_l16
              < (s.ServoCmdArray n).targetPW * 65536 + (moveTimeLoop s).2)
      ∧ ((moveTimeLoop s).2 ∣ ((s.ServoCmdArray n).targetPW * 65536
              - (s.ServoPulseDefs n).currentPW_l16)
            + ((s.ServoPulseDefs n).currentPW_l16 - (s.ServoCmdArray n).targetPW * 65536) →
          ((pulseFrames (((moveTimeLoop s).2 + 19) / 20) s').ServoPulseDefs n).currentPW_l16
            = (s.ServoCmdArray n).targetPW * 65536) := by
  obtain ⟨s', e, up, down, b1, b2⟩ := commit_in_range s n hw hn htp hD hT hW hS
  generalize hDdef : (moveTimeLoop s).2 = D at *
  generalize hTdef : (s.ServoCmdArray n).targetPW = T at *
  generalize hcdef : (s.ServoPulseDefs n).currentPW_l16 = c at *
  have hN : D ≤ 20 * ((D + 19) / 20) := by omega
  generalize (D + 19) / 20 = N at *
  by_cases hup : c ≤ T * 65536
  · have hs' := up hup
    have hit := accumulate_up_iterate T (20 * ((T * 65536 - c) / D)) (by omega) (by omega) N c hup
    have hcur : ((pulseFrames N s').ServoPulseDefs n).currentPW_l16
        = min (T * 65536) (c + N * (20 * ((T * 65536 - c) / D))) := by
      rw [pulseFrames_defs N n hn, hs', hit]
    obtain ⟨k1, k2⟩ := steps_cover (T * 65536 - c) D N hD hN
    refine ⟨s', e, by rw [hs'], ?_, ?_, ?_⟩
    · intro _
      rw [hcur]
      constructor
      · exact min_le_left _ _
      · rcases le_total (T * 65536) (c + N * (20 * ((T * 65536 - c) / D))) with h | h
        · rw [min_eq_left h]; omega
        · rw [min_eq_right h]; omega
    · intro hdown
      rw [hcur]
      have : c = T * 65536 := by omega
      rw [min_eq_left (by omega)]
      omega
    · intro hdvd
      rw [hcur]
      have hx : (T * 65536 - c) + (c - T * 65536) = T * 65536 - c := by omega
      rw [hx] at hdvd
      have := k2 hdvd
      rw [min_eq_left (by omega)]
  · have hdown : T * 65536 ≤ c := by omega
    have hstep : 20 * ((c - T * 65536) / D) ≤ T * 65536 := by
      rcases hdir with h | h
      · exact absurd h hup
      · exact h
    have hs' := down hdown
    have hit := accumulate_down_iterate T (20 * ((c - T * 65536) / D)) hstep N c hdown (by omega)
    have hcur : ((pulseFrames N s').ServoPulseDefs n).currentPW_l16
        = max (T * 65536) (c - N * (20 * ((c - T * 65536) / D))) := by
      rw [pulseFrames_defs N n hn, hs', hit]
    obtain ⟨k1, k2⟩ := steps_cover (c - T * 65536) D N hD hN
    refine ⟨s', e, by rw [hs'], ?_, ?_, ?_⟩
    · intro h; exact absurd h hup
    · intro _
      rw [hcur]
      constructor
      · exact le_max_left _ _
      · rcases le_total (T * 65536) (c - N * (20 * ((c - T * 65536) / D))) with h | h
        · rw [max_eq_right h]; omega
        · rw [max_eq_left h]; omega
    · intro hdvd
      rw [hcur]
      have hx : (T * 65536 - c) + (c - T * 65536) = c - T * 65536 := by omega
      rw [hx] at hdvd
      have := k2 hdvd
      rw [max_eq_left (by omega)]

set_option maxRecDepth 100000 in
/-- Witness of C2 as the code has it: servo 2 of scenario B, an upward move. -/
theorem arrival_witness :
    (scenarioB.ServoCmdWaiting = true
      ∧ timeProfiled (scenarioB.ServoCmdArray 2) (scenarioB.ServoPulseDefs 2) = true
      ∧ 1 ≤ (moveTimeLoop scenarioB).2
      ∧ (scenarioB.ServoPulseDefs 2).currentPW_l16 ≤ (scenarioB.ServoCmdArray 2).targetPW * 65536) ∧
    (∃ s', servo_calculations_update scenarioB = some s'
      ∧ (s'.ServoPulseDefs 2).targetPW = (scenarioB.ServoCmdArray 2).targetPW
      ∧ ((scenarioB.ServoPulseDefs 2).currentPW_l16 ≤ (scenarioB.ServoCmdArray 2).targetPW * 65536 →
          ((pulseFrames (((moveTimeLoop scenarioB).2 + 19) / 20) s').ServoPulseDefs 2).currentPW_l16
              ≤ (scenarioB.ServoCmdArray 2).targetPW * 65536
          ∧ (scenarioB.ServoCmdArray 2).targetPW * 65536
              < ((pulseFrames (((moveTimeLoop scenarioB).2 + 19) / 20) s').ServoPulseDefs 2).currentPW_l16
                + (moveTimeLoop scenarioB).2)
      ∧ ((scenarioB.ServoCmdArray 2).targetPW * 65536 ≤ (scenarioB.ServoPulseDefs 2).currentPW_l16 →
          (scenarioB.ServoCmdArray 2).targetPW * 65536
              ≤ ((pulseFrames (((moveTimeLoop scenarioB).2 + 19) / 20) s').ServoPulseDefs 2).currentPW_l16
          ∧ ((pulseFrames (((moveTimeLoop scenarioB).2 + 19) / 20) s').ServoPulseDefs 2).currentPW_l16
              < (scenarioB.ServoCmdArray 2).targetPW * 65536 + (moveTimeLoop scenarioB).2)
      ∧ ((moveTimeLoop scenarioB).2 ∣ ((scenarioB.ServoCmdArray 2).targetPW * 65536
              - (scenarioB.ServoPulseDefs 2).currentPW_l16)
            + ((scenarioB.ServoPulseDefs 2).currentPW_l16 - (scenarioB.ServoCmdArray 2).targetPW * 65536) →
          ((pulseFrames (((moveTimeLoop scenarioB).2 + 19) / 20) s').ServoPulseDefs 2).currentPW_l16
            = (scenarioB.ServoCmdArray 2).targetPW * 65536)) :=
  ⟨⟨by decide, by decide, by decide, by decide⟩,
    arrival scenarioB 2 (by decide) (by decide) (by decide) (by decide) (by decide) (by decide)
      (by decide) (Or.inl (by decide))⟩

set_option maxRecDepth 100000 in
/-- The commit of scenario B: servo 0 moves by 10 microseconds a frame, servo 2
by `131060 / 65536`, a little under 2 microseconds a frame. -/
theorem scenarioB_commit :
    ∃ s', servo_calculations_update scenarioB = some s'
      ∧ s'.ServoPulseDefs 0
          = { targetPW := 2000, currentPW_l16 := 98304000, deltaPW_l16 := ((655360 : Nat) : Int) }
      ∧ s'.ServoPulseDefs 2
          = { targetPW := 2100, currentPW_l16 := 131072000, deltaPW_l16 := ((131060 : Nat) : Int) } :=
  ⟨_, rfl, by decide, by decide⟩

/-- C8 as the code has it, scenario B: after every number `k < 50` of frames
both widths differ from their targets; after 50 frames servo 0 is at its target
2000 and servo 2 is at 2099; from 51 frames on both current widths equal their
targets shifted left by 16 exactly. -/
theorem scenario_B :
    ∃ s', servo_calculations_update scenarioB = some s'
      ∧ (∀ k, k < 50 →
          ((pulseFrames k s').ServoPulseDefs 0).currentPW_l16 / 65536 ≠ 2000
          ∧ ((pulseFrames k s').ServoPulseDefs 2).currentPW_l16 / 65536 ≠ 2100)
      ∧ ((pulseFrames 50 s').ServoPulseDefs 0).currentPW_l16 / 65536 = 2000
      ∧ ((pulseFrames 50 s').ServoPulseDefs 2).currentPW_l16 / 65536 = 2099
      ∧ (∀ k, 51 ≤ k →
          ((pulseFrames k s').ServoPulseDefs 0).currentPW_l16 = 2000 * 65536
          ∧ ((pulseFrames k s').ServoPulseDefs 2).currentPW_l16 = 2100 * 65536) := by
  obtain ⟨s', e, h0, h2⟩ := scenarioB_commit
  have c0 : ∀ k, ((pulseFrames k s').ServoPulseDefs 0).currentPW_l16
      = min (2000 * 65536) (98304000 + k * 655360) := by
    intro k
    rw [pulseFrames_defs k 0 (by omega), h0,
      accumulate_up_iterate 2000 655360 (by omega) (by omega) k 98304000 (by omega)]
  have c2 : ∀ k, ((pulseFrames k s').ServoPulseDefs 2).currentPW_l16
      = min (2100 * 65536) (131072000 + k * 131060) := by
    intro k
    rw [pulseFrames_defs k 2 (by omega), h2,
      accumulate_up_iterate 2100 131060 (by omega) (by omega) k 131072000 (by omega)]
  refine ⟨s', e, ?_, ?_, ?_, ?_⟩
  · intro k hk
    rw [c0, c2, min_eq_right (by omega), min_eq_right (by omega)]
    omega
  · rw [c0]; decide
  · rw [c2]; decide
  · intro k hk
    rw [c0, c2, min_eq_left (by omega), min_eq_left (by omega)]
    exact ⟨rfl, rfl⟩

set_option maxRecDepth 1000000 in
/-- C8 as stated fails: after 50 frames the width of servo 2 is 2099, not its
target 2100. -/
theorem scenario_B_counterexample :
    ∃ s', servo_calculations_update scenarioB = some s'
      ∧ (s'.ServoPulseDefs 2).targetPW = 2100
      ∧ ((pulseFrames 50 s').ServoPulseDefs 2).currentPW_l16 / 65536 = 2099 :=
  ⟨_, rfl, by decide, by decide⟩

set_option maxRecDepth 1000000 in
/-- C2 as stated fails: in scenario B the move duration is 1000, servo 2 is
time-profiled, and after `ceil (1000 / 20) = 50` frames its current width is
137625000, which is 600 below its target `2100 * 65536 = 137625600`. -/
theorem arrival_counterexample :
    ∃ s', servo_calculations_update scenarioB = some s'
      ∧ (moveTimeLoop scenarioB).2 = 1000
      ∧ timeProfiled (scenarioB.ServoCmdArray 2) (scenarioB.ServoPulseDefs 2) = true
      ∧ (s'.ServoPulseDefs 2).targetPW * 65536 = 137625600
      ∧ ((pulseFrames ((1000 + 19) / 20) s').ServoPulseDefs 2).currentPW_l16 = 137625000 :=
  ⟨_, rfl, by decide, by decide, by decide, by decide⟩

set_option maxRecDepth 100000 in
/-- C5 as stated fails: in scenario B servo 2 stores the delta
`20 * (6553600 / 1000) = 131060`, while `(20 * 6553600) / 1000` is 131072. -/
theorem per_frame_delta_counterexample :
    ∃ s', servo_calculations_update scenarioB = some s'
      ∧ (moveTimeLoop scenarioB).2 = 1000
      ∧ timeProfiled (scenarioB.ServoCmdArray 2) (scenarioB.ServoPulseDefs 2) = true
      ∧ (s'.ServoPulseDefs 2).deltaPW_l16 = 131060
      ∧ Int.tdiv (20 * (((scenarioB.ServoCmdArray 2).targetPW * 65536 : Int)
            - ((scenarioB.ServoPulseDefs 2).currentPW_l16 : Int)))
          ((moveTimeLoop scenarioB).2 : Int) = 131072 :=
  ⟨_, rfl, by decide, by decide, by decide, by decide⟩

set_option maxRecDepth 100000 in
/-- C1 fails on the code: servo 0, switched on at 1100, is sent to 500 at the
default speed.  The commit time-profiles it with the delta -87381320; the next
regenerating `servo_pulse_update` takes the current width from 72089600, above
the target 32768000, to 4279675576: the subtraction wraps around in 32 bits and
the width moves away from the target instead of being clipped to it. -/
theorem overshoot_by_wraparound :
    ∃ s0 s1, servo_calculations_update (commandPW idleState 0 1100 0) = some s0
      ∧ s0.ServoPulseDefs 0 = restAt 1100
      ∧ servo_calculations_update (commandPW s0 0 500 0) = some s1
      ∧ timeProfiled ((commandPW s0 0 500 0).ServoCmdArray 0) (s0.ServoPulseDefs 0) = true
      ∧ s1.ServoPulseDefs 0
          = { targetPW := 500, currentPW_l16 := 72089600, deltaPW_l16 := -87381320 }
      ∧ 24 ≤ s1.EdgeIndex
      ∧ ((servo_pulse_update s1).ServoPulseDefs 0).currentPW_l16 = 4279675576 :=
  ⟨_, _, rfl, by decide, rfl, by decide, by decide, by decide, by decide⟩

set_option maxRecDepth 100000 in
/-- C9 fails on the code: servo 0, switched on at 1400, is sent to 500 at the
default speed and stores the delta -90742140.  The first frame clips the current
width to the target `500 * 65536 = 32768000`; the second frame subtracts the
delta again, wraps around in 32 bits and leaves the current width at 4236993156,
so the width does not stay at the target. -/
theorem drift_after_arrival :
    ∃ s0 s1, servo_calculations_update (commandPW idleState 0 1400 0) = some s0
      ∧ s0.ServoPulseDefs 0 = restAt 1400
      ∧ servo_calculations_update (commandPW s0 0 500 0) = some s1
      ∧ s1.ServoPulseDefs 0
          = { targetPW := 500, currentPW_l16 := 91750400, deltaPW_l16 := -90742140 }
      ∧ ((pulseFrames 1 s1).ServoPulseDefs 0).currentPW_l16 = 500 * 65536
      ∧ ((pulseFrames 2 s1).ServoPulseDefs 0).currentPW_l16 = 4236993156 :=
  ⟨_, _, rfl, by decide, rfl, by decide, by decide, by decide⟩

set_option maxRecDepth 100000 in
/-- C7 fails on the code: servo 0 is switched on at 1500 and then sent to 1510
at the default speed with no move time.  Its move time is
`1000 * 10 / 65535 = 0`, so the move duration is 0 while the servo is
time-profiled, and line 103 divides by zero. -/
theorem division_by_zero :
    ∃ s0, servo_calculations_update (commandPW idleState 0 1500 0) = some s0
      ∧ s0.ServoPulseDefs 0 = restAt 1500
      ∧ timeProfiled ((commandPW s0 0 1510 0).ServoCmdArray 0)
          ((commandPW s0 0 1510 0).ServoPulseDefs 0) = true
      ∧ (moveTimeLoop (commandPW s0 0 1510 0)).2 = 0
      ∧ servo_calculations_update (commandPW s0 0 1510 0) = none :=
  ⟨_, rfl, by decide, by decide, by decide, rfl⟩

/-! ## Claims on the edge table -/

/-- The edge table after a regenerating `servo_pulse_update`, group by group:
the channels `c0`, `c1`, `c2` at the sorted positions 0, 1, 2 of group `g` and
the six entries of the group, with the sort key of the specification. -/
theorem sorted_table (s : State) (h : 24 ≤ s.EdgeIndex) (g : Nat) (hg : g < 4) :
    ∃ c0 c1 c2 : Nat,
      (3 * g ≤ c0 ∧ c0 < 3 * g + 3) ∧ (3 * g ≤ c1 ∧ c1 < 3 * g + 3)
      ∧ (3 * g ≤ c2 ∧ c2 < 3 * g + 3) ∧ c0 ≠ c1 ∧ c0 ≠ c2 ∧ c1 ≠ c2
      ∧ (servo_pulse_update s).ServoPulseEdges (6 * g) =
          { regAddr :=
              if specKey ((servo_pulse_update s).ServoPulseDefs c0).currentPW_l16 < MINIMUM_PW
              then (ServoPinDefs c0).outclrRegAddr else (ServoPinDefs c0).outsetRegAddr
            bitMap := (ServoPinDefs c0).bitMap
            nextEdge := 3000 * g + 20 }
      ∧ (servo_pulse_update s).ServoPulseEdges (6 * g + 1) =
          { regAddr :=
              if specKey ((servo_pulse_update s).ServoPulseDefs c1).currentPW_l16 < MINIMUM_PW
              then (ServoPinDefs c1).outclrRegAddr else (ServoPinDefs c1).outsetRegAddr
            bitMap := (ServoPinDefs c1).bitMap
            nextEdge := 3000 * g + 40 }
      ∧ (servo_pulse_update s).ServoPulseEdges (6 * g + 2) =
          { regAddr :=
              if specKey ((servo_pulse_update s).ServoPulseDefs c2).currentPW_l16 < MINIMUM_PW
              then (ServoPinDefs c2).outclrRegAddr else (ServoPinDefs c2).outsetRegAddr
            bitMap := (ServoPinDefs c2).bitMap
            nextEdge := 3000 * g + specKey ((servo_pulse_update s).ServoPulseDefs c0).currentPW_l16 }
      ∧ (servo_pulse_update s).ServoPulseEdges (6 * g + 3) =
          { regAddr :=
              if specKey ((servo_pulse_update s).ServoPulseDefs c0).currentPW_l16 > MAXIMUM_PW
              then (ServoPinDefs c0).outsetRegAddr else (ServoPinDefs c0).outclrRegAddr
            bitMap := (ServoPinDefs c0).bitMap
            nextEdge := 3000 * g + 20
              + specKey ((servo_pulse_update s).ServoPulseDefs c1).currentPW_l16 }
      ∧ (servo_pulse_update s).ServoPulseEdges (6 * g + 4) =
          { regAddr :=
              if specKey ((servo_pulse_update s).ServoPulseDefs c1).currentPW_l16 > MAXIMUM_PW
              then (ServoPinDefs c1).outsetRegAddr else (ServoPinDefs c1).outclrRegAddr
            bitMap := (ServoPinDefs c1).bitMap
            nextEdge := 3000 * g + 40
              + specKey ((servo_pulse_update s).ServoPulseDefs c2).currentPW_l16 }
      ∧ (servo_pulse_update s).ServoPulseEdges (6 * g + 5) =
          { regAddr :=
              if specKey ((servo_pulse_update s).ServoPulseDefs c2).currentPW_l16 > MAXIMUM_PW
              then (ServoPinDefs c2).outsetRegAddr else (ServoPinDefs c2).outclrRegAddr
            bitMap := (ServoPinDefs c2).bitMap
            nextEdge := if g < 3 then 3000 * g + 3000 else 0 } := by
  obtain ⟨i, j, k, hi, hj, hk, hij, hik, hjk, H⟩ := servo_pulse_update_spec s h g hg
  have hK : ∀ o, o < 3 →
      specKey ((servo_pulse_update s).ServoPulseDefs (g * 3 + o)).currentPW_l16
        = sortKey ((servo_pulse_update s).ServoPulseDefs (g * 3 + o)).currentPW_l16 := by
    intro o ho
    rw [sortKey_eq]
    rw [servo_pulse_update_defs s h, if_pos (by omega)]
    exact accumulate_lt _
  obtain ⟨-, -, -, -, -, e0, e1, e2, e3, e4, e5⟩ :=
    H (fun o => specKey ((servo_pulse_update s).ServoPulseDefs (g * 3 + o)).currentPW_l16) hK
  exact ⟨g * 3 + i, g * 3 + j, g * 3 + k, by omega, by omega, by omega, by omega, by omega,
    by omega, e0, e1, e2, e3, e4, e5⟩

/-- The rising entry at sorted position `i` of group `g` fires at
`3000 * g + 20 * i`. -/
theorem fireTime_rising (s : State) (h : 24 ≤ s.EdgeIndex) (g i : Nat) (hg : g < 4)
    (hi : i < 3) :
    fireTime (servo_pulse_update s).ServoPulseEdges (6 * g + i) = 3000 * g + 20 * i := by
  obtain ⟨a0, b0, c0, x0⟩ := group_nextEdges s h 0 (by omega)
  obtain ⟨a1, b1, c1, x1⟩ := group_nextEdges s h 1 (by omega)
  obtain ⟨a2, b2, c2, x2⟩ := group_nextEdges s h 2 (by omega)
  obtain ⟨a3, b3, c3, x3⟩ := group_nextEdges s h 3 (by omega)
  simp only [Nat.mul_zero, Nat.mul_one, Nat.zero_add, Nat.reduceMul, Nat.reduceAdd,
    Nat.reduceLT, if_true, if_false, Nat.lt_irrefl] at x0 x1 x2 x3
  interval_cases g <;> interval_cases i <;> simp only [fireTime, Nat.reduceAdd, Nat.reduceMul] <;>
    omega

/-- The two entries of channel `c` after a regenerating `servo_pulse_update`:
at some sorted position `i` of its group the rising entry `6 * (c / 3) + i` and
the falling entry three places later carry the pin of `c`, with the actions that
the sort key selects, and the falling entry fires the sort key after the rising
time `3000 * (c / 3) + 20 * i`. -/
theorem channel_entries (s : State) (h : 24 ≤ s.EdgeIndex) (c : Nat) (hc : c < 12) :
    ∃ i, i < 3
      ∧ ((servo_pulse_update s).ServoPulseEdges (6 * (c / 3) + i)).bitMap
          = (ServoPinDefs c).bitMap
      ∧ ((servo_pulse_update s).ServoPulseEdges (6 * (c / 3) + i)).regAddr
          = (if specKey ((servo_pulse_update s).ServoPulseDefs c).currentPW_l16 < MINIMUM_PW
             then (ServoPinDefs c).outclrRegAddr else (ServoPinDefs c).outsetRegAddr)
      ∧ ((servo_pulse_update s).ServoPulseEdges (6 * (c / 3) + 3 + i)).bitMap
          = (ServoPinDefs c).bitMap
      ∧ ((servo_pulse_update s).ServoPulseEdges (6 * (c / 3) + 3 + i)).regAddr
          = (if specKey ((servo_pulse_update s).ServoPulseDefs c).currentPW_l16 > MAXIMUM_PW
             then (ServoPinDefs c).outsetRegAddr else (ServoPinDefs c).outclrRegAddr)
      ∧ fireTime (servo_pulse_update s).ServoPulseEdges (6 * (c / 3) + 3 + i)
          = 3000 * (c / 3) + 20 * i
            + specKey ((servo_pulse_update s).ServoPulseDefs c).currentPW_l16 := by
  obtain ⟨c0, c1, c2, r0, r1, r2, d01, d02, d12, e0, e1, e2, e3, e4, e5⟩ :=
    sorted_table s h (c / 3) (by omega)
  have hcase : c = c0 ∨ c = c1 ∨ c = c2 := by omega
  rcases hcase with rfl | rfl | rfl
  · refine ⟨0, by omega, ?_, ?_, ?_, ?_, ?_⟩
    · rw [Nat.add_zero, e0]
    · rw [Nat.add_zero, e0]
    · rw [Nat.add_zero, e3]
    · rw [Nat.add_zero, e3]
    · show ((servo_pulse_update s).ServoPulseEdges (6 * (c / 3) + 2)).nextEdge = _
      rw [e2]; dsimp only; omega
  · refine ⟨1, by omega, ?_, ?_, ?_, ?_, ?_⟩
    · rw [e1]
    · rw [e1]
    · rw [e4]
    · rw [e4]
    · show ((servo_pulse_update s).ServoPulseEdges (6 * (c / 3) + 3)).nextEdge = _
      rw [e3]
  · refine ⟨2, by omega, ?_, ?_, ?_, ?_, ?_⟩
    · rw [e2]
    · rw [e2]
    · rw [e5]
    · rw [e5]
    · show ((servo_pulse_update s).ServoPulseEdges (6 * (c / 3) + 4)).nextEdge = _
      rw [e4]

/-- C11, rising-edge placement: after a regenerating `servo_pulse_update` the
table entry `6 * g + i` at sorted position `i < 3` of group `g < 4` fires at tick
`3000 * g + 20 * i`, so the rising-edge times of a group increase by exactly
`RISING_EDGE_SPACING` ticks from one position to the next. -/
theorem rising_edge_placement (s : State) (h : 24 ≤ s.EdgeIndex) :
    (∀ g i, g < 4 → i < 3 →
      fireTime (servo_pulse_update s).ServoPulseEdges (6 * g + i) = 3000 * g + 20 * i)
    ∧ (∀ g i, g < 4 → i < 2 →
      fireTime (servo_pulse_update s).ServoPulseEdges (6 * g + (i + 1))
        = fireTime (servo_pulse_update s).ServoPulseEdges (6 * g + i) + RISING_EDGE_SPACING) := by
  constructor
  · intro g i hg hi
    exact fireTime_rising s h g i hg hi
  · intro g i hg hi
    rw [fireTime_rising s h g (i + 1) hg (by omega), fireTime_rising s h g i hg (by omega)]
    simp only [RISING_EDGE_SPACING]
    omega

set_option maxRecDepth 100000 in
/-- Witness of C11 at the idle state. -/
theorem rising_edge_placement_witness :
    24 ≤ idleState.EdgeIndex ∧
    ((∀ g i, g < 4 → i < 3 →
      fireTime (servo_pulse_update idleState).ServoPulseEdges (6 * g + i) = 3000 * g + 20 * i)
    ∧ (∀ g i, g < 4 → i < 2 →
      fireTime (servo_pulse_update idleState).ServoPulseEdges (6 * g + (i + 1))
        = fireTime (servo_pulse_update idleState).ServoPulseEdges (6 * g + i) + RISING_EDGE_SPACING)) :=
  ⟨by decide, rising_edge_placement idleState (by decide)⟩

theorem specKey_in_range (c : Nat) (h1 : 500 ≤ c / 65536) (h2 : c / 65536 ≤ 2500) :
    specKey c = c / 65536 := by
  simp only [specKey, MINIMUM_PW, MAXIMUM_PW]
  split_ifs <;> omega

theorem specKey_lt (c : Nat) : specKey c < MINIMUM_PW ↔ c / 65536 < 500 := by
  simp only [specKey, MINIMUM_PW, MAXIMUM_PW]
  split_ifs <;> omega

theorem specKey_gt (c : Nat) : specKey c > MAXIMUM_PW ↔ c / 65536 > 2500 := by
  simp only [specKey, MINIMUM_PW, MAXIMUM_PW]
  split_ifs <;> omega

/-- C12, pulse width on the pin: after a regenerating `servo_pulse_update`, a
channel `c` whose width `w = currentPW_l16 / 65536` lies in the range 500 to 2500
has its rising entry (action set) at some sorted position `i` of its group and
its falling entry (action clear) three places later, and the falling entry
fires exactly `w` ticks after the rising entry. -/
theorem pulse_width_on_pin (s : State) (h : 24 ≤ s.EdgeIndex) (c : Nat) (hc : c < 12)
    (hw : 500 ≤ ((servo_pulse_update s).ServoPulseDefs c).currentPW_l16 / 65536
      ∧ ((servo_pulse_update s).ServoPulseDefs c).currentPW_l16 / 65536 ≤ 2500) :
    ∃ i, i < 3
      ∧ ((servo_pulse_update s).ServoPulseEdges (6 * (c / 3) + i)).bitMap
          = (ServoPinDefs c).bitMap
      ∧ ((servo_pulse_update s).ServoPulseEdges (6 * (c / 3) + i)).regAddr
          = (ServoPinDefs c).outsetRegAddr
      ∧ ((servo_pulse_update s).ServoPulseEdges (6 * (c / 3) + 3 + i)).bitMap
          = (ServoPinDefs c).bitMap
      ∧ ((servo_pulse_update s).ServoPulseEdges (6 * (c / 3) + 3 + i)).regAddr
          = (ServoPinDefs c).outclrRegAddr
      ∧ fireTime (servo_pulse_update s).ServoPulseEdges (6 * (c / 3) + 3 + i)
          = fireTime (servo_pulse_update s).ServoPulseEdges (6 * (c / 3) + i)
            + ((servo_pulse_update s).ServoPulseDefs c).currentPW_l16 / 65536 := by
  obtain ⟨i, hi, b1, r1, b2, r2, f⟩ := channel_entries s h c hc
  have hk := specKey_in_range _ hw.1 hw.2
  have hlt : ¬ specKey ((servo_pulse_update s).ServoPulseDefs c).currentPW_l16 < MINIMUM_PW := by
    rw [specKey_lt]; omega
  have hgt : ¬ specKey ((servo_pulse_update s).ServoPulseDefs c).currentPW_l16 > MAXIMUM_PW := by
    rw [specKey_gt]; omega
  refine ⟨i, hi, b1, ?_, b2, ?_, ?_⟩
  · rw [r1, if_neg hlt]
  · rw [r2, if_neg hgt]
  · rw [f, fireTime_rising s h (c / 3) i (by omega) hi, hk]

set_option maxRecDepth 100000 in
/-- Witness of C12: servo 0 of scenario B, which rests at 1500. -/
theorem pulse_width_on_pin_witness :
    (24 ≤ scenarioB.EdgeIndex
      ∧ 500 ≤ ((servo_pulse_update scenarioB).ServoPulseDefs 0).currentPW_l16 / 65536
      ∧ ((servo_pulse_update scenarioB).ServoPulseDefs 0).currentPW_l16 / 65536 ≤ 2500) ∧
    (∃ i, i < 3
      ∧ ((servo_pulse_update scenarioB).ServoPulseEdges (6 * (0 / 3) + i)).bitMap
          = (ServoPinDefs 0).bitMap
      ∧ ((servo_pulse_update scenarioB).ServoPulseEdges (6 * (0 / 3) + i)).regAddr
          = (ServoPinDefs 0).outsetRegAddr
      ∧ ((servo_pulse_update scenarioB).ServoPulseEdges (6 * (0 / 3) + 3 + i)).bitMap
          = (ServoPinDefs 0).bitMap
      ∧ ((servo_pulse_update scenarioB).ServoPulseEdges (6 * (0 / 3) + 3 + i)).regAddr
          = (ServoPinDefs 0).outclrRegAddr
      ∧ fireTime (servo_pulse_update scenarioB).ServoPulseEdges (6 * (0 / 3) + 3 + i)
          = fireTime (servo_pulse_update scenarioB).ServoPulseEdges (6 * (0 / 3) + i)
            + ((servo_pulse_update scenarioB).ServoPulseDefs 0).currentPW_l16 / 65536) :=
  ⟨⟨by decide, by decide, by decide⟩,
    pulse_width_on_pin scenarioB (by decide) 0 (by decide) ⟨by decide, by decide⟩⟩

/-- C13, pin actions: after a regenerating `servo_pulse_update` every channel
`c` has a rising entry and, three places later, a falling entry that carry the
pin bit of `c`; with `w = currentPW_l16 / 65536`, both have the action clear when
`w < 500`, the rising entry has the action set and the falling entry the action
clear when `500 ≤ w ≤ 2500`, and both have the action set when `w > 2500`. -/
theorem pin_actions (s : State) (h : 24 ≤ s.EdgeIndex) (c : Nat) (hc : c < 12) :
    ∃ i, i < 3
      ∧ ((servo_pulse_update s).ServoPulseEdges (6 * (c / 3) + i)).bitMap
          = (ServoPinDefs c).bitMap
      ∧ ((servo_pulse_update s).ServoPulseEdges (6 * (c / 3) + 3 + i)).bitMap
          = (ServoPinDefs c).bitMap
      ∧ (((servo_pulse_update s).ServoPulseDefs c).currentPW_l16 / 65536 < 500 →
          ((servo_pulse_update s).ServoPulseEdges (6 * (c / 3) + i)).regAddr
            = (ServoPinDefs c).outclrRegAddr
          ∧ ((servo_pulse_update s).ServoPulseEdges (6 * (c / 3) + 3 + i)).regAddr
            = (ServoPinDefs c).outclrRegAddr)
      ∧ (500 ≤ ((servo_pulse_update s).ServoPulseDefs c).currentPW_l16 / 65536
          ∧ ((servo_pulse_update s).ServoPulseDefs c).currentPW_l16 / 65536 ≤ 2500 →
          ((servo_pulse_update s).ServoPulseEdges (6 * (c / 3) + i)).regAddr
            = (ServoPinDefs c).outsetRegAddr
          ∧ ((servo_pulse_update s).ServoPulseEdges (6 * (c / 3) + 3 + i)).regAddr
            = (ServoPinDefs c).outclrRegAddr)
      ∧ (2500 < ((servo_pulse_update s).ServoPulseDefs c).currentPW_l16 / 65536 →
          ((servo_pulse_update s).ServoPulseEdges (6 * (c / 3) + i)).regAddr
            = (ServoPinDefs c).outsetRegAddr
          ∧ ((servo_pulse_update s).ServoPulseEdges (6 * (c / 3) + 3 + i)).regAddr
            = (ServoPinDefs c).outsetRegAddr) := by
  obtain ⟨i, hi, b1, r1, b2, r2, -⟩ := channel_entries s h c hc
  refine ⟨i, hi, b1, b2, ?_, ?_, ?_⟩
  · intro hw
    have hlt : specKey ((servo_pulse_update s).ServoPulseDefs c).currentPW_l16 < MINIMUM_PW := by
      rw [specKey_lt]; exact hw
    have hgt : ¬ specKey ((servo_pulse_update s).ServoPulseDefs c).currentPW_l16 > MAXIMUM_PW := by
      rw [specKey_gt]; omega
    exact ⟨by rw [r1, if_pos hlt], by rw [r2, if_neg hgt]⟩
  · intro hw
    have hlt : ¬ specKey ((servo_pulse_update s).ServoPulseDefs c).currentPW_l16 < MINIMUM_PW := by
      rw [specKey_lt]; omega
    have hgt : ¬ specKey ((servo_pulse_update s).ServoPulseDefs c).currentPW_l16 > MAXIMUM_PW := by
      rw [specKey_gt]; omega
    exact ⟨by rw [r1, if_neg hlt], by rw [r2, if_neg hgt]⟩
  · intro hw
    have hlt : ¬ specKey ((servo_pulse_update s).ServoPulseDefs c).currentPW_l16 < MINIMUM_PW := by
      rw [specKey_lt]; omega
    have hgt : specKey ((servo_pulse_update s).ServoPulseDefs c).currentPW_l16 > MAXIMUM_PW := by
      rw [specKey_gt]; exact hw
    exact ⟨by rw [r1, if_neg hlt], by rw [r2, if_pos hgt]⟩

set_option maxRecDepth 100000 in
/-- Witness of C13: servo 0 of scenario B. -/
theorem pin_actions_witness :
    (24 ≤ scenarioB.EdgeIndex ∧ 0 < 12) ∧
    (∃ i, i < 3
      ∧ ((servo_pulse_update scenarioB).ServoPulseEdges (6 * (0 / 3) + i)).bitMap
          = (ServoPinDefs 0).bitMap
      ∧ ((servo_pulse_update scenarioB).ServoPulseEdges (6 * (0 / 3) + 3 + i)).bitMap
          = (ServoPinDefs 0).bitMap
      ∧ (((servo_pulse_update scenarioB).ServoPulseDefs 0).currentPW_l16 / 65536 < 500 →
          ((servo_pulse_update scenarioB).ServoPulseEdges (6 * (0 / 3) + i)).regAddr
            = (ServoPinDefs 0).outclrRegAddr
          ∧ ((servo_pulse_update scenarioB).ServoPulseEdges (6 * (0 / 3) + 3 + i)).regAddr
            = (ServoPinDefs 0).outclrRegAddr)
      ∧ (500 ≤ ((servo_pulse_update scenarioB).ServoPulseDefs 0).currentPW_l16 / 65536
          ∧ ((servo_pulse_update scenarioB).ServoPulseDefs 0).currentPW_l16 / 65536 ≤ 2500 →
          ((servo_pulse_update scenarioB).ServoPulseEdges (6 * (0 / 3) + i)).regAddr
            = (ServoPinDefs 0).outsetRegAddr
          ∧ ((servo_pulse_update scenarioB).ServoPulseEdges (6 * (0 / 3) + 3 + i)).regAddr
            = (ServoPinDefs 0).outclrRegAddr)
      ∧ (2500 < ((servo_pulse_update scenarioB).ServoPulseDefs 0).currentPW_l16 / 65536 →
          ((servo_pulse_update scenarioB).ServoPulseEdges (6 * (0 / 3) + i)).regAddr
            = (ServoPinDefs 0).outsetRegAddr
          ∧ ((servo_pulse_update scenarioB).ServoPulseEdges (6 * (0 / 3) + 3 + i)).regAddr
            = (ServoPinDefs 0).outsetRegAddr)) :=
  ⟨⟨by decide, by decide⟩, pin_actions scenarioB (by decide) 0 (by decide)⟩

/-- The pins of the twelve servos are distinct: an entry belongs to at most one
channel. -/
theorem entryOf_inj (e : EdgeDef) (c d : Nat) (hc : c < 12) (hd : d < 12)
    (h1 : entryOf e c) (h2 : entryOf e d) : c = d := by
  obtain ⟨b1, r1⟩ := h1
  obtain ⟨b2, r2⟩ := h2
  rw [b1] at b2
  interval_cases c <;> interval_cases d <;>
    first
    | rfl
    | (exfalso; revert b2; simp [ServoPinDefs, mkPin]; done)
    | (exfalso
       rcases r1 with r1 | r1 <;> rcases r2 with r2 | r2 <;> rw [r1] at r2 <;>
         simp [ServoPinDefs, mkPin] at r2)

/-- The six entries of group `g` belong to the three channels of the group: the
rising entry at each sorted position and the falling entry three places later
belong to the same channel. -/
theorem group_entries (s : State) (h : 24 ≤ s.EdgeIndex) (g : Nat) (hg : g < 4) :
    ∃ c0 c1 c2 : Nat,
      (3 * g ≤ c0 ∧ c0 < 3 * g + 3) ∧ (3 * g ≤ c1 ∧ c1 < 3 * g + 3)
      ∧ (3 * g ≤ c2 ∧ c2 < 3 * g + 3) ∧ c0 ≠ c1 ∧ c0 ≠ c2 ∧ c1 ≠ c2
      ∧ entryOf ((servo_pulse_update s).ServoPulseEdges (6 * g)) c0
      ∧ entryOf ((servo_pulse_update s).ServoPulseEdges (6 * g + 1)) c1
      ∧ entryOf ((servo_pulse_update s).ServoPulseEdges (6 * g + 2)) c2
      ∧ entryOf ((servo_pulse_update s).ServoPulseEdges (6 * g + 3)) c0
      ∧ entryOf ((servo_pulse_update s).ServoPulseEdges (6 * g + 4)) c1
      ∧ entryOf ((servo_pulse_update s).ServoPulseEdges (6 * g + 5)) c2 := by
  obtain ⟨c0, c1, c2, r0, r1, r2, d01, d02, d12, e0, e1, e2, e3, e4, e5⟩ :=
    sorted_table s h g hg
  refine ⟨c0, c1, c2, r0, r1, r2, d01, d02, d12, ?_, ?_, ?_, ?_, ?_, ?_⟩
  · rw [e0]; refine ⟨rfl, ?_⟩; dsimp only; split_ifs
    · exact Or.inr rfl
    · exact Or.inl rfl
  · rw [e1]; refine ⟨rfl, ?_⟩; dsimp only; split_ifs
    · exact Or.inr rfl
    · exact Or.inl rfl
  · rw [e2]; refine ⟨rfl, ?_⟩; dsimp only; split_ifs
    · exact Or.inr rfl
    · exact Or.inl rfl
  · rw [e3]; refine ⟨rfl, ?_⟩; dsimp only; split_ifs
    · exact Or.inl rfl
    · exact Or.inr rfl
  · rw [e4]; refine ⟨rfl, ?_⟩; dsimp only; split_ifs
    · exact Or.inl rfl
    · exact Or.inr rfl
  · rw [e5]; refine ⟨rfl, ?_⟩; dsimp only; split_ifs
    · exact Or.inl rfl
    · exact Or.inr rfl

/-- An entry of the table that belongs to channel `c` lies in the group of `c`. -/
theorem entry_in_group (s : State) (h : 24 ≤ s.EdgeIndex) (c m : Nat) (hc : c < 12)
    (hm : m < 24) (he : entryOf ((servo_pulse_update s).ServoPulseEdges m) c) :
    m / 6 = c / 3 := by
  obtain ⟨c0, c1, c2, r0, r1, r2, -, -, -, e0, e1, e2, e3, e4, e5⟩ :=
    group_entries s h (m / 6) (by omega)
  have hcases : m = 6 * (m / 6) ∨ m = 6 * (m / 6) + 1 ∨ m = 6 * (m / 6) + 2
      ∨ m = 6 * (m / 6) + 3 ∨ m = 6 * (m / 6) + 4 ∨ m = 6 * (m / 6) + 5 := by omega
  rcases hcases with e | e | e | e | e | e
  · rw [← e] at e0; have := entryOf_inj _ c c0 hc (by omega) he e0; omega
  · rw [← e] at e1; have := entryOf_inj _ c c1 hc (by omega) he e1; omega
  · rw [← e] at e2; have := entryOf_inj _ c c2 hc (by omega) he e2; omega
  · rw [← e] at e3; have := entryOf_inj _ c c0 hc (by omega) he e3; omega
  · rw [← e] at e4; have := entryOf_inj _ c c1 hc (by omega) he e4; omega
  · rw [← e] at e5; have := entryOf_inj _ c c2 hc (by omega) he e5; omega

/-- C14, table completeness: after a regenerating `servo_pulse_update`, in every
group `g` the rising entries `6 * g`, `6 * g + 1`, `6 * g + 2` belong to the three
channels `3 * g`, `3 * g + 1`, `3 * g + 2`, each once, and the falling entry
`6 * g + 3 + i` belongs to the channel of the rising entry `6 * g + i`; every
channel has exactly one rising and exactly one falling entry among the 24. -/
theorem table_complete (s : State) (h : 24 ≤ s.EdgeIndex) :
    (∀ g, g < 4 →
      ∃ c0 c1 c2 : Nat,
        (3 * g ≤ c0 ∧ c0 < 3 * g + 3) ∧ (3 * g ≤ c1 ∧ c1 < 3 * g + 3)
        ∧ (3 * g ≤ c2 ∧ c2 < 3 * g + 3) ∧ c0 ≠ c1 ∧ c0 ≠ c2 ∧ c1 ≠ c2
        ∧ entryOf ((servo_pulse_update s).ServoPulseEdges (6 * g)) c0
        ∧ entryOf ((servo_pulse_update s).ServoPulseEdges (6 * g + 1)) c1
        ∧ entryOf ((servo_pulse_update s).ServoPulseEdges (6 * g + 2)) c2
        ∧ entryOf ((servo_pulse_update s).ServoPulseEdges (6 * g + 3)) c0
        ∧ entryOf ((servo_pulse_update s).ServoPulseEdges (6 * g + 4)) c1
        ∧ entryOf ((servo_pulse_update s).ServoPulseEdges (6 * g + 5)) c2)
    ∧ (∀ c, c < 12 →
      ∃ i, i < 3
        ∧ (∀ m, m < 24 →
            (m % 6 < 3 ∧ entryOf ((servo_pulse_update s).ServoPulseEdges m) c
              ↔ m = 6 * (c / 3) + i))
        ∧ (∀ m, m < 24 →
            (3 ≤ m % 6 ∧ entryOf ((servo_pulse_update s).ServoPulseEdges m) c
              ↔ m = 6 * (c / 3) + 3 + i))) := by
  refine ⟨fun g hg => group_entries s h g hg, ?_⟩
  intro c hc
  obtain ⟨c0, c1, c2, r0, r1, r2, d01, d02, d12, e0, e1, e2, e3, e4, e5⟩ :=
    group_entries s h (c / 3) (by omega)
  have inj := fun m d hd h2 (h1 : entryOf ((servo_pulse_update s).ServoPulseEdges m) c) =>
    entryOf_inj ((servo_pulse_update s).ServoPulseEdges m) c d hc hd h1 h2
  have grp := fun m hm he => entry_in_group s h c m hc hm he
  have hcase : c = c0 ∨ c = c1 ∨ c = c2 := by omega
  rcases hcase with rfl | rfl | rfl
  · refine ⟨0, by omega, ?_, ?_⟩
    · intro m hm
      constructor
      · rintro ⟨hp, he⟩
        have hg := grp m hm he
        have hcases : m = 6 * (c / 3) ∨ m = 6 * (c / 3) + 1 ∨ m = 6 * (c / 3) + 2 := by omega
        rcases hcases with e | e | e
        · omega
        · rw [e] at he; exact absurd (inj _ c1 (by omega) e1 he) d01
        · rw [e] at he; exact absurd (inj _ c2 (by omega) e2 he) d02
      · intro e
        rw [e]
        exact ⟨by omega, e0⟩
    · intro m hm
      constructor
      · rintro ⟨hp, he⟩
        have hg := grp m hm he
        have hcases : m = 6 * (c / 3) + 3 ∨ m = 6 * (c / 3) + 4 ∨ m = 6 * (c / 3) + 5 := by
          omega
        rcases hcases with e | e | e
        · omega
        · rw [e] at he; exact absurd (inj _ c1 (by omega) e4 he) d01
        · rw [e] at he; exact absurd (inj _ c2 (by omega) e5 he) d02
      · intro e
        rw [e]
        exact ⟨by omega, e3⟩
  · refine ⟨1, by omega, ?_, ?_⟩
    · intro m hm
      constructor
      · rintro ⟨hp, he⟩
        have hg := grp m hm he
        have hcases : m = 6 * (c / 3) ∨ m = 6 * (c / 3) + 1 ∨ m = 6 * (c / 3) + 2 := by omega
        rcases hcases with e | e | e
        · rw [e] at he; exact absurd (inj _ c0 (by omega) e0 he).symm d01
        · omega
        · rw [e] at he; exact absurd (inj _ c2 (by omega) e2 he) d12
      · intro e
        rw [e]
        exact ⟨by omega, e1⟩
    · intro m hm
      constructor
      · rintro ⟨hp, he⟩
        have hg := grp m hm he
        have hcases : m = 6 * (c / 3) + 3 ∨ m = 6 * (c / 3) + 4 ∨ m = 6 * (c / 3) + 5 := by
          omega
        rcases hcases with e | e | e
        · rw [e] at he; exact absurd (inj _ c0 (by omega) e3 he).symm d01
        · omega
        · rw [e] at he; exact absurd (inj _ c2 (by omega) e5 he) d12
      · intro e
        rw [e]
        exact ⟨by omega, e4⟩
  · refine ⟨2, by omega, ?_, ?_⟩
    · intro m hm
      constructor
      · rintro ⟨hp, he⟩
        have hg := grp m hm he
        have hcases : m = 6 * (c / 3) ∨ m = 6 * (c / 3) + 1 ∨ m = 6 * (c / 3) + 2 := by omega
        rcases hcases with e | e | e
        · rw [e] at he; exact absurd (inj _ c0 (by omega) e0 he).symm d02
        · rw [e] at he; exact absurd (inj _ c1 (by omega) e1 he).symm d12
        · omega
      · intro e
        rw [e]
        exact ⟨by omega, e2⟩
    · intro m hm
      constructor
      · rintro ⟨hp, he⟩
        have hg := grp m hm he
        have hcases : m = 6 * (c / 3) + 3 ∨ m = 6 * (c / 3) + 4 ∨ m = 6 * (c / 3) + 5 := by
          omega
        rcases hcases with e | e | e
        · rw [e] at he; exact absurd (inj _ c0 (by omega) e3 he).symm d02
        · rw [e] at he; exact absurd (inj _ c1 (by omega) e4 he).symm d12
        · omega
      · intro e
        rw [e]
        exact ⟨by omega, e5⟩

set_option maxRecDepth 100000 in
/-- Witness of C14 at the idle state. -/
theorem table_complete_witness :
    24 ≤ idleState.EdgeIndex ∧
    ((∀ g, g < 4 →
      ∃ c0 c1 c2 : Nat,
        (3 * g ≤ c0 ∧ c0 < 3 * g + 3) ∧ (3 * g ≤ c1 ∧ c1 < 3 * g + 3)
        ∧ (3 * g ≤ c2 ∧ c2 < 3 * g + 3) ∧ c0 ≠ c1 ∧ c0 ≠ c2 ∧ c1 ≠ c2
        ∧ entryOf ((servo_pulse_update idleState).ServoPulseEdges (6 * g)) c0
        ∧ entryOf ((servo_pulse_update idleState).ServoPulseEdges (6 * g + 1)) c1
        ∧ entryOf ((servo_pulse_update idleState).ServoPulseEdges (6 * g + 2)) c2
        ∧ entryOf ((servo_pulse_update idleState).ServoPulseEdges (6 * g + 3)) c0
        ∧ entryOf ((servo_pulse_update idleState).ServoPulseEdges (6 * g + 4)) c1
        ∧ entryOf ((servo_pulse_update idleState).ServoPulseEdges (6 * g + 5)) c2)
    ∧ (∀ c, c < 12 →
      ∃ i, i < 3
        ∧ (∀ m, m < 24 →
            (m % 6 < 3 ∧ entryOf ((servo_pulse_update idleState).ServoPulseEdges m) c
              ↔ m = 6 * (c / 3) + i))
        ∧ (∀ m, m < 24 →
            (3 ≤ m % 6 ∧ entryOf ((servo_pulse_update idleState).ServoPulseEdges m) c
              ↔ m = 6 * (c / 3) + 3 + i)))) :=
  ⟨by decide, table_complete idleState (by decide)⟩

/-- C15, group hand-over: after a regenerating `servo_pulse_update` the
`nextEdge` of the last entry `6 * g + 5` of group `g` is `3000 * (g + 1)`, the
first rising time of the following group, for `g < 3`, and 0 for the last group;
the first entry of the following group fires at that time. -/
theorem group_handover (s : State) (h : 24 ≤ s.EdgeIndex) :
    (∀ g, g < 3 →
      ((servo_pulse_update s).ServoPulseEdges (6 * g + 5)).nextEdge = 3000 * (g + 1)
      ∧ fireTime (servo_pulse_update s).ServoPulseEdges (6 * (g + 1)) = 3000 * (g + 1))
    ∧ ((servo_pulse_update s).ServoPulseEdges (6 * 3 + 5)).nextEdge = 0 := by
  constructor
  · intro g hg
    obtain ⟨a, b, c, -, -, -, -, -, -, -, -, -, e5⟩ := group_nextEdges s h g (by omega)
    rw [if_pos hg] at e5
    have hf := fireTime_rising s h (g + 1) 0 (by omega) (by omega)
    rw [Nat.add_zero] at hf
    exact ⟨by rw [e5]; ring, by rw [hf]; ring⟩
  · obtain ⟨a, b, c, -, -, -, -, -, -, -, -, -, e5⟩ := group_nextEdges s h 3 (by omega)
    rw [e5]
    rfl

set_option maxRecDepth 100000 in
/-- Witness of C15 at the idle state. -/
theorem group_handover_witness :
    24 ≤ idleState.EdgeIndex ∧
    ((∀ g, g < 3 →
      ((servo_pulse_update idleState).ServoPulseEdges (6 * g + 5)).nextEdge = 3000 * (g + 1)
      ∧ fireTime (servo_pulse_update idleState).ServoPulseEdges (6 * (g + 1)) = 3000 * (g + 1))
    ∧ ((servo_pulse_update idleState).ServoPulseEdges (6 * 3 + 5)).nextEdge = 0) :=
  ⟨by decide, group_handover idleState (by decide)⟩

/-- C16 as the code has it, the stored time of the next edge: after a
regenerating `servo_pulse_update`, with `c0`, `c1`, `c2` the channels at the
sorted positions 0, 1, 2 of group `g`, the `nextEdge` of each of the first five
entries of the group is the time, counted from the start of the frame, at which
the following entry is scheduled: `3000 * g + 20 * i` for the rising entry at
position `i`, and that time plus the sort key of its channel for the falling
entry at position `i`. -/
theorem next_edge_absolute (s : State) (h : 24 ≤ s.EdgeIndex) (g : Nat) (hg : g < 4) :
    ∃ c0 c1 c2 : Nat,
      (3 * g ≤ c0 ∧ c0 < 3 * g + 3) ∧ (3 * g ≤ c1 ∧ c1 < 3 * g + 3)
      ∧ (3 * g ≤ c2 ∧ c2 < 3 * g + 3) ∧ c0 ≠ c1 ∧ c0 ≠ c2 ∧ c1 ≠ c2
      ∧ entryOf ((servo_pulse_update s).ServoPulseEdges (6 * g)) c0
      ∧ entryOf ((servo_pulse_update s).ServoPulseEdges (6 * g + 1)) c1
      ∧ entryOf ((servo_pulse_update s).ServoPulseEdges (6 * g + 2)) c2
      ∧ entryOf ((servo_pulse_update s).ServoPulseEdges (6 * g + 3)) c0
      ∧ entryOf ((servo_pulse_update s).ServoPulseEdges (6 * g + 4)) c1
      ∧ entryOf ((servo_pulse_update s).ServoPulseEdges (6 * g + 5)) c2
      ∧ ((servo_pulse_update s).ServoPulseEdges (6 * g)).nextEdge = 3000 * g + 20 * 1
      ∧ ((servo_pulse_update s).ServoPulseEdges (6 * g + 1)).nextEdge = 3000 * g + 20 * 2
      ∧ ((servo_pulse_update s).ServoPulseEdges (6 * g + 2)).nextEdge
          = 3000 * g + 20 * 0 + specKey ((servo_pulse_update s).ServoPulseDefs c0).currentPW_l16
      ∧ ((servo_pulse_update s).ServoPulseEdges (6 * g + 3)).nextEdge
          = 3000 * g + 20 * 1 + specKey ((servo_pulse_update s).ServoPulseDefs c1).currentPW_l16
      ∧ ((servo_pulse_update s).ServoPulseEdges (6 * g + 4)).nextEdge
          = 3000 * g + 20 * 2 + specKey ((servo_pulse_update s).ServoPulseDefs c2).currentPW_l16
      ∧ (∀ k, 6 * g ≤ k → k < 6 * g + 5 →
          ((servo_pulse_update s).ServoPulseEdges k).nextEdge
            = fireTime (servo_pulse_update s).ServoPulseEdges (k + 1)) := by
  obtain ⟨c0, c1, c2, r0, r1, r2, d01, d02, d12, e0, e1, e2, e3, e4, e5⟩ :=
    sorted_table s h g hg
  refine ⟨c0, c1, c2, r0, r1, r2, d01, d02, d12, ?_, ?_, ?_, ?_, ?_, ?_, ?_, ?_, ?_, ?_, ?_, ?_⟩
  · rw [e0]; refine ⟨rfl, ?_⟩; dsimp only; split_ifs
    · exact Or.inr rfl
    · exact Or.inl rfl
  · rw [e1]; refine ⟨rfl, ?_⟩; dsimp only; split_ifs
    · exact Or.inr rfl
    · exact Or.inl rfl
  · rw [e2]; refine ⟨rfl, ?_⟩; dsimp only; split_ifs
    · exact Or.inr rfl
    · exact Or.inl rfl
  · rw [e3]; refine ⟨rfl, ?_⟩; dsimp only; split_ifs
    · exact Or.inl rfl
    · exact Or.inr rfl
  · rw [e4]; refine ⟨rfl, ?_⟩; dsimp only; split_ifs
    · exact Or.inl rfl
    · exact Or.inr rfl
  · rw [e5]; refine ⟨rfl, ?_⟩; dsimp only; split_ifs
    · exact Or.inl rfl
    · exact Or.inr rfl
  · rw [e0]
  · rw [e1]
  · rw [e2]; dsimp only; omega
  · rw [e3]
  · rw [e4]
  · intro k _ _
    rfl

set_option maxRecDepth 100000 in
/-- Witness of C16 as the code has it: group 1 of scenario B. -/
theorem next_edge_absolute_witness :
    (24 ≤ scenarioB.EdgeIndex ∧ 1 < 4) ∧
    (∃ c0 c1 c2 : Nat,
      (3 * 1 ≤ c0 ∧ c0 < 3 * 1 + 3) ∧ (3 * 1 ≤ c1 ∧ c1 < 3 * 1 + 3)
      ∧ (3 * 1 ≤ c2 ∧ c2 < 3 * 1 + 3) ∧ c0 ≠ c1 ∧ c0 ≠ c2 ∧ c1 ≠ c2
      ∧ entryOf ((servo_pulse_update scenarioB).ServoPulseEdges (6 * 1)) c0
      ∧ entryOf ((servo_pulse_update scenarioB).ServoPulseEdges (6 * 1 + 1)) c1
      ∧ entryOf ((servo_pulse_update scenarioB).ServoPulseEdges (6 * 1 + 2)) c2
      ∧ entryOf ((servo_pulse_update scenarioB).ServoPulseEdges (6 * 1 + 3)) c0
      ∧ entryOf ((servo_pulse_update scenarioB).ServoPulseEdges (6 * 1 + 4)) c1
      ∧ entryOf ((servo_pulse_update scenarioB).ServoPulseEdges (6 * 1 + 5)) c2
      ∧ ((servo_pulse_update scenarioB).ServoPulseEdges (6 * 1)).nextEdge = 3000 * 1 + 20 * 1
      ∧ ((servo_pulse_update scenarioB).ServoPulseEdges (6 * 1 + 1)).nextEdge = 3000 * 1 + 20 * 2
      ∧ ((servo_pulse_update scenarioB).ServoPulseEdges (6 * 1 + 2)).nextEdge
          = 3000 * 1 + 20 * 0 + specKey ((servo_pulse_update scenarioB).ServoPulseDefs c0).currentPW_l16
      ∧ ((servo_pulse_update scenarioB).ServoPulseEdges (6 * 1 + 3)).nextEdge
          = 3000 * 1 + 20 * 1 + specKey ((servo_pulse_update scenarioB).ServoPulseDefs c1).currentPW_l16
      ∧ ((servo_pulse_update scenarioB).ServoPulseEdges (6 * 1 + 4)).nextEdge
          = 3000 * 1 + 20 * 2 + specKey ((servo_pulse_update scenarioB).ServoPulseDefs c2).currentPW_l16
      ∧ (∀ k, 6 * 1 ≤ k → k < 6 * 1 + 5 →
          ((servo_pulse_update scenarioB).ServoPulseEdges k).nextEdge
            = fireTime (servo_pulse_update scenarioB).ServoPulseEdges (k + 1))) :=
  ⟨⟨by decide, by decide⟩, next_edge_absolute scenarioB (by decide) 1 (by decide)⟩

set_option maxRecDepth 100000 in
/-- C16 as stated fails: after a regeneration from the idle state entry 1 fires
at tick 20 and entry 2 at tick 40, so the delta from entry 1 to entry 2 is 20,
but the `nextEdge` stored in entry 1 is 40, the time of entry 2 itself. -/
theorem next_edge_counterexample :
    24 ≤ idleState.EdgeIndex
    ∧ fireTime (servo_pulse_update idleState).ServoPulseEdges 1 = 20
    ∧ fireTime (servo_pulse_update idleState).ServoPulseEdges 2 = 40
    ∧ ((servo_pulse_update idleState).ServoPulseEdges 1).nextEdge = 40 := by
  decide

/-- C17, regeneration gate: while edges are left in the table
(`EdgeIndex < 24`), `servo_pulse_update` returns the state unchanged, so the edge
table, `EdgeIndex`, every channel, `LoopCount` and `MillisRemainingInCommand` are
as they were. -/
theorem regeneration_gate (s : State) (h : s.EdgeIndex < 24) :
    servo_pulse_update s = s
    ∧ (servo_pulse_update s).ServoPulseEdges = s.ServoPulseEdges
    ∧ (servo_pulse_update s).EdgeIndex = s.EdgeIndex
    ∧ (servo_pulse_update s).ServoPulseDefs = s.ServoPulseDefs
    ∧ (servo_pulse_update s).LoopCount = s.LoopCount
    ∧ (servo_pulse_update s).MillisRemainingInCommand = s.MillisRemainingInCommand := by
  have e : servo_pulse_update s = s := by
    unfold servo_pulse_update
    rw [if_pos (by simp only [NUM_SERVOS]; omega)]
  rw [e]
  exact ⟨rfl, rfl, rfl, rfl, rfl, rfl⟩

set_option maxRecDepth 100000 in
/-- Witness of C17: the zeroed state, whose cursor is at the start of the table. -/
theorem regeneration_gate_witness :
    zeroState.EdgeIndex < 24 ∧
    (servo_pulse_update zeroState = zeroState
    ∧ (servo_pulse_update zeroState).ServoPulseEdges = zeroState.ServoPulseEdges
    ∧ (servo_pulse_update zeroState).EdgeIndex = zeroState.EdgeIndex
    ∧ (servo_pulse_update zeroState).ServoPulseDefs = zeroState.ServoPulseDefs
    ∧ (servo_pulse_update zeroState).LoopCount = zeroState.LoopCount
    ∧ (servo_pulse_update zeroState).MillisRemainingInCommand = zeroState.MillisRemainingInCommand) :=
  ⟨by decide, regeneration_gate zeroState (by decide)⟩

/-- C18, dispatcher step: with `EdgeIndex = k < 24`, one run of the timer compare
interrupt writes the pin bit of entry `k` to the register of entry `k` (a write
to `OUTSET` sets the pins of the written bits, a write to `OUTCLR` clears them,
the other ports keep their levels), sets `EdgeIndex` to `k + 1`, loads the compare
register with the `nextEdge` of entry `k`, and leaves the edge table and all
channel and command state unchanged. -/
theorem dispatcher_step (s : State) (h : s.EdgeIndex < 24) :
    (ISR_TCA0_CMP0 s).EdgeIndex = s.EdgeIndex + 1
    ∧ (ISR_TCA0_CMP0 s).TCA0_SINGLE_CMP0 = (s.ServoPulseEdges s.EdgeIndex).nextEdge
    ∧ (ISR_TCA0_CMP0 s).PORT_OUT
        = writeReg s.PORT_OUT (s.ServoPulseEdges s.EdgeIndex).regAddr
            (s.ServoPulseEdges s.EdgeIndex).bitMap
    ∧ (∀ p, (s.ServoPulseEdges s.EdgeIndex).regAddr = RegAddr.OUTSET p →
        (ISR_TCA0_CMP0 s).PORT_OUT p
          = u8 (s.PORT_OUT p ||| (s.ServoPulseEdges s.EdgeIndex).bitMap)
        ∧ ∀ q, q ≠ p → (ISR_TCA0_CMP0 s).PORT_OUT q = s.PORT_OUT q)
    ∧ (∀ p, (s.ServoPulseEdges s.EdgeIndex).regAddr = RegAddr.OUTCLR p →
        (ISR_TCA0_CMP0 s).PORT_OUT p
          = u8 (s.PORT_OUT p &&& (255 ^^^ u8 (s.ServoPulseEdges s.EdgeIndex).bitMap))
        ∧ ∀ q, q ≠ p → (ISR_TCA0_CMP0 s).PORT_OUT q = s.PORT_OUT q)
    ∧ (ISR_TCA0_CMP0 s).TCA0_CMP0_flag = false
    ∧ (ISR_TCA0_CMP0 s).ServoPulseEdges = s.ServoPulseEdges
    ∧ (ISR_TCA0_CMP0 s).ServoPulseDefs = s.ServoPulseDefs
    ∧ (ISR_TCA0_CMP0 s).ServoCmdArray = s.ServoCmdArray
    ∧ (ISR_TCA0_CMP0 s).ServoCmdMoveTime = s.ServoCmdMoveTime
    ∧ (ISR_TCA0_CMP0 s).ServoCmdWaiting = s.ServoCmdWaiting
    ∧ (ISR_TCA0_CMP0 s).LoopCount = s.LoopCount
    ∧ (ISR_TCA0_CMP0 s).MillisRemainingInCommand = s.MillisRemainingInCommand
    ∧ (ISR_TCA0_CMP0 s).pulseWidths = s.pulseWidths := by
  refine ⟨?_, rfl, rfl, ?_, ?_, rfl, rfl, rfl, rfl, rfl, rfl, rfl, rfl, rfl⟩
  · simp only [ISR_TCA0_CMP0, u8]; omega
  · intro p hp
    simp only [ISR_TCA0_CMP0, hp, writeReg]
    exact ⟨by simp, fun q hq => by simp [Function.update_noteq hq]⟩
  · intro p hp
    simp only [ISR_TCA0_CMP0, hp, writeReg]
    exact ⟨by simp, fun q hq => by simp [Function.update_noteq hq]⟩

set_option maxRecDepth 100000 in
/-- Witness of C18: the first interrupt after a regeneration in scenario B. -/
theorem dispatcher_step_witness :
    (servo_pulse_update scenarioB).EdgeIndex < 24 ∧
    ((ISR_TCA0_CMP0 (servo_pulse_update scenarioB)).EdgeIndex = (servo_pulse_update scenarioB).EdgeIndex + 1
    ∧ (ISR_TCA0_CMP0 (servo_pulse_update scenarioB)).TCA0_SINGLE_CMP0 = ((servo_pulse_update scenarioB).ServoPulseEdges (servo_pulse_update scenarioB).EdgeIndex).nextEdge
    ∧ (ISR_TCA0_CMP0 (servo_pulse_update scenarioB)).PORT_OUT
        = writeReg (servo_pulse_update scenarioB).PORT_OUT ((servo_pulse_update scenarioB).ServoPulseEdges (servo_pulse_update scenarioB).EdgeIndex).regAddr
            ((servo_pulse_update scenarioB).ServoPulseEdges (servo_pulse_update scenarioB).EdgeIndex).bitMap
    ∧ (∀ p, ((servo_pulse_update scenarioB).ServoPulseEdges (servo_pulse_update scenarioB).EdgeIndex).regAddr = RegAddr.OUTSET p →
        (ISR_TCA0_CMP0 (servo_pulse_update scenarioB)).PORT_OUT p
          = u8 ((servo_pulse_update scenarioB).PORT_OUT p ||| ((servo_pulse_update scenarioB).ServoPulseEdges (servo_pulse_update scenarioB).EdgeIndex).bitMap)
        ∧ ∀ q, q ≠ p → (ISR_TCA0_CMP0 (servo_pulse_update scenarioB)).PORT_OUT q = (servo_pulse_update scenarioB).PORT_OUT q)
    ∧ (∀ p, ((servo_pulse_update scenarioB).ServoPulseEdges (servo_pulse_update scenarioB).EdgeIndex).regAddr = RegAddr.OUTCLR p →
        (ISR_TCA0_CMP0 (servo_pulse_update scenarioB)).PORT_OUT p
          = u8 ((servo_pulse_update scenarioB).PORT_OUT p &&& (255 ^^^ u8 ((servo_pulse_update scenarioB).ServoPulseEdges (servo_pulse_update scenarioB).EdgeIndex).bitMap))
        ∧ ∀ q, q ≠ p → (ISR_TCA0_CMP0 (servo_pulse_update scenarioB)).PORT_OUT q = (servo_pulse_update scenarioB).PORT_OUT q)
    ∧ (ISR_TCA0_CMP0 (servo_pulse_update scenarioB)).TCA0_CMP0_flag = false
    ∧ (ISR_TCA0_CMP0 (servo_pulse_update scenarioB)).ServoPulseEdges = (servo_pulse_update scenarioB).ServoPulseEdges
    ∧ (ISR_TCA0_CMP0 (servo_pulse_update scenarioB)).ServoPulseDefs = (servo_pulse_update scenarioB).ServoPulseDefs
    ∧ (ISR_TCA0_CMP0 (servo_pulse_update scenarioB)).ServoCmdArray = (servo_pulse_update scenarioB).ServoCmdArray
    ∧ (ISR_TCA0_CMP0 (servo_pulse_update scenarioB)).ServoCmdMoveTime = (servo_pulse_update scenarioB).ServoCmdMoveTime
    ∧ (ISR_TCA0_CMP0 (servo_pulse_update scenarioB)).ServoCmdWaiting = (servo_pulse_update scenarioB).ServoCmdWaiting
    ∧ (ISR_TCA0_CMP0 (servo_pulse_update scenarioB)).LoopCount = (servo_pulse_update scenarioB).LoopCount
    ∧ (ISR_TCA0_CMP0 (servo_pulse_update scenarioB)).MillisRemainingInCommand = (servo_pulse_update scenarioB).MillisRemainingInCommand
    ∧ (ISR_TCA0_CMP0 (servo_pulse_update scenarioB)).pulseWidths = (servo_pulse_update scenarioB).pulseWidths) :=
  ⟨by decide, dispatcher_step (servo_pulse_update scenarioB) (by decide)⟩

/-- A regenerating `servo_pulse_update` resets `EdgeIndex`; a gated one keeps
it. -/
theorem servo_pulse_update_EdgeIndex (s : State) :
    (servo_pulse_update s).EdgeIndex = if s.EdgeIndex < 24 then s.EdgeIndex else 0 := by
  by_cases h : s.EdgeIndex < 24
  · rw [if_pos h]
    unfold servo_pulse_update
    rw [if_pos (by simp only [NUM_SERVOS]; omega)]
  · rw [if_neg h, servo_pulse_update_regen s (by omega)]
    simp only [(groupBody_frame _ _).1]

/-- A commit does not touch `EdgeIndex`. -/
theorem servo_calculations_update_EdgeIndex (s t : State)
    (h : servo_calculations_update s = some t) : t.EdgeIndex = s.EdgeIndex := by
  by_cases hw : s.ServoCmdWaiting = true
  · by_cases ok : (moveTimeLoop s).2 ≠ 0
      ∨ ∀ n, n < 12 → timeProfiled (s.ServoCmdArray n) (s.ServoPulseDefs n) = false
    · obtain ⟨s', e, -, -, -, -, hE, -⟩ := servo_calculations_update_some s hw ok
      rw [e] at h
      rw [← Option.some.inj h]
      exact hE
    · have hD : (moveTimeLoop s).2 = 0 := by
        by_contra hD
        exact ok (Or.inl hD)
      have hex : ∃ n, n < 12 ∧ timeProfiled (s.ServoCmdArray n) (s.ServoPulseDefs n) = true := by
        by_contra hex
        apply ok
        right
        intro n hn
        by_contra htp
        exact hex ⟨n, hn, by simpa using htp⟩
      rw [servo_calculations_update_none s hw hD hex] at h
      exact absurd h (by simp)
  · have e : servo_calculations_update s = some s := by
      simp only [servo_calculations_update, Bool.not_eq_true] at hw ⊢
      simp [hw]
    rw [e] at h
    rw [← Option.some.inj h]

/-- After the initialisations the edge cursor is at the start of the table. -/
theorem initState_EdgeIndex (s : State) (h : initState = some s) : s.EdgeIndex = 0 := by
  unfold initState at h
  split at h
  · exact absurd h (by simp)
  · rw [← Option.some.inj h]
    simp only [timer_init, servo_pulse_init]
    rw [servo_pulse_update_EdgeIndex, if_neg (by simp only [NUM_SERVOS]; omega)]

/-- C19 as the code has it, cursor bound: in every state reachable from
initialisation by calls of `servo_calculations_update` and `servo_pulse_update`,
pending commands of the parser, and timer compare interrupts that run only while
`EdgeIndex < 24`, `EdgeIndex` is at most 24: it is below 24 while edges are being
output and exactly 24 between frames. -/
theorem cursor_bound (s : State) (h : ReachableInFrame s) : s.EdgeIndex ≤ 24 := by
  induction h with
  | init s h => rw [initState_EdgeIndex s h]; omega
  | interrupt s _ hk _ =>
    simp only [ISR_TCA0_CMP0, u8, NUM_SERVOS] at hk ⊢
    omega
  | calculations s t _ ht ih => rw [servo_calculations_update_EdgeIndex s t ht]; exact ih
  | pulse s _ ih =>
    rw [servo_pulse_update_EdgeIndex]
    split_ifs <;> omega
  | command s _ cmds moveTime ih => exact ih

set_option maxRecDepth 100000 in
/-- Witness of C19 as the code has it: the state after the initialisations. -/
theorem cursor_bound_witness :
    ∃ s, initState = some s ∧ ReachableInFrame s ∧ s.EdgeIndex ≤ 24 :=
  ⟨_, rfl, ReachableInFrame.init _ rfl, cursor_bound _ (ReachableInFrame.init _ rfl)⟩

/-- Any number of interrupts in a row is an interleaving. -/
theorem reachable_interrupts (s : State) (h : Reachable s) (n : Nat) :
    Reachable (Nat.iterate ISR_TCA0_CMP0 n s) := by
  induction n with
  | zero => exact h
  | succ n ih =>
    rw [Function.iterate_succ_apply']
    exact Reachable.interrupt _ ih

set_option maxRecDepth 100000 in
/-- C19 as stated fails: 25 timer compare interrupts in a row after the
initialisations, with no call of `servo_pulse_update` in between, are an
interleaving, and they leave `EdgeIndex` at 25; the 25th interrupt reads entry 24,
which is past the end of the table. -/
theorem cursor_overrun :
    ∃ s, initState = some s
      ∧ Reachable (Nat.iterate ISR_TCA0_CMP0 25 s)
      ∧ (Nat.iterate ISR_TCA0_CMP0 24 s).EdgeIndex = 24
      ∧ (Nat.iterate ISR_TCA0_CMP0 25 s).EdgeIndex = 25 :=
  ⟨_, rfl, reachable_interrupts _ (Reachable.init _ rfl) 25, by decide, by decide⟩

theorem isImmediate_false_iff (cmd : ServoCmd) (p : PulseDef) :
    isImmediate cmd p = false ↔
      (cmd.targetPW ≠ 0 ∧ cmd.targetPW ≠ 0xFFFF ∧ p.targetPW ≠ 0 ∧ p.targetPW ≠ 0xFFFF) := by
  simp only [isImmediate, Bool.or_eq_false_iff, beq_eq_false_iff_ne, ne_eq]
  tauto

/-- Computing the entry of a commanded servo a second time, from the entry it
produced, gives the same entry, unless the second computation divides by a zero
move duration. -/
theorem deltaChannel_idem (cmd : ServoCmd) (D : Nat) (p q : PulseDef)
    (hD : D ≠ 0 ∨ cmd.targetPW = 0 ∨ cmd.targetPW = 0xFFFF)
    (h : deltaChannel cmd D p = some q) : deltaChannel cmd D q = some q := by
  by_cases hi : isImmediate cmd p = true
  · rw [deltaChannel_immediate cmd D p hi] at h
    have hq := (Option.some.inj h).symm
    by_cases hi2 : isImmediate cmd q = true
    · rw [deltaChannel_immediate cmd D q hi2, hq]
    · have hi2' : isImmediate cmd q = false := by simpa using hi2
      have hns := (isImmediate_false_iff cmd q).mp hi2'
      have hD' : D ≠ 0 := by
        rcases hD with hD | hD | hD
        · exact hD
        · exact absurd hD hns.1
        · exact absurd hD hns.2.1
      rw [deltaChannel_profiled cmd D q hi2' hD', hq]
      simp [i32]
  · have hi' : isImmediate cmd p = false := by simpa using hi
    have hns := (isImmediate_false_iff cmd p).mp hi'
    have hD' : D ≠ 0 := by
      rcases hD with hD | hD | hD
      · exact hD
      · exact absurd hD hns.1
      · exact absurd hD hns.2.1
    rw [deltaChannel_profiled cmd D p hi' hD'] at h
    have hq := (Option.some.inj h).symm
    have hi2 : isImmediate cmd q = false := by
      rw [isImmediate_false_iff, hq]
      exact ⟨hns.1, hns.2.1, hns.1, hns.2.1⟩
    rw [deltaChannel_profiled cmd D q hi2 hD', hq]

/-- After a commit, a servo that was commanded keeps its current width when it
was time-profiled and is at its commanded width otherwise; its stored target is
the commanded width. -/
theorem deltaChannel_result (cmd : ServoCmd) (D : Nat) (p q : PulseDef)
    (h : deltaChannel cmd D p = some q) :
    q.targetPW = cmd.targetPW
    ∧ (isImmediate cmd p = false → q.currentPW_l16 = p.currentPW_l16)
    ∧ (isImmediate cmd p = true → q.currentPW_l16 = u32 (cmd.targetPW * 65536)) := by
  by_cases hi : isImmediate cmd p = true
  · rw [deltaChannel_immediate cmd D p hi] at h
    have hq := (Option.some.inj h).symm
    rw [hq]
    exact ⟨rfl, fun h' => by rw [hi] at h'; exact absurd h' (by simp), fun _ => rfl⟩
  · have hi' : isImmediate cmd p = false := by simpa using hi
    have hD : D ≠ 0 := by
      intro hD
      rw [hD] at h
      simp [deltaChannel, hi'] at h
    rw [deltaChannel_profiled cmd D p hi' hD] at h
    have hq := (Option.some.inj h).symm
    rw [hq]
    exact ⟨rfl, fun _ => rfl, fun h' => by rw [hi'] at h'; exact absurd h' (by simp)⟩

/-- A servo at its commanded 16-bit width needs no time. -/
theorem servoVote_at_target (cmd : ServoCmd) (p : PulseDef) (hT : cmd.targetPW ≤ 65535)
    (hc : p.currentPW_l16 = u32 (cmd.targetPW * 65536)) : servoVote cmd p = 0 := by
  have e : servoPwDeltaAbs cmd.targetPW p.currentPW_l16 = 0 := by
    rw [hc]
    simp only [servoPwDeltaAbs, i16, u16, u32]
    have e1 : cmd.targetPW * 65536 % 4294967296 / 65536 % 65536 = cmd.targetPW := by omega
    rw [e1]
    simp
  unfold servoVote
  rw [e]
  simp [servoMoveTime, u32OfInt, u32]

theorem servoVote_congr (cmd : ServoCmd) (p q : PulseDef)
    (h : q.currentPW_l16 = p.currentPW_l16) : servoVote cmd q = servoVote cmd p := by
  unfold servoVote
  rw [h]

/-- Committing a command a second time, with no frame in between, leaves every
channel as the first commit left it, provided the second commit does not divide
by a zero move duration: the move duration is not zero, or every commanded width
is 0 or 0xFFFF. -/
theorem commit_idempotent (s : State) (hw : s.ServoCmdWaiting = true)
    (hT : ∀ n, n < 12 → (s.ServoCmdArray n).isCommanded = true →
      (s.ServoCmdArray n).targetPW ≤ 65535)
    (hD : (moveTimeLoop s).2 ≠ 0
      ∨ ∀ n, n < 12 → (s.ServoCmdArray n).isCommanded = true →
          (s.ServoCmdArray n).targetPW = 0 ∨ (s.ServoCmdArray n).targetPW = 0xFFFF) :
    ∃ s1 s2, servo_calculations_update s = some s1
      ∧ servo_calculations_update
          { s1 with ServoCmdArray := s.ServoCmdArray, ServoCmdMoveTime := s.ServoCmdMoveTime,
                    ServoCmdWaiting := true } = some s2
      ∧ ∀ n, s2.ServoPulseDefs n = s1.ServoPulseDefs n := by
  have sent_not_tp : ∀ (q : Nat → PulseDef),
      (∀ n, n < 12 → (s.ServoCmdArray n).isCommanded = true →
          (s.ServoCmdArray n).targetPW = 0 ∨ (s.ServoCmdArray n).targetPW = 0xFFFF) →
      ∀ n, n < 12 → timeProfiled (s.ServoCmdArray n) (q n) = false := by
    intro q hall n hn
    by_contra htp
    have htp' : timeProfiled (s.ServoCmdArray n) (q n) = true := by simpa using htp
    obtain ⟨hc, h0, hF, -⟩ := (timeProfiled_iff _ _).mp htp'
    rcases hall n hn hc with h | h
    · exact h0 h
    · exact hF h
  have ok : (moveTimeLoop s).2 ≠ 0
      ∨ ∀ n, n < 12 → timeProfiled (s.ServoCmdArray n) (s.ServoPulseDefs n) = false := by
    rcases hD with h | h
    · exact Or.inl h
    · exact Or.inr (sent_not_tp s.ServoPulseDefs h)
  obtain ⟨s1, e1, c1, u1, -⟩ := servo_calculations_update_some s hw ok
  suffices key : ∀ r : State, r.ServoPulseDefs = s1.ServoPulseDefs →
      r.ServoCmdArray = s.ServoCmdArray → r.ServoCmdMoveTime = s.ServoCmdMoveTime →
      r.ServoCmdWaiting = true →
      ∃ s2, servo_calculations_update r = some s2
        ∧ ∀ n, s2.ServoPulseDefs n = s1.ServoPulseDefs n by
    obtain ⟨s2, e2, h2⟩ := key
      { s1 with ServoCmdArray := s.ServoCmdArray, ServoCmdMoveTime := s.ServoCmdMoveTime, ServoCmdWaiting := true }
      rfl rfl rfl rfl
    exact ⟨s1, s2, e1, e2, h2⟩
  intro r rdefs rcmds rtime rwait
  -- time-profiled servos stay time-profiled with the same move time
  have T1 : ∀ n, n < 12 → timeProfiled (s.ServoCmdArray n) (s.ServoPulseDefs n) = true →
      timeProfiled (s.ServoCmdArray n) (s1.ServoPulseDefs n) = true
      ∧ servoVote (s.ServoCmdArray n) (s1.ServoPulseDefs n)
          = servoVote (s.ServoCmdArray n) (s.ServoPulseDefs n) := by
    intro n hn htp
    obtain ⟨hc, h0, hF, -, -⟩ := (timeProfiled_iff _ _).mp htp
    obtain ⟨q1, q2, -⟩ := deltaChannel_result _ _ _ _ (c1 n hn hc)
    have hi : isImmediate (s.ServoCmdArray n) (s.ServoPulseDefs n) = false := by
      simp only [timeProfiled, Bool.and_eq_true, Bool.not_eq_true'] at htp
      exact htp.2
    refine ⟨?_, servoVote_congr _ _ _ (q2 hi)⟩
    rw [timeProfiled_iff]
    exact ⟨hc, h0, hF, by rw [q1]; exact h0, by rw [q1]; exact hF⟩
  -- a servo that is time-profiled only the second time is at its target
  have T2 : ∀ n, n < 12 → timeProfiled (s.ServoCmdArray n) (s1.ServoPulseDefs n) = true →
      timeProfiled (s.ServoCmdArray n) (s.ServoPulseDefs n) = true
      ∨ servoVote (s.ServoCmdArray n) (s1.ServoPulseDefs n) = 0 := by
    intro n hn htp
    obtain ⟨hc, -⟩ := (timeProfiled_iff _ _).mp htp
    by_cases hi : isImmediate (s.ServoCmdArray n) (s.ServoPulseDefs n) = true
    · right
      obtain ⟨-, -, q3⟩ := deltaChannel_result _ _ _ _ (c1 n hn hc)
      exact servoVote_at_target _ _ (hT n hn hc) (q3 hi)
    · left
      simp only [timeProfiled, hc, Bool.true_and, Bool.not_eq_true']
      simpa using hi
  -- the move duration is the same
  have hDD : (moveTimeLoop r).2 = (moveTimeLoop s).2 := by
    obtain ⟨-, a2, a3, a4⟩ := moveTimeLoop_spec s
    obtain ⟨-, b2, b3, b4⟩ := moveTimeLoop_spec r
    rw [rdefs, rcmds] at b3 b4
    rw [rtime] at b2 b4
    apply le_antisymm
    · rcases b4 with e | ⟨n, hn, htp, e⟩
      · rw [e]; exact a2
      · rcases T2 n hn htp with h | h
        · rw [e, (T1 n hn h).2]; exact a3 n hn h
        · rw [e, h]; exact Nat.zero_le _
    · rcases a4 with e | ⟨n, hn, htp, e⟩
      · rw [e]; exact b2
      · rw [e, ← (T1 n hn htp).2]; exact b3 n hn (T1 n hn htp).1
  have okr : (moveTimeLoop r).2 ≠ 0
      ∨ ∀ n, n < 12 → timeProfiled (r.ServoCmdArray n) (r.ServoPulseDefs n) = false := by
    rcases hD with h | h
    · left; rw [hDD]; exact h
    · right; rw [rcmds]; exact sent_not_tp r.ServoPulseDefs h
  obtain ⟨s2, e2, c2, u2, -⟩ := servo_calculations_update_some r rwait okr
  refine ⟨s2, e2, ?_⟩
  intro n
  by_cases hn : n < 12 ∧ (s.ServoCmdArray n).isCommanded = true
  · obtain ⟨hn, hc⟩ := hn
    have h2 := c2 n hn (by rw [rcmds]; exact hc)
    rw [rcmds, rdefs, hDD] at h2
    have h1 := deltaChannel_idem _ _ _ _ (by
      rcases hD with h | h
      · exact Or.inl h
      · exact Or.inr (h n hn hc)) (c1 n hn hc)
    rw [h1] at h2
    exact (Option.some.inj h2).symm
  · rw [u2 n (by rw [rcmds]; exact hn), rdefs]

set_option maxRecDepth 100000 in
/-- C20 fails on the code: after the initialisations the command "servo 0 to
1500" (default speed, no move time) is committed; servo 0 was off, so it is
switched on at once and rests at 1500.  The identical command is placed again
and committed with no frame in between: servo 0 is now time-profiled, its move
time and the move duration are 0, and line 103 divides by zero, so the second
commit has no result to compare with the first. -/
theorem second_commit_divides_by_zero :
    ∃ s0 s1, initState = some s0
      ∧ servo_calculations_update (commandPW s0 0 1500 0) = some s1
      ∧ s1.ServoPulseDefs 0 = restAt 1500
      ∧ (∀ n, n < 12 →
          (commandPW s1 0 1500 0).ServoCmdArray n = (commandPW s0 0 1500 0).ServoCmdArray n)
      ∧ (commandPW s1 0 1500 0).ServoCmdMoveTime = (commandPW s0 0 1500 0).ServoCmdMoveTime
      ∧ (commandPW s1 0 1500 0).ServoPulseDefs = s1.ServoPulseDefs
      ∧ (moveTimeLoop (commandPW s1 0 1500 0)).2 = 0
      ∧ servo_calculations_update (commandPW s1 0 1500 0) = none :=
  ⟨_, _, rfl, rfl, by decide, by decide, by decide, rfl, by decide, rfl⟩

/-! ## Claims on the commit and the frame counters -/

/-- A commit that completes did not divide by zero: the move duration is not
zero or no servo of the command is time-profiled. -/
theorem commit_ok (s t : State) (hw : s.ServoCmdWaiting = true)
    (h : servo_calculations_update s = some t) :
    (moveTimeLoop s).2 ≠ 0
      ∨ ∀ n, n < 12 → timeProfiled (s.ServoCmdArray n) (s.ServoPulseDefs n) = false := by
  by_cases hD : (moveTimeLoop s).2 = 0
  · right
    intro n hn
    by_contra htp
    have e := servo_calculations_update_none s hw hD ⟨n, hn, by simpa using htp⟩
    rw [e] at h
    exact Option.noConfusion h
  · exact Or.inl hD

/-- C22, no-op without a command: with `ServoCmdWaiting` false,
`servo_calculations_update` returns the state it was given, every field
included. -/
theorem noop_without_command (s : State) (h : s.ServoCmdWaiting = false) :
    servo_calculations_update s = some s := by
  simp [servo_calculations_update, h]

set_option maxRecDepth 100000 in
/-- Witness of C22: the idle state. -/
theorem noop_without_command_witness :
    idleState.ServoCmdWaiting = false ∧ servo_calculations_update idleState = some idleState :=
  ⟨by decide, noop_without_command idleState (by decide)⟩

/-- C23, command consumed once: every commit that completes leaves
`ServoCmdWaiting` false, `ServoCmdMoveTime` 0 and each of the twelve pending
slots uncommanded with speed 65535, so that a `servo_calculations_update` right
after it returns the state unchanged; and the commit completes whenever line 103
does not divide by zero. -/
theorem command_consumed (s : State) (hw : s.ServoCmdWaiting = true) :
    (∀ t, servo_calculations_update s = some t →
      t.ServoCmdWaiting = false ∧ t.ServoCmdMoveTime = 0
      ∧ (∀ n, n < 12 → (t.ServoCmdArray n).isCommanded = false
          ∧ (t.ServoCmdArray n).targetSpeed = 65535)
      ∧ servo_calculations_update t = some t)
    ∧ ((moveTimeLoop s).2 ≠ 0
        ∨ (∀ n, n < 12 → timeProfiled (s.ServoCmdArray n) (s.ServoPulseDefs n) = false) →
      ∃ t, servo_calculations_update s = some t) := by
  constructor
  · intro t ht
    obtain ⟨t', e, -, -, -, -, -, -, -, -, -, -, w, m, c⟩ :=
      servo_calculations_update_some s hw (commit_ok s t hw ht)
    rw [ht] at e
    obtain rfl := Option.some.inj e
    refine ⟨w, m, ?_, ?_⟩
    · intro n hn
      rw [c n hn]
      exact ⟨rfl, rfl⟩
    · simp [servo_calculations_update, w]
  · intro ok
    obtain ⟨t, e, -⟩ := servo_calculations_update_some s hw ok
    exact ⟨t, e⟩

set_option maxRecDepth 100000 in
/-- Witness of C23: the commit of scenario B. -/
theorem command_consumed_witness :
    scenarioB.ServoCmdWaiting = true ∧
    ∃ t, servo_calculations_update scenarioB = some t
      ∧ t.ServoCmdWaiting = false ∧ t.ServoCmdMoveTime = 0
      ∧ (∀ n, n < 12 → (t.ServoCmdArray n).isCommanded = false
          ∧ (t.ServoCmdArray n).targetSpeed = 65535)
      ∧ servo_calculations_update t = some t := by
  have H := command_consumed scenarioB (by decide)
  obtain ⟨t, ht⟩ := H.2 (Or.inl (by decide))
  exact ⟨by decide, t, ht, H.1 t ht⟩

/-- The delta loop reads of a command entry only what `sameCmd` compares. -/
theorem deltaBody_sameCmd (c d : Nat → ServoCmd) (h : ∀ n, sameCmd (c n) (d n)) (D : Nat) :
    deltaBody c D = deltaBody d D := by
  funext st a
  obtain ⟨h1, h2, _⟩ := h a
  simp only [deltaBody, deltaChannel, isImmediate, h1, h2]

theorem sameCmd_symm {c d : ServoCmd} (h : sameCmd c d) : sameCmd d c :=
  ⟨h.1.symm, h.2.1.symm, h.2.2.symm⟩

theorem sameCmd_trans {c d e : ServoCmd} (h : sameCmd c d) (k : sameCmd d e) : sameCmd c e :=
  ⟨h.1.trans k.1, h.2.1.trans k.2.1, h.2.2.trans k.2.2⟩

/-- The move duration depends on the command entries only through what
`sameCmd` compares. -/
theorem moveTimeLoop_sameCmd (s : State) (c : Nat → ServoCmd)
    (h : ∀ n, sameCmd (s.ServoCmdArray n) (c n)) :
    (moveTimeLoop { s with ServoCmdArray := c }).2 = (moveTimeLoop s).2 := by
  obtain ⟨-, a2, a3, a4⟩ := moveTimeLoop_spec s
  obtain ⟨-, b2, b3, b4⟩ := moveTimeLoop_spec { s with ServoCmdArray := c }
  simp only at b2 b3 b4
  have hv : ∀ n, servoVote (c n) (s.ServoPulseDefs n)
        = servoVote (s.ServoCmdArray n) (s.ServoPulseDefs n)
      ∧ timeProfiled (c n) (s.ServoPulseDefs n)
        = timeProfiled (s.ServoCmdArray n) (s.ServoPulseDefs n) := fun n =>
    ⟨(sameCmd_vote (h n) _).1.symm, (sameCmd_vote (h n) _).2.1.symm⟩
  apply le_antisymm
  · rcases b4 with e | ⟨n, hn, htp, e⟩
    · rw [e]; exact a2
    · rw [e, (hv n).1]
      exact a3 n hn (by rw [← (hv n).2]; exact htp)
  · rcases a4 with e | ⟨n, hn, htp, e⟩
    · rw [e]; exact b2
    · rw [e, ← (hv n).1]
      exact b3 n hn (by rw [(hv n).2]; exact htp)

theorem moveTimeFold_other (defs : Nat → PulseDef) (l : List Nat) (i : Nat) (hi : i ∉ l) :
    ∀ st : (Nat → ServoCmd) × Nat, (l.foldl (moveTimeBody defs) st).1 i = st.1 i := by
  induction l with
  | nil => intro st; rfl
  | cons a l ih =>
    intro st
    have hia : i ≠ a := fun h => hi (h ▸ List.mem_cons_self _ _)
    rw [List.foldl_cons, ih (fun h => hi (List.mem_cons_of_mem _ h))]
    unfold moveTimeBody
    simp only
    split_ifs <;> first | rfl | exact Function.update_noteq hia _ _

theorem resetFold_other (l : List Nat) (i : Nat) (hi : i ∉ l) :
    ∀ c : Nat → ServoCmd,
      (l.foldl (fun c i => Function.update c i
        { isCommanded := false, targetSpeed := 65535, targetPW := 0 }) c) i = c i := by
  induction l with
  | nil => intro c; rfl
  | cons a l ih =>
    intro c
    have hia : i ≠ a := fun h => hi (h ▸ List.mem_cons_self _ _)
    rw [List.foldl_cons, ih (fun h => hi (List.mem_cons_of_mem _ h))]
    exact Function.update_noteq hia _ _

/-- The commit of a waiting command, with the move time loop folded. -/
theorem servo_calculations_update_eq (s : State) (hw : s.ServoCmdWaiting = true) :
    servo_calculations_update s
      = match (List.range NUM_SERVOS).foldlM (deltaBody (moveTimeLoop s).1 (moveTimeLoop s).2)
          (s.ServoPulseDefs, s.MillisRemainingInCommand) with
        | none => none
        | some r =>
          some { s with
            ServoPulseDefs := r.1
            MillisRemainingInCommand := r.2
            ServoCmdArray := (List.range NUM_SERVOS).foldl
              (fun c i => Function.update c i
                { isCommanded := false, targetSpeed := 65535, targetPW := 0 }) (moveTimeLoop s).1
            ServoCmdWaiting := false
            ServoCmdMoveTime := 0 } := by
  unfold servo_calculations_update
  rw [if_neg (by rw [hw]; decide)]
  rfl

/-- Two pending commands that differ only in what the commit does not read, in
the entries of the twelve servos, are committed to the same state. -/
theorem commit_congr (s : State) (c : Nat → ServoCmd) (hw : s.ServoCmdWaiting = true)
    (h : ∀ n, sameCmd (s.ServoCmdArray n) (c n))
    (hhigh : ∀ n, 12 ≤ n → c n = s.ServoCmdArray n) :
    servo_calculations_update { s with ServoCmdArray := c } = servo_calculations_update s := by
  have hD := moveTimeLoop_sameCmd s c h
  obtain ⟨a1, -⟩ := moveTimeLoop_spec s
  obtain ⟨b1, -⟩ := moveTimeLoop_spec { s with ServoCmdArray := c }
  simp only at b1
  have hb : deltaBody (moveTimeLoop { s with ServoCmdArray := c }).1 (moveTimeLoop s).2
      = deltaBody (moveTimeLoop s).1 (moveTimeLoop s).2 :=
    deltaBody_sameCmd _ _ (fun n =>
      sameCmd_trans (b1 n) (sameCmd_trans (sameCmd_symm (h n)) (sameCmd_symm (a1 n)))) _
  have hreset : (List.range NUM_SERVOS).foldl
        (fun c i => Function.update c i
          ({ isCommanded := false, targetSpeed := 65535, targetPW := 0 } : ServoCmd))
        (moveTimeLoop { s with ServoCmdArray := c }).1
      = (List.range NUM_SERVOS).foldl
        (fun c i => Function.update c i
          ({ isCommanded := false, targetSpeed := 65535, targetPW := 0 } : ServoCmd))
        (moveTimeLoop s).1 := by
    funext i
    by_cases hi : i ∈ List.range NUM_SERVOS
    · rw [resetFold_apply _ _ i hi, resetFold_apply _ _ i hi]
    · rw [resetFold_other _ i hi, resetFold_other _ i hi]
      unfold moveTimeLoop
      rw [moveTimeFold_other _ _ i hi, moveTimeFold_other _ _ i hi]
      exact hhigh i (by simpa using hi)
  rw [servo_calculations_update_eq { s with ServoCmdArray := c } hw,
    servo_calculations_update_eq s hw]
  simp only [hD, hb, hreset]

/-- C24, zero speed means speed 1: for a commanded servo `n` with speed 0 the
commit gives the same result (the same state, or the same division by zero at
line 103) as the commit of the command with the speed of `n` set to 1; a commit
that completes stores the commanded width as the target of `n`, so the command
is not rejected; and the commit completes whenever line 103 does not divide by
zero. -/
theorem zero_speed_is_speed_one (s : State) (n : Nat) (hw : s.ServoCmdWaiting = true)
    (hn : n < 12) (hc : (s.ServoCmdArray n).isCommanded = true)
    (h0 : (s.ServoCmdArray n).targetSpeed = 0) :
    servo_calculations_update s
        = servo_calculations_update
            { s with ServoCmdArray :=
                Function.update s.ServoCmdArray n { s.ServoCmdArray n with targetSpeed := 1 } }
    ∧ (∀ t, servo_calculations_update s = some t →
        (t.ServoPulseDefs n).targetPW = (s.ServoCmdArray n).targetPW)
    ∧ ((moveTimeLoop s).2 ≠ 0
        ∨ (∀ m, m < 12 → timeProfiled (s.ServoCmdArray m) (s.ServoPulseDefs m) = false) →
      ∃ t, servo_calculations_update s = some t) := by
  refine ⟨?_, ?_, ?_⟩
  · symm
    apply commit_congr s _ hw
    · intro m
      by_cases hm : m = n
      · subst hm
        simp [sameCmd, h0]
      · rw [Function.update_noteq hm]
        exact sameCmd_refl _
    · intro m hm
      exact Function.update_noteq (by omega) _ _
  · intro t ht
    obtain ⟨t', e, c, -⟩ := servo_calculations_update_some s hw (commit_ok s t hw ht)
    rw [ht] at e
    obtain rfl := Option.some.inj e
    have hv := c n hn hc
    unfold deltaChannel at hv
    split_ifs at hv with h1 h2
    · rw [← Option.some.inj hv]
    · rw [← Option.some.inj hv]
  · intro ok
    obtain ⟨t, e, -⟩ := servo_calculations_update_some s hw ok
    exact ⟨t, e⟩

set_option maxRecDepth 100000 in
/-- Witness of C24: servo 0 at rest at 1500 is sent to 1600 at speed 0; the
commit completes, as the commit with speed 1 does, with target 1600. -/
theorem zero_speed_is_speed_one_witness :
    (zeroSpeedCommand.ServoCmdWaiting = true
      ∧ (zeroSpeedCommand.ServoCmdArray 0).isCommanded = true
      ∧ (zeroSpeedCommand.ServoCmdArray 0).targetSpeed = 0) ∧
    ∃ t, servo_calculations_update zeroSpeedCommand = some t
      ∧ servo_calculations_update
          { zeroSpeedCommand with
            ServoCmdArray := Function.update zeroSpeedCommand.ServoCmdArray 0
                                { zeroSpeedCommand.ServoCmdArray 0 with targetSpeed := 1 } }
          = some t
      ∧ (t.ServoPulseDefs 0).targetPW = 1600 := by
  have H := zero_speed_is_speed_one zeroSpeedCommand 0 (by decide) (by decide) (by decide)
    (by decide)
  obtain ⟨t, ht⟩ := H.2.2 (Or.inl (by decide))
  exact ⟨⟨by decide, by decide, by decide⟩, t, ht, by rw [← H.1]; exact ht, H.2.1 t ht⟩

/-- C25, remaining-time counter on commit: a commit that completes sets
`MillisRemainingInCommand` to the computed move duration when some commanded
servo is time-profiled (neither its commanded width nor its stored target is 0
or 0xFFFF), and leaves it as it was when every commanded servo is
sentinel-involved or no servo is commanded; and the commit completes whenever
line 103 does not divide by zero. -/
theorem remaining_time_on_commit (s : State) (hw : s.ServoCmdWaiting = true) :
    (∀ t, servo_calculations_update s = some t →
      ((∃ n, n < 12 ∧ (s.ServoCmdArray n).isCommanded = true
          ∧ isImmediate (s.ServoCmdArray n) (s.ServoPulseDefs n) = false) →
        t.MillisRemainingInCommand = ((moveTimeLoop s).2 : Int))
      ∧ ((∀ n, n < 12 → (s.ServoCmdArray n).isCommanded = true →
          isImmediate (s.ServoCmdArray n) (s.ServoPulseDefs n) = true) →
        t.MillisRemainingInCommand = s.MillisRemainingInCommand))
    ∧ ((moveTimeLoop s).2 ≠ 0
        ∨ (∀ n, n < 12 → timeProfiled (s.ServoCmdArray n) (s.ServoPulseDefs n) = false) →
      ∃ t, servo_calculations_update s = some t) := by
  constructor
  · intro t ht
    obtain ⟨t', e, -, -, m, -⟩ := servo_calculations_update_some s hw (commit_ok s t hw ht)
    rw [ht] at e
    obtain rfl := Option.some.inj e
    constructor
    · rintro ⟨n, hn, hc, hi⟩
      have hany : (List.range NUM_SERVOS).any
          (fun n => timeProfiled (s.ServoCmdArray n) (s.ServoPulseDefs n)) = true := by
        rw [List.any_eq_true]
        exact ⟨n, List.mem_range.mpr hn, by simp [timeProfiled, hc, hi]⟩
      rw [m, if_pos hany]
    · intro hall
      have hany : ¬ (List.range NUM_SERVOS).any
          (fun n => timeProfiled (s.ServoCmdArray n) (s.ServoPulseDefs n)) = true := by
        rw [List.any_eq_true]
        rintro ⟨n, hn, htp⟩
        simp only [timeProfiled, Bool.and_eq_true, Bool.not_eq_true'] at htp
        have := hall n (List.mem_range.mp hn) htp.1
        rw [htp.2] at this
        exact Bool.noConfusion this
      rw [m, if_neg hany]
  · intro ok
    obtain ⟨t, e, -⟩ := servo_calculations_update_some s hw ok
    exact ⟨t, e⟩

set_option maxRecDepth 100000 in
/-- Witness of C25: the commit of scenario B sets the counter to 1000. -/
theorem remaining_time_on_commit_witness :
    scenarioB.ServoCmdWaiting = true ∧
    ∃ t, servo_calculations_update scenarioB = some t
      ∧ t.MillisRemainingInCommand = 1000 := by
  have H := remaining_time_on_commit scenarioB (by decide)
  obtain ⟨t, ht⟩ := H.2 (Or.inl (by decide))
  have h := (H.1 t ht).1 ⟨0, by decide, by decide, by decide⟩
  exact ⟨by decide, t, ht, by rw [h]; decide⟩

/-- C26, remaining-time countdown: with every edge output and
`MillisRemainingInCommand = r`, `0 ≤ r` (and `r` a value of `int32_t`),
`servo_pulse_update` sets `MillisRemainingInCommand` to `max 0 (r - 20)`. -/
theorem remaining_time_countdown (s : State) (h : 24 ≤ s.EdgeIndex)
    (h0 : 0 ≤ s.MillisRemainingInCommand) (h1 : s.MillisRemainingInCommand ≤ 2147483647) :
    (servo_pulse_update s).MillisRemainingInCommand = max 0 (s.MillisRemainingInCommand - 20) := by
  rw [servo_pulse_update_regen s h]
  simp only [groupBody_frame, i32, SERVO_PULSE_PERIOD_MS]
  rcases le_total 0 (s.MillisRemainingInCommand - 20) with hle | hle
  · rw [max_eq_right hle]
    split_ifs <;> omega
  · rw [max_eq_left hle]
    split_ifs <;> omega

set_option maxRecDepth 100000 in
/-- Witness of C26: 30 milliseconds remain in the idle state. -/
theorem remaining_time_countdown_witness :
    (24 ≤ ({ idleState with MillisRemainingInCommand := 30 } : State).EdgeIndex
      ∧ 0 ≤ ({ idleState with MillisRemainingInCommand := 30 } : State).MillisRemainingInCommand
      ∧ ({ idleState with MillisRemainingInCommand := 30 } : State).MillisRemainingInCommand
          ≤ 2147483647) ∧
    (servo_pulse_update { idleState with MillisRemainingInCommand := 30 }).MillisRemainingInCommand
      = max 0 (({ idleState with MillisRemainingInCommand := 30 } : State).MillisRemainingInCommand
          - 20) :=
  ⟨⟨by decide, by decide, by decide⟩,
    remaining_time_countdown { idleState with MillisRemainingInCommand := 30 } (by decide)
      (by decide) (by decide)⟩

theorem servo_pulse_update_LoopCount (s : State) :
    (servo_pulse_update s).LoopCount
      = if s.EdgeIndex < 24 then s.LoopCount else u64 (s.LoopCount + 1) := by
  by_cases h : s.EdgeIndex < 24
  · rw [if_pos h]
    have h' : s.EdgeIndex < 2 * NUM_SERVOS := by simp only [NUM_SERVOS]; omega
    simp only [servo_pulse_update, h', if_true]
  · rw [if_neg h, servo_pulse_update_regen s (by omega)]
    simp only [groupBody_frame]

/-- The timer interrupt does not write the frame counter. -/
theorem ISR_iterate_LoopCount (m : Nat) : ∀ s : State,
    (Nat.iterate ISR_TCA0_CMP0 m s).LoopCount = s.LoopCount := by
  induction m with
  | zero => intro s; rfl
  | succ m ih =>
    intro s
    rw [Function.iterate_succ_apply, ih]
    rfl

/-- Every frame counts once, as long as the 64-bit counter does not wrap. -/
theorem pulseFrames_LoopCount (k : Nat) : ∀ s : State,
    s.LoopCount + k < 18446744073709551616 →
    (pulseFrames k s).LoopCount = s.LoopCount + k := by
  induction k with
  | zero => intro s _; rfl
  | succ k ih =>
    intro s hs
    have e : pulseFrames (k + 1) s = pulseFrames k (pulseFrame s) := by
      simp only [pulseFrames, Function.iterate_succ_apply]
    have e1 : (pulseFrame s).LoopCount = s.LoopCount + 1 := by
      obtain ⟨h1, -⟩ := drainEdges_spec s
      rw [pulseFrame, servo_pulse_update_LoopCount, if_neg (by omega)]
      simp only [drainEdges, ISR_iterate_LoopCount, u64]
      omega
    rw [e, ih _ (by rw [e1]; omega), e1]
    omega

/-- C27, frame counter: while the 64-bit counter is below its largest value, a
`servo_pulse_update` with every edge output increases `LoopCount` by exactly 1
and resets `EdgeIndex` to 0; a gated `servo_pulse_update`, a
`servo_calculations_update` and a timer interrupt with an entry of the table
left to output (`EdgeIndex` below 24) leave `LoopCount` as it is; so
`servo_pulse_update` never decreases `LoopCount`, and after `k` frames
`LoopCount` has grown by `k`. -/
theorem frame_counter (s : State) (hL : s.LoopCount < 18446744073709551615) :
    (24 ≤ s.EdgeIndex →
      (servo_pulse_update s).LoopCount = s.LoopCount + 1
      ∧ (servo_pulse_update s).EdgeIndex = 0)
    ∧ (s.EdgeIndex < 24 → (servo_pulse_update s).LoopCount = s.LoopCount)
    ∧ (∀ t, servo_calculations_update s = some t → t.LoopCount = s.LoopCount)
    ∧ (s.EdgeIndex < 24 → (ISR_TCA0_CMP0 s).LoopCount = s.LoopCount)
    ∧ s.LoopCount ≤ (servo_pulse_update s).LoopCount
    ∧ (∀ k, s.LoopCount + k < 18446744073709551616 →
        (pulseFrames k s).LoopCount = s.LoopCount + k) := by
  have hreg : 24 ≤ s.EdgeIndex → (servo_pulse_update s).LoopCount = s.LoopCount + 1 := by
    intro h
    rw [servo_pulse_update_LoopCount, if_neg (by omega)]
    simp only [u64]
    omega
  have hgate : s.EdgeIndex < 24 → (servo_pulse_update s).LoopCount = s.LoopCount := by
    intro h
    rw [servo_pulse_update_LoopCount, if_pos h]
  refine ⟨?_, hgate, ?_, fun _ => rfl, ?_, fun k hk => pulseFrames_LoopCount k s hk⟩
  · intro h
    exact ⟨hreg h, by rw [servo_pulse_update_EdgeIndex, if_neg (by omega)]⟩
  · intro t ht
    by_cases hw : s.ServoCmdWaiting = true
    · obtain ⟨t', e, -, -, -, -, -, l, -⟩ := servo_calculations_update_some s hw (commit_ok s t hw ht)
      rw [ht] at e
      obtain rfl := Option.some.inj e
      exact l
    · simp only [Bool.not_eq_true] at hw
      simp [servo_calculations_update, hw] at ht
      rw [← ht]
  · by_cases h : s.EdgeIndex < 24
    · rw [hgate h]
    · rw [hreg (by omega)]
      omega

set_option maxRecDepth 100000 in
/-- Witness of C27: one frame, and three frames, from the idle state. -/
theorem frame_counter_witness :
    idleState.LoopCount < 18446744073709551615 ∧ 24 ≤ idleState.EdgeIndex
      ∧ (servo_pulse_update idleState).LoopCount = idleState.LoopCount + 1
      ∧ (servo_pulse_update idleState).EdgeIndex = 0
      ∧ (pulseFrames 3 idleState).LoopCount = idleState.LoopCount + 3 :=
  ⟨by decide, by decide, ((frame_counter idleState (by decide)).1 (by decide)).1,
    ((frame_counter idleState (by decide)).1 (by decide)).2,
    (frame_counter idleState (by decide)).2.2.2.2.2 3 (by decide)⟩

/-! ## Claims on the per-frame step -/

/-- A downward step that stays above the target is not clipped. -/
theorem accumulate_down_step (T c d : Nat) (hT : T < 65536) (hc : T * 65536 + d ≤ c)
    (hc2 : c < 4294967296) :
    accumulate { targetPW := T, currentPW_l16 := c, deltaPW_l16 := -(d : Int) }
      = { targetPW := T, currentPW_l16 := c - d, deltaPW_l16 := -(d : Int) } := by
  unfold accumulate
  simp only [u32OfInt, u32]
  have e1 : (((c : Int) + -(d : Int)) % 4294967296).toNat = c - d := by omega
  have e2 : T * 65536 % 4294967296 = T * 65536 := by omega
  rw [e1, e2]
  split_ifs with h <;> first | rfl | (exfalso; omega)

/-- As long as the steps stay above the target, `k` downward steps of `d` take
`k * d` from the current width. -/
theorem accumulate_down_steps (T d : Nat) (hT : T < 65536) (k : Nat) :
    ∀ c, T * 65536 + k * d ≤ c → c < 4294967296 →
    Nat.iterate accumulate k { targetPW := T, currentPW_l16 := c, deltaPW_l16 := -(d : Int) }
      = { targetPW := T, currentPW_l16 := c - k * d, deltaPW_l16 := -(d : Int) } := by
  induction k with
  | zero => intro c _ _; simp
  | succ k ih =>
    intro c hc hc2
    have e : (k + 1) * d = k * d + d := by ring
    rw [e] at hc
    rw [Function.iterate_succ_apply, accumulate_down_step T c d hT (by omega) hc2,
      ih (c - d) (by omega) (by omega), e]
    congr 1
    omega

/-- Fewer than `D / 20` steps of `20 * (x / D)` cover less than the distance `x`. -/
theorem steps_short (x D k : Nat) (hx : 0 < x) (hk : 20 * k < D) :
    k * (20 * (x / D)) < x := by
  have h1 : D * (x / D) ≤ x := Nat.mul_div_le x D
  rcases Nat.eq_zero_or_pos (x / D) with h0 | hpos
  · rw [h0]; omega
  · have h2 : (20 * k) * (x / D) < D * (x / D) := Nat.mul_lt_mul_of_pos_right hk hpos
    have h3 : k * (20 * (x / D)) = (20 * k) * (x / D) := by ring
    omega

/-- C21, no early arrival: in a commit with move duration `D`, for a
time-profiled channel with commanded and current widths in the range 500 to 2500
whose commanded width shifted left by 16 differs from its current width (as it
does when the widths in microseconds differ), the commit completes and after `k`
frames with `20 * k < D` the channel, whose target is the commanded width, has
`currentPW_l16` different from `targetPW << 16`. -/
theorem no_early_arrival (s : State) (n : Nat) (hw : s.ServoCmdWaiting = true) (hn : n < 12)
    (htp : timeProfiled (s.ServoCmdArray n) (s.ServoPulseDefs n) = true)
    (hT : 500 ≤ (s.ServoCmdArray n).targetPW ∧ (s.ServoCmdArray n).targetPW ≤ 2500)
    (hW : 500 ≤ (s.ServoPulseDefs n).currentPW_l16 / 65536
      ∧ (s.ServoPulseDefs n).currentPW_l16 / 65536 ≤ 2500)
    (hS : (s.ServoCmdArray n).targetSpeed ≤ 65535)
    (hne : (s.ServoCmdArray n).targetPW * 65536 ≠ (s.ServoPulseDefs n).currentPW_l16)
    (k : Nat) (hk : 20 * k < (moveTimeLoop s).2) :
    ∃ t, servo_calculations_update s = some t
      ∧ ((pulseFrames k t).ServoPulseDefs n).targetPW = (s.ServoCmdArray n).targetPW
      ∧ ((pulseFrames k t).ServoPulseDefs n).currentPW_l16
          ≠ ((pulseFrames k t).ServoPulseDefs n).targetPW * 65536 := by
  obtain ⟨t, e, up, down, b1, b2⟩ := commit_in_range s n hw hn htp (by omega) hT hW hS
  generalize hDdef : (moveTimeLoop s).2 = D at *
  generalize hTdef : (s.ServoCmdArray n).targetPW = T at *
  generalize hcdef : (s.ServoPulseDefs n).currentPW_l16 = c at *
  by_cases hup : c ≤ T * 65536
  · have hx : 0 < T * 65536 - c := by omega
    have hshort := steps_short (T * 65536 - c) D k hx hk
    have hit := accumulate_up_iterate T (20 * ((T * 65536 - c) / D)) (by omega) (by omega) k c hup
    have hdef : (pulseFrames k t).ServoPulseDefs n
        = { targetPW := T, currentPW_l16 := c + k * (20 * ((T * 65536 - c) / D)),
            deltaPW_l16 := ((20 * ((T * 65536 - c) / D) : Nat) : Int) } := by
      rw [pulseFrames_defs k n hn, up hup, hit, min_eq_right (by omega)]
    refine ⟨t, e, by rw [hdef], ?_⟩
    rw [hdef]
    simp only
    omega
  · have hdown : T * 65536 ≤ c := by omega
    have hx : 0 < c - T * 65536 := by omega
    have hshort := steps_short (c - T * 65536) D k hx hk
    have hit := accumulate_down_steps T (20 * ((c - T * 65536) / D)) (by omega) k c (by omega)
      (by omega)
    have hdef : (pulseFrames k t).ServoPulseDefs n
        = { targetPW := T, currentPW_l16 := c - k * (20 * ((c - T * 65536) / D)),
            deltaPW_l16 := -((20 * ((c - T * 65536) / D) : Nat) : Int) } := by
      rw [pulseFrames_defs k n hn, down hdown, hit]
    refine ⟨t, e, by rw [hdef], ?_⟩
    rw [hdef]
    simp only
    omega

set_option maxRecDepth 100000 in
/-- Witness of C21: servo 2 of scenario B, 49 frames into the move of 1000
milliseconds. -/
theorem no_early_arrival_witness :
    (scenarioB.ServoCmdWaiting = true
      ∧ timeProfiled (scenarioB.ServoCmdArray 2) (scenarioB.ServoPulseDefs 2) = true
      ∧ (scenarioB.ServoCmdArray 2).targetPW * 65536 ≠ (scenarioB.ServoPulseDefs 2).currentPW_l16
      ∧ 20 * 49 < (moveTimeLoop scenarioB).2) ∧
    (∃ t, servo_calculations_update scenarioB = some t
      ∧ ((pulseFrames 49 t).ServoPulseDefs 2).targetPW = (scenarioB.ServoCmdArray 2).targetPW
      ∧ ((pulseFrames 49 t).ServoPulseDefs 2).currentPW_l16
          ≠ ((pulseFrames 49 t).ServoPulseDefs 2).targetPW * 65536) :=
  ⟨⟨by decide, by decide, by decide, by decide⟩,
    no_early_arrival scenarioB 2 (by decide) (by decide) (by decide) (by decide) (by decide)
      (by decide) (by decide) 49 (by decide)⟩

/-- Truncating division of a natural number, or of its negative, by a natural
number. -/
theorem tdiv_natCast (x D : Nat) :
    Int.tdiv (x : Int) (D : Int) = ((x / D : Nat) : Int)
    ∧ Int.tdiv (-(x : Int)) (D : Int) = -((x / D : Nat) : Int) := by
  constructor
  · rw [Int.tdiv_eq_ediv (Int.ofNat_zero_le _) (Int.ofNat_zero_le _)]; norm_cast
  · rw [Int.neg_tdiv, Int.tdiv_eq_ediv (Int.ofNat_zero_le _) (Int.ofNat_zero_le _)]; norm_cast

/-- C28, no overflow in the delta: in a commit with move duration `D ≥ 1`, for
a time-profiled channel with commanded and current widths in the range 500 to
2500, the value `20 * (((targetPW << 16) - currentPW_l16) / D)` lies in the
signed 32-bit range and is the delta that the commit stores; and the move time
computed from the speed is at most 65535 for every channel. -/
theorem delta_no_overflow (s : State) (n : Nat) (hw : s.ServoCmdWaiting = true) (hn : n < 12)
    (htp : timeProfiled (s.ServoCmdArray n) (s.ServoPulseDefs n) = true)
    (hD : 1 ≤ (moveTimeLoop s).2)
    (hT : 500 ≤ (s.ServoCmdArray n).targetPW ∧ (s.ServoCmdArray n).targetPW ≤ 2500)
    (hW : 500 ≤ (s.ServoPulseDefs n).currentPW_l16 / 65536
      ∧ (s.ServoPulseDefs n).currentPW_l16 / 65536 ≤ 2500)
    (hS : (s.ServoCmdArray n).targetSpeed ≤ 65535) :
    -2147483648 ≤ 20 * Int.tdiv (((s.ServoCmdArray n).targetPW * 65536 : Int)
        - ((s.ServoPulseDefs n).currentPW_l16 : Int)) ((moveTimeLoop s).2 : Int)
    ∧ 20 * Int.tdiv (((s.ServoCmdArray n).targetPW * 65536 : Int)
        - ((s.ServoPulseDefs n).currentPW_l16 : Int)) ((moveTimeLoop s).2 : Int) ≤ 2147483647
    ∧ (∃ t, servo_calculations_update s = some t
        ∧ (t.ServoPulseDefs n).deltaPW_l16
            = 20 * Int.tdiv (((s.ServoCmdArray n).targetPW * 65536 : Int)
                - ((s.ServoPulseDefs n).currentPW_l16 : Int)) ((moveTimeLoop s).2 : Int))
    ∧ (∀ m, servoVote (s.ServoCmdArray m) (s.ServoPulseDefs m) ≤ 65535) := by
  obtain ⟨t, e, up, down, b1, b2⟩ := commit_in_range s n hw hn htp hD hT hW hS
  have hvote : ∀ m, servoVote (s.ServoCmdArray m) (s.ServoPulseDefs m) ≤ 65535 :=
    fun m => servoMoveTime_le _ _
  generalize hDdef : (moveTimeLoop s).2 = D at *
  generalize hTdef : (s.ServoCmdArray n).targetPW = T at *
  generalize hcdef : (s.ServoPulseDefs n).currentPW_l16 = c at *
  by_cases hup : c ≤ T * 65536
  · have ev : 20 * Int.tdiv ((T * 65536 : Int) - (c : Int)) (D : Int)
        = ((20 * ((T * 65536 - c) / D) : Nat) : Int) := by
      have e1 : ((T : Int) * 65536 - (c : Int)) = ((T * 65536 - c : Nat) : Int) := by omega
      rw [e1, (tdiv_natCast _ _).1]
      push_cast
      rfl
    rw [ev]
    refine ⟨by omega, by omega, ⟨t, e, by rw [up hup]⟩, hvote⟩
  · have hdown : T * 65536 ≤ c := by omega
    have ev : 20 * Int.tdiv ((T * 65536 : Int) - (c : Int)) (D : Int)
        = -((20 * ((c - T * 65536) / D) : Nat) : Int) := by
      have e1 : ((T : Int) * 65536 - (c : Int)) = -((c - T * 65536 : Nat) : Int) := by omega
      rw [e1, (tdiv_natCast _ _).2]
      push_cast
      ring
    rw [ev]
    refine ⟨by omega, by omega, ⟨t, e, by rw [down hdown]⟩, hvote⟩

set_option maxRecDepth 100000 in
/-- Witness of C28: servo 0 of scenario B. -/
theorem delta_no_overflow_witness :
    (scenarioB.ServoCmdWaiting = true
      ∧ timeProfiled (scenarioB.ServoCmdArray 0) (scenarioB.ServoPulseDefs 0) = true
      ∧ 1 ≤ (moveTimeLoop scenarioB).2) ∧
    (-2147483648 ≤ 20 * Int.tdiv (((scenarioB.ServoCmdArray 0).targetPW * 65536 : Int)
        - ((scenarioB.ServoPulseDefs 0).currentPW_l16 : Int)) ((moveTimeLoop scenarioB).2 : Int)
    ∧ 20 * Int.tdiv (((scenarioB.ServoCmdArray 0).targetPW * 65536 : Int)
        - ((scenarioB.ServoPulseDefs 0).currentPW_l16 : Int)) ((moveTimeLoop scenarioB).2 : Int) ≤ 2147483647
    ∧ (∃ t, servo_calculations_update scenarioB = some t
        ∧ (t.ServoPulseDefs 0).deltaPW_l16
            = 20 * Int.tdiv (((scenarioB.ServoCmdArray 0).targetPW * 65536 : Int)
                - ((scenarioB.ServoPulseDefs 0).currentPW_l16 : Int)) ((moveTimeLoop scenarioB).2 : Int))
    ∧ (∀ m, servoVote (scenarioB.ServoCmdArray m) (scenarioB.ServoPulseDefs m) ≤ 65535)) :=
  ⟨⟨by decide, by decide, by decide⟩,
    delta_no_overflow scenarioB 0 (by decide) (by decide) (by decide) (by decide) (by decide)
      (by decide) (by decide)⟩

/-! ## The transmit queue and the status query -/

theorem uart_tx_put_char_spec (b : Nat) (u : Uart) (hu : u.txq_add_idx < 255) :
    (uart_tx_put_char b u).txq_add_idx = (u.txq_add_idx + 1) % 255
    ∧ (uart_tx_put_char b u).tx_queue = Function.update u.tx_queue u.txq_add_idx (u8 b) := by
  unfold uart_tx_put_char
  simp only [u8, TXQ_NBYTES]
  constructor
  · split_ifs with h
    · simp only; omega
    · simp only; omega
  · split_ifs <;> rfl

theorem putChars_idx (bs : List Nat) : ∀ u : Uart, u.txq_add_idx < 255 →
    (putChars bs u).txq_add_idx = (u.txq_add_idx + bs.length) % 255 := by
  induction bs with
  | nil => intro u hu; simp only [putChars, List.foldl_nil, List.length_nil]; omega
  | cons b bs ih =>
    intro u hu
    obtain ⟨h1, -⟩ := uart_tx_put_char_spec b u hu
    have e : putChars (b :: bs) u = putChars bs (uart_tx_put_char b u) := rfl
    rw [e, ih _ (by rw [h1]; omega), h1, List.length_cons]
    omega

/-- Putting bytes on the queue leaves the entries beyond them as they were. -/
theorem putChars_other (bs : List Nat) : ∀ u : Uart, u.txq_add_idx < 255 →
    ∀ p, (∀ i, i < bs.length → p ≠ (u.txq_add_idx + i) % 255) →
      (putChars bs u).tx_queue p = u.tx_queue p := by
  induction bs with
  | nil => intro u _ p _; rfl
  | cons b bs ih =>
    intro u hu p hp
    obtain ⟨h1, h2⟩ := uart_tx_put_char_spec b u hu
    have e : putChars (b :: bs) u = putChars bs (uart_tx_put_char b u) := rfl
    rw [e, ih _ (by rw [h1]; omega) p, h2, Function.update_noteq]
    · have := hp 0 (by simp)
      omega
    · intro i hi
      have := hp (i + 1) (by simp; omega)
      rw [h1]
      omega

/-- The queue holds the bytes put on it, in order from the old add index. -/
theorem putChars_queue (bs : List Nat) : ∀ u : Uart, u.txq_add_idx < 255 → bs.length ≤ 255 →
    ∀ j, j < bs.length →
      (putChars bs u).tx_queue ((u.txq_add_idx + j) % 255) = u8 (bs.getD j 0) := by
  induction bs with
  | nil => intro u _ _ j hj; simp at hj
  | cons b bs ih =>
    intro u hu hl j hj
    obtain ⟨h1, h2⟩ := uart_tx_put_char_spec b u hu
    have e : putChars (b :: bs) u = putChars bs (uart_tx_put_char b u) := rfl
    simp only [List.length_cons] at hl hj
    rw [e]
    cases j with
    | zero =>
      rw [putChars_other bs _ (by rw [h1]; omega), h2]
      · have e0 : (u.txq_add_idx + 0) % 255 = u.txq_add_idx := by omega
        rw [e0, Function.update_same]
        rfl
      · intro i hi
        rw [h1]
        omega
    | succ j =>
      have e1 : (u.txq_add_idx + (j + 1)) % 255
          = ((uart_tx_put_char b u).txq_add_idx + j) % 255 := by
        rw [h1]; omega
      rw [e1, ih _ (by rw [h1]; omega) (by omega) j (by omega)]
      rfl

theorem sent_self (u : Uart) : sent u u = [] := by
  have e : (u.txq_add_idx + TXQ_NBYTES - u.txq_add_idx) % TXQ_NBYTES = 0 := by
    simp only [TXQ_NBYTES]; omega
  simp only [sent, e, List.range_zero, List.map_nil]

/-- Five bytes put on the queue are the bytes sent. -/
theorem sent_five (a b c d e : Nat) (u : Uart) (hu : u.txq_add_idx < 255)
    (ha : a < 256) (hb : b < 256) (hc : c < 256) (hd : d < 256) (he : e < 256) :
    sent u (putChars [a, b, c, d, e] u) = [a, b, c, d, e] := by
  have hi := putChars_idx [a, b, c, d, e] u hu
  have hq := putChars_queue [a, b, c, d, e] u hu (by simp)
  have hlen : ((putChars [a, b, c, d, e] u).txq_add_idx + TXQ_NBYTES - u.txq_add_idx) % TXQ_NBYTES
      = 5 := by
    rw [hi]; simp only [TXQ_NBYTES, List.length_cons, List.length_nil]; omega
  have q0 := hq 0 (by simp)
  have q1 := hq 1 (by simp)
  have q2 := hq 2 (by simp)
  have q3 := hq 3 (by simp)
  have q4 := hq 4 (by simp)
  simp only [List.getD_cons_zero, List.getD_cons_succ, u8] at q0 q1 q2 q3 q4
  simp only [sent, hlen, range5, List.map_cons, List.map_nil, TXQ_NBYTES, q0, q1, q2, q3, q4,
    Nat.mod_eq_of_lt ha, Nat.mod_eq_of_lt hb, Nat.mod_eq_of_lt hc, Nat.mod_eq_of_lt hd,
    Nat.mod_eq_of_lt he]

theorem range6 : List.range 6 = [0, 1, 2, 3, 4, 5] := by decide

/-- Six bytes put on the queue are the bytes sent. -/
theorem sent_six (a b c d e f : Nat) (u : Uart) (hu : u.txq_add_idx < 255)
    (ha : a < 256) (hb : b < 256) (hc : c < 256) (hd : d < 256) (he : e < 256) (hf : f < 256) :
    sent u (putChars [a, b, c, d, e, f] u) = [a, b, c, d, e, f] := by
  have hi := putChars_idx [a, b, c, d, e, f] u hu
  have hq := putChars_queue [a, b, c, d, e, f] u hu (by simp)
  have hlen : ((putChars [a, b, c, d, e, f] u).txq_add_idx + TXQ_NBYTES - u.txq_add_idx)
      % TXQ_NBYTES = 6 := by
    rw [hi]; simp only [TXQ_NBYTES, List.length_cons, List.length_nil]; omega
  have q0 := hq 0 (by simp)
  have q1 := hq 1 (by simp)
  have q2 := hq 2 (by simp)
  have q3 := hq 3 (by simp)
  have q4 := hq 4 (by simp)
  have q5 := hq 5 (by simp)
  simp only [List.getD_cons_zero, List.getD_cons_succ, u8] at q0 q1 q2 q3 q4 q5
  simp only [sent, hlen, range6, List.map_cons, List.map_nil, TXQ_NBYTES, q0, q1, q2, q3, q4, q5,
    Nat.mod_eq_of_lt ha, Nat.mod_eq_of_lt hb, Nat.mod_eq_of_lt hc, Nat.mod_eq_of_lt hd,
    Nat.mod_eq_of_lt he, Nat.mod_eq_of_lt hf]

theorem statusChar_cases (p : PulseDef) :
    statusChar p = 49 ∨ statusChar p = 52 ∨ statusChar p = 54 := by
  unfold statusChar
  split_ifs <;> simp

/-- The bytes that a status query for servo `n` sends. -/
theorem ParseQStatus_sent (n : Nat) (hn : n < 12) (s : State) (u : Uart)
    (hu : u.txq_add_idx < 255) :
    sent u (ParseQStatus n s u).2
      = if 10 ≤ n then [42, n / 10 + 48, n % 10 + 48, 81, statusChar (s.ServoPulseDefs n), 13]
        else [42, n % 10 + 48, 81, statusChar (s.ServoPulseDefs n), 13] := by
  have hs : statusChar (s.ServoPulseDefs n) < 256 := by
    rcases statusChar_cases (s.ServoPulseDefs n) with h | h | h <;> rw [h] <;> decide
  by_cases h10 : 10 ≤ n
  · have e : (ParseQStatus n s u).2
        = putChars [42, n / 10 + 48, n % 10 + 48, 81, statusChar (s.ServoPulseDefs n), 13] u := by
      simp [ParseQStatus, putChars, hn, h10]
    rw [e, if_pos h10]
    exact sent_six _ _ _ _ _ _ u hu (by decide) (by omega) (by omega) (by decide) hs (by decide)
  · have e : (ParseQStatus n s u).2
        = putChars [42, n % 10 + 48, 81, statusChar (s.ServoPulseDefs n), 13] u := by
      simp [ParseQStatus, putChars, hn, h10]
    rw [e, if_neg h10]
    exact sent_five _ _ _ _ _ u hu (by decide) (by omega) (by decide) hs (by decide)

/-- C30, status code: for a selected servo `n < 12` the status query sends
`'*'`, the servo number in decimal, `'Q'`, exactly one status character and a
carriage return; the status character is `'1'` when `currentPW_l16` is 0,
otherwise `'4'` when `currentPW_l16` differs from `targetPW << 16`, otherwise
`'6'`.  For `n ≥ 12` nothing is sent and the transmit queue is as before.  In
both cases the globals of the servo core (pulse array, pending command, edge
table and the rest) are unchanged. -/
theorem status_code (s : State) (u : Uart) (n : Nat) (hu : u.txq_add_idx < 255)
    (hT : (s.ServoPulseDefs n).targetPW ≤ 65535) :
    (n < 12 →
      ∃ code,
        sent u (ParseQStatus n s u).2
          = (if 10 ≤ n then [42, n / 10 + 48, n % 10 + 48, 81, code, 13]
             else [42, n % 10 + 48, 81, code, 13])
        ∧ ((s.ServoPulseDefs n).currentPW_l16 = 0 → code = 49)
        ∧ ((s.ServoPulseDefs n).currentPW_l16 ≠ 0
            → (s.ServoPulseDefs n).currentPW_l16 ≠ (s.ServoPulseDefs n).targetPW * 65536
            → code = 52)
        ∧ ((s.ServoPulseDefs n).currentPW_l16 ≠ 0
            → (s.ServoPulseDefs n).currentPW_l16 = (s.ServoPulseDefs n).targetPW * 65536
            → code = 54))
    ∧ (12 ≤ n → (ParseQStatus n s u).2 = u ∧ sent u (ParseQStatus n s u).2 = [])
    ∧ (ParseQStatus n s u).1 = s := by
  have e32 : u32 ((s.ServoPulseDefs n).targetPW * 65536) = (s.ServoPulseDefs n).targetPW * 65536 := by
    simp only [u32]; omega
  refine ⟨?_, ?_, ?_⟩
  · intro hn
    refine ⟨statusChar (s.ServoPulseDefs n), ParseQStatus_sent n hn s u hu, ?_, ?_, ?_⟩
    · intro h0; simp [statusChar, h0]
    · intro h0 h1
      rw [statusChar, if_neg h0, e32, if_pos h1]
    · intro h0 h1
      rw [statusChar, if_neg h0, e32, if_neg (not_not.mpr h1)]
  · intro hn
    have e : (ParseQStatus n s u).2 = u := by
      simp only [ParseQStatus, NUM_SERVOS, if_neg (show ¬ n < 12 by omega)]
    exact ⟨e, by rw [e]; exact sent_self u⟩
  · unfold ParseQStatus
    split_ifs <;> rfl

set_option maxRecDepth 100000 in
/-- Witness of C30: servo 11 of the idle state, which is off. -/
theorem status_code_witness :
    (uartZero.txq_add_idx < 255 ∧ (idleState.ServoPulseDefs 11).targetPW ≤ 65535) ∧
    sent uartZero (ParseQStatus 11 idleState uartZero).2 = [42, 49, 49, 81, 49, 13] := by
  obtain ⟨h, -, -⟩ := status_code idleState uartZero 11 (by decide) (by decide)
  obtain ⟨code, e, c1, -, -⟩ := h (by decide)
  rw [c1 (by decide)] at e
  exact ⟨⟨by decide, by decide⟩, e⟩

/-- C29, scenario C (limp): for every servo `n < 12` and every state, after
`ParseServoLimp` for `n` and the carriage return, a commit that completes leaves
`currentPW_l16` of `n` at 0, with no frame in between, and a status query for
`n` then sends the status character `'1'`; the commit completes at least when no
other servo is part of the command. -/
theorem scenario_C (s : State) (n : Nat) (hn : n < 12) (u : Uart) (hu : u.txq_add_idx < 255) :
    (∀ t, servo_calculations_update (carriageReturn (ParseServoLimp n s)) = some t →
      (t.ServoPulseDefs n).currentPW_l16 = 0
      ∧ sent u (ParseQStatus n t u).2
          = (if 10 ≤ n then [42, n / 10 + 48, n % 10 + 48, 81, 49, 13]
             else [42, n % 10 + 48, 81, 49, 13]))
    ∧ ((∀ m, m < 12 → m ≠ n → (s.ServoCmdArray m).isCommanded = false) →
        ∃ t, servo_calculations_update (carriageReturn (ParseServoLimp n s)) = some t) := by
  have hcmd : ((carriageReturn (ParseServoLimp n s)).ServoCmdArray n).isCommanded = true
      ∧ ((carriageReturn (ParseServoLimp n s)).ServoCmdArray n).targetPW = 0 := by
    simp [carriageReturn, ParseServoLimp, hn]
  have hother : ∀ m, m ≠ n → (carriageReturn (ParseServoLimp n s)).ServoCmdArray m
      = s.ServoCmdArray m := by
    intro m hm
    simp [carriageReturn, ParseServoLimp, hn, Function.update_noteq hm]
  have hw : (carriageReturn (ParseServoLimp n s)).ServoCmdWaiting = true := rfl
  constructor
  · intro t ht
    obtain ⟨t', e, c, -⟩ := servo_calculations_update_some _ hw (commit_ok _ t hw ht)
    rw [ht] at e
    obtain rfl := Option.some.inj e
    have hv := c n hn hcmd.1
    rw [deltaChannel_immediate _ _ _ (by simp [isImmediate, hcmd.2])] at hv
    have hcur : (t.ServoPulseDefs n).currentPW_l16 = 0 := by
      rw [← Option.some.inj hv, hcmd.2]; rfl
    refine ⟨hcur, ?_⟩
    rw [ParseQStatus_sent n hn t u hu]
    simp [statusChar, hcur]
  · intro hno
    apply Exists.imp (fun t h => h.1)
      (servo_calculations_update_some _ hw (Or.inr (by
        intro m hm
        by_cases hmn : m = n
        · subst hmn
          simp [timeProfiled, isImmediate, hcmd.2]
        · rw [hother m hmn]
          simp [timeProfiled, hno m hm hmn])))

set_option maxRecDepth 100000 in
/-- Witness of C29: servo 2, at rest at 2000, is made limp. -/
theorem scenario_C_witness :
    (uartZero.txq_add_idx < 255) ∧
    ∃ t, servo_calculations_update (carriageReturn (ParseServoLimp 2
          { idleState with ServoPulseDefs := fun n => if n = 2 then restAt 2000 else restAt 0 }))
        = some t
      ∧ (t.ServoPulseDefs 2).currentPW_l16 = 0
      ∧ sent uartZero (ParseQStatus 2 t uartZero).2 = [42, 50, 81, 49, 13] := by
  have H := scenario_C
    { idleState with ServoPulseDefs := fun n => if n = 2 then restAt 2000 else restAt 0 }
    2 (by decide) uartZero (by decide)
  obtain ⟨t, ht⟩ := H.2 (by decide)
  exact ⟨by decide, t, ht, (H.1 t ht).1, (H.1 t ht).2⟩

/-! ## Claims on the parser commands, the initialisation and the drain -/

/-- C31, Hold: for a selected servo `n < 12`, `ParseServoHold` sets
`currentPW_l16` of `n` to `targetPW << 16` and leaves the target and the delta
of `n`, every other servo and the other globals as they were; for `n ≥ 12` the
state is unchanged.  A status query for `n` after it sends the status character
`'6'` when the target of `n` is not zero. -/
theorem hold_command (s : State) (n : Nat) (u : Uart) (hu : u.txq_add_idx < 255)
    (hT : (s.ServoPulseDefs n).targetPW ≤ 65535) :
    (n < 12 →
      ((ParseServoHold n s).ServoPulseDefs n).currentPW_l16 = (s.ServoPulseDefs n).targetPW * 65536
      ∧ ((ParseServoHold n s).ServoPulseDefs n).targetPW = (s.ServoPulseDefs n).targetPW
      ∧ ((ParseServoHold n s).ServoPulseDefs n).deltaPW_l16 = (s.ServoPulseDefs n).deltaPW_l16
      ∧ (∀ m, m ≠ n → (ParseServoHold n s).ServoPulseDefs m = s.ServoPulseDefs m)
      ∧ ParseServoHold n s = { s with ServoPulseDefs := (ParseServoHold n s).ServoPulseDefs }
      ∧ ((s.ServoPulseDefs n).targetPW ≠ 0 →
          sent u (ParseQStatus n (ParseServoHold n s) u).2
            = (if 10 ≤ n then [42, n / 10 + 48, n % 10 + 48, 81, 54, 13]
               else [42, n % 10 + 48, 81, 54, 13])))
    ∧ (12 ≤ n → ParseServoHold n s = s) := by
  have e32 : u32 ((s.ServoPulseDefs n).targetPW * 65536) = (s.ServoPulseDefs n).targetPW * 65536 := by
    simp only [u32]; omega
  constructor
  · intro hn
    have hdef : (ParseServoHold n s).ServoPulseDefs n
        = { s.ServoPulseDefs n with currentPW_l16 := (s.ServoPulseDefs n).targetPW * 65536 } := by
      simp only [ParseServoHold, NUM_SERVOS, if_pos hn, Function.update_same, e32]
    refine ⟨by rw [hdef], by rw [hdef], by rw [hdef], ?_, ?_, ?_⟩
    · intro m hm
      simp only [ParseServoHold, NUM_SERVOS, if_pos hn, Function.update_noteq hm]
    · simp only [ParseServoHold, NUM_SERVOS, if_pos hn]
    · intro h0
      rw [ParseQStatus_sent n hn _ u hu, hdef]
      have hs : statusChar { s.ServoPulseDefs n with
          currentPW_l16 := (s.ServoPulseDefs n).targetPW * 65536 } = 54 := by
        unfold statusChar
        simp only
        rw [if_neg (by omega), e32, if_neg (by simp)]
      rw [hs]
  · intro hn
    simp only [ParseServoHold, NUM_SERVOS, if_neg (show ¬ n < 12 by omega)]

set_option maxRecDepth 100000 in
/-- Witness of C31: servo 0 is held right after the commit of scenario B, on
its way from 1500 to 2000. -/
theorem hold_command_witness :
    uartZero.txq_add_idx < 255 ∧
    ∃ t, servo_calculations_update scenarioB = some t
      ∧ (t.ServoPulseDefs 0).targetPW ≤ 65535
      ∧ (t.ServoPulseDefs 0).currentPW_l16 = 1500 * 65536
      ∧ ((ParseServoHold 0 t).ServoPulseDefs 0).currentPW_l16 = 2000 * 65536
      ∧ sent uartZero (ParseQStatus 0 (ParseServoHold 0 t) uartZero).2 = [42, 48, 81, 54, 13] := by
  obtain ⟨t, ht, h0, -⟩ := scenarioB_commit
  have hT : (t.ServoPulseDefs 0).targetPW ≤ 65535 := by rw [h0]; decide
  have H := (hold_command t 0 uartZero (by decide) hT).1 (by decide)
  refine ⟨by decide, t, ht, hT, by rw [h0], ?_, ?_⟩
  · rw [H.1, h0]
  · have h := H.2.2.2.2.2 (by rw [h0]; decide)
    rw [h]
    rfl

/-- C32, invalid pulse-width commands are not committed: for a selected servo
`n < 12` and an argument `a` with `500 ≤ a ≤ 2500`, `ParseServoPW` sets
`isCommanded` and `targetPW = a` in the pending slot of `n`, leaves its speed,
the other slots and the other globals as they were; for `n ≥ 12`, `a < 500` or
`a > 2500` the state, and with it the pending command, is unchanged. -/
theorem pulse_width_command (s : State) (n a : Nat) :
    (n < 12 ∧ 500 ≤ a ∧ a ≤ 2500 →
      ((ParseServoPW n a s).ServoCmdArray n).isCommanded = true
      ∧ ((ParseServoPW n a s).ServoCmdArray n).targetPW = a
      ∧ ((ParseServoPW n a s).ServoCmdArray n).targetSpeed = (s.ServoCmdArray n).targetSpeed
      ∧ (∀ m, m ≠ n → (ParseServoPW n a s).ServoCmdArray m = s.ServoCmdArray m)
      ∧ ParseServoPW n a s = { s with ServoCmdArray := (ParseServoPW n a s).ServoCmdArray })
    ∧ (12 ≤ n ∨ a < 500 ∨ 2500 < a → ParseServoPW n a s = s) := by
  constructor
  · intro h
    have hv : n < NUM_SERVOS ∧ a ≥ MINIMUM_PW ∧ a ≤ MAXIMUM_PW := h
    refine ⟨?_, ?_, ?_, ?_, ?_⟩
    · simp only [ParseServoPW, if_pos hv, Function.update_same]
    · simp only [ParseServoPW, if_pos hv, Function.update_same]
    · simp only [ParseServoPW, if_pos hv, Function.update_same]
    · intro m hm
      simp only [ParseServoPW, if_pos hv, Function.update_noteq hm]
    · simp only [ParseServoPW, if_pos hv]
  · intro h
    have hv : ¬ (n < NUM_SERVOS ∧ a ≥ MINIMUM_PW ∧ a ≤ MAXIMUM_PW) := by
      simp only [NUM_SERVOS, MINIMUM_PW, MAXIMUM_PW]; omega
    simp only [ParseServoPW, if_neg hv]

set_option maxRecDepth 100000 in
/-- Instances of C32 at the idle state: "P1500" for servo 3 is stored, "P499"
is not. -/
theorem pulse_width_command_witness :
    ((ParseServoPW 3 1500 idleState).ServoCmdArray 3).isCommanded = true
    ∧ ((ParseServoPW 3 1500 idleState).ServoCmdArray 3).targetPW = 1500
    ∧ ParseServoPW 3 499 idleState = idleState :=
  ⟨((pulse_width_command idleState 3 1500).1 ⟨by decide, by decide, by decide⟩).1,
    ((pulse_width_command idleState 3 1500).1 ⟨by decide, by decide, by decide⟩).2.1,
    (pulse_width_command idleState 3 499).2 (Or.inr (Or.inl (by decide)))⟩

/-- C34, uncommanded channels are untouched by a commit: a
`servo_calculations_update` that completes leaves `targetPW`, `currentPW_l16`
and `deltaPW_l16` of every servo whose pending slot has `isCommanded` false as
they were, and leaves the edge table, `EdgeIndex` and `LoopCount` as they were;
a commit completes whenever line 103 does not divide by zero. -/
theorem uncommanded_untouched (s : State) (n : Nat)
    (hc : (s.ServoCmdArray n).isCommanded = false) :
    (∀ t, servo_calculations_update s = some t →
      t.ServoPulseDefs n = s.ServoPulseDefs n
      ∧ t.ServoPulseEdges = s.ServoPulseEdges ∧ t.EdgeIndex = s.EdgeIndex
      ∧ t.LoopCount = s.LoopCount)
    ∧ ((moveTimeLoop s).2 ≠ 0
        ∨ (∀ m, m < 12 → timeProfiled (s.ServoCmdArray m) (s.ServoPulseDefs m) = false) →
      ∃ t, servo_calculations_update s = some t) := by
  by_cases hw : s.ServoCmdWaiting = true
  · constructor
    · intro t ht
      obtain ⟨t', e, -, un, -, ed, ei, lc, -⟩ :=
        servo_calculations_update_some s hw (commit_ok s t hw ht)
      rw [ht] at e
      obtain rfl := Option.some.inj e
      exact ⟨un n (fun h => by rw [hc] at h; exact Bool.noConfusion h.2), ed, ei, lc⟩
    · intro ok
      obtain ⟨t, e, -⟩ := servo_calculations_update_some s hw ok
      exact ⟨t, e⟩
  · have e : servo_calculations_update s = some s := by
      simp only [Bool.not_eq_true] at hw
      simp [servo_calculations_update, hw]
    constructor
    · intro t ht
      rw [e] at ht
      obtain rfl := Option.some.inj ht
      exact ⟨rfl, rfl, rfl, rfl⟩
    · intro _
      exact ⟨s, e⟩

set_option maxRecDepth 100000 in
/-- Witness of C34: servo 1 is not part of the command of scenario B. -/
theorem uncommanded_untouched_witness :
    (scenarioB.ServoCmdArray 1).isCommanded = false ∧
    ∃ t, servo_calculations_update scenarioB = some t
      ∧ t.ServoPulseDefs 1 = scenarioB.ServoPulseDefs 1
      ∧ t.ServoPulseEdges = scenarioB.ServoPulseEdges ∧ t.EdgeIndex = scenarioB.EdgeIndex
      ∧ t.LoopCount = scenarioB.LoopCount := by
  have H := uncommanded_untouched scenarioB 1 (by decide)
  obtain ⟨t, ht⟩ := H.2 (Or.inl (by decide))
  exact ⟨by decide, t, ht, H.1 t ht⟩

/-! ## Sentinel channels and the drain of the edge table -/

/-- While edges are left in the table `servo_pulse_update` returns at once. -/
theorem servo_pulse_update_gated (s : State) (h : s.EdgeIndex < 24) :
    servo_pulse_update s = s := by
  unfold servo_pulse_update
  rw [if_pos (by simp only [NUM_SERVOS]; omega)]

/-- A channel with a zero delta and a 32-bit current width is not moved by the
accumulation. -/
theorem accumulate_rest (p : PulseDef) (hd : p.deltaPW_l16 = 0)
    (hc : p.currentPW_l16 < 4294967296) : accumulate p = p := by
  obtain ⟨T, c, d⟩ := p
  simp only at hd hc
  subst hd
  have e : ((c : Int) % 4294967296).toNat = c := by omega
  simp only [accumulate, u32OfInt, add_zero, lt_self_iff_false, gt_iff_lt, false_and, or_self,
    if_false, e]

/-- A pulse array entry that a commit stores with a sentinel target is at rest. -/
theorem atRest_of_deltaChannel (cmd : ServoCmd) (D : Nat) (p q : PulseDef)
    (h : deltaChannel cmd D p = some q) (hq : q.targetPW = 0 ∨ q.targetPW = 0xFFFF) :
    q.currentPW_l16 = q.targetPW * 65536 ∧ q.deltaPW_l16 = 0 := by
  by_cases hi : isImmediate cmd p = true
  · rw [deltaChannel_immediate cmd D p hi] at h
    rw [← Option.some.inj h] at hq ⊢
    have hq' : cmd.targetPW = 0 ∨ cmd.targetPW = 0xFFFF := hq
    refine ⟨?_, rfl⟩
    show u32 (cmd.targetPW * 65536) = cmd.targetPW * 65536
    simp only [u32]
    omega
  · have hi' : isImmediate cmd p = false := by simpa using hi
    obtain ⟨ht, -, -⟩ := deltaChannel_result cmd D p q h
    obtain ⟨h1, h2, -, -⟩ := (isImmediate_false_iff cmd p).mp hi'
    rw [ht] at hq
    rcases hq with h0 | h0
    · exact absurd h0 h1
    · exact absurd h0 h2

/-- A commit keeps the channels with a sentinel target at rest. -/
theorem atRest_commit (s t : State) (ht : servo_calculations_update s = some t)
    (inv : ∀ n, (s.ServoPulseDefs n).targetPW = 0 ∨ (s.ServoPulseDefs n).targetPW = 0xFFFF →
      (s.ServoPulseDefs n).currentPW_l16 = (s.ServoPulseDefs n).targetPW * 65536
        ∧ (s.ServoPulseDefs n).deltaPW_l16 = 0) :
    ∀ n, (t.ServoPulseDefs n).targetPW = 0 ∨ (t.ServoPulseDefs n).targetPW = 0xFFFF →
      (t.ServoPulseDefs n).currentPW_l16 = (t.ServoPulseDefs n).targetPW * 65536
        ∧ (t.ServoPulseDefs n).deltaPW_l16 = 0 := by
  by_cases hw : s.ServoCmdWaiting = true
  · obtain ⟨t', e, c, un, -⟩ := servo_calculations_update_some s hw (commit_ok s t hw ht)
    rw [ht] at e
    obtain rfl := Option.some.inj e
    intro n hn
    by_cases hc : n < 12 ∧ (s.ServoCmdArray n).isCommanded = true
    · exact atRest_of_deltaChannel _ _ _ _ (c n hc.1 hc.2) hn
    · rw [un n hc] at hn ⊢
      exact inv n hn
  · simp only [Bool.not_eq_true] at hw
    have e : servo_calculations_update s = some s := by simp [servo_calculations_update, hw]
    rw [e] at ht
    obtain rfl := Option.some.inj ht
    exact inv

/-- A call of `servo_pulse_update` keeps the channels with a sentinel target at rest. -/
theorem atRest_pulse (s : State)
    (inv : ∀ n, (s.ServoPulseDefs n).targetPW = 0 ∨ (s.ServoPulseDefs n).targetPW = 0xFFFF →
      (s.ServoPulseDefs n).currentPW_l16 = (s.ServoPulseDefs n).targetPW * 65536
        ∧ (s.ServoPulseDefs n).deltaPW_l16 = 0) :
    ∀ n, ((servo_pulse_update s).ServoPulseDefs n).targetPW = 0
        ∨ ((servo_pulse_update s).ServoPulseDefs n).targetPW = 0xFFFF →
      ((servo_pulse_update s).ServoPulseDefs n).currentPW_l16
          = ((servo_pulse_update s).ServoPulseDefs n).targetPW * 65536
        ∧ ((servo_pulse_update s).ServoPulseDefs n).deltaPW_l16 = 0 := by
  by_cases h : s.EdgeIndex < 24
  · rw [servo_pulse_update_gated s h]
    exact inv
  · intro n
    rw [servo_pulse_update_defs s (by omega) n]
    by_cases hn : n < 12
    · rw [if_pos hn]
      have ht : (accumulate (s.ServoPulseDefs n)).targetPW = (s.ServoPulseDefs n).targetPW := by
        simp only [accumulate]
        split_ifs <;> rfl
      rw [ht]
      intro hs
      obtain ⟨h1, h2⟩ := inv n hs
      rw [accumulate_rest _ h2 (by rw [h1]; omega)]
      exact ⟨h1, h2⟩
    · rw [if_neg hn]
      exact inv n

/-- A Hold command keeps the channels with a sentinel target at rest. -/
theorem atRest_hold (s : State) (m : Nat)
    (inv : ∀ n, (s.ServoPulseDefs n).targetPW = 0 ∨ (s.ServoPulseDefs n).targetPW = 0xFFFF →
      (s.ServoPulseDefs n).currentPW_l16 = (s.ServoPulseDefs n).targetPW * 65536
        ∧ (s.ServoPulseDefs n).deltaPW_l16 = 0) :
    ∀ n, ((ParseServoHold m s).ServoPulseDefs n).targetPW = 0
        ∨ ((ParseServoHold m s).ServoPulseDefs n).targetPW = 0xFFFF →
      ((ParseServoHold m s).ServoPulseDefs n).currentPW_l16
          = ((ParseServoHold m s).ServoPulseDefs n).targetPW * 65536
        ∧ ((ParseServoHold m s).ServoPulseDefs n).deltaPW_l16 = 0 := by
  intro n
  unfold ParseServoHold
  by_cases hm : m < NUM_SERVOS
  · rw [if_pos hm]
    by_cases hnm : n = m
    · subst hnm
      simp only [Function.update_same]
      intro hs
      obtain ⟨h1, h2⟩ := inv n hs
      refine ⟨?_, h2⟩
      simp only [u32]
      omega
    · simp only [Function.update_noteq hnm]
      exact inv n
  · rw [if_neg hm]
    exact inv n

/-- The initialisations leave every entry of the pulse array at zero. -/
theorem atRest_init (s : State) (h : initState = some s) :
    ∀ n, (s.ServoPulseDefs n).targetPW = 0 ∨ (s.ServoPulseDefs n).targetPW = 0xFFFF →
      (s.ServoPulseDefs n).currentPW_l16 = (s.ServoPulseDefs n).targetPW * 65536
        ∧ (s.ServoPulseDefs n).deltaPW_l16 = 0 := by
  unfold initState at h
  split at h
  · exact absurd h (by simp)
  · rename_i s1 e
    rw [← Option.some.inj h]
    have i0 : ∀ n, ((parse_commands_init zeroState).ServoPulseDefs n).targetPW = 0
          ∨ ((parse_commands_init zeroState).ServoPulseDefs n).targetPW = 0xFFFF →
        ((parse_commands_init zeroState).ServoPulseDefs n).currentPW_l16
            = ((parse_commands_init zeroState).ServoPulseDefs n).targetPW * 65536
          ∧ ((parse_commands_init zeroState).ServoPulseDefs n).deltaPW_l16 = 0 :=
      fun n _ => by simp [parse_commands_init, zeroState]
    have i1 := atRest_commit _ s1 e i0
    have i2 := atRest_pulse { s1 with PORT_OUT := (servo_pulse_init s1).PORT_OUT,
                                      EdgeIndex := 2 * NUM_SERVOS } i1
    exact i2

/-- Every reachable state has its channels with a sentinel target at rest. -/
theorem atRest_reachable (s : State) (h : ReachableWithHold s) :
    ∀ n, (s.ServoPulseDefs n).targetPW = 0 ∨ (s.ServoPulseDefs n).targetPW = 0xFFFF →
      (s.ServoPulseDefs n).currentPW_l16 = (s.ServoPulseDefs n).targetPW * 65536
        ∧ (s.ServoPulseDefs n).deltaPW_l16 = 0 := by
  induction h with
  | init s h => exact atRest_init s h
  | interrupt s _ _ ih => exact ih
  | calculations s t _ ht ih => exact atRest_commit s t ht ih
  | pulse s _ ih => exact atRest_pulse s ih
  | command s _ cmds moveTime ih => exact ih
  | hold s _ servoNum ih => exact atRest_hold s servoNum ih

/-- Sentinel channels are at rest: in every state reachable from initialisation
by commits, calls of `servo_pulse_update`, timer interrupts that find an entry
of the table to output, pending commands and Hold commands, a channel whose
`targetPW` is 0 or 0xFFFF has `currentPW_l16` equal to `targetPW << 16` and a zero
delta, so that its current width in microseconds is that sentinel too. -/
theorem sentinel_at_rest (s : State) (h : ReachableWithHold s) (n : Nat)
    (hs : (s.ServoPulseDefs n).targetPW = 0 ∨ (s.ServoPulseDefs n).targetPW = 0xFFFF) :
    (s.ServoPulseDefs n).currentPW_l16 = (s.ServoPulseDefs n).targetPW * 65536
      ∧ (s.ServoPulseDefs n).deltaPW_l16 = 0
      ∧ (s.ServoPulseDefs n).currentPW_l16 / 65536 = (s.ServoPulseDefs n).targetPW := by
  obtain ⟨h1, h2⟩ := atRest_reachable s h n hs
  exact ⟨h1, h2, by rw [h1]; omega⟩

/-- Interrupts that stay within the table lead from a reachable state to a
reachable state. -/
theorem reachableWithHold_interrupts (s : State) (h : ReachableWithHold s) (n : Nat)
    (hn : s.EdgeIndex + n ≤ 24) :
    ReachableWithHold (Nat.iterate ISR_TCA0_CMP0 n s) := by
  induction n with
  | zero => exact h
  | succ n ih =>
    rw [Function.iterate_succ_apply']
    have hidx := (ISR_iterate n s (by omega)).1
    exact ReachableWithHold.interrupt _ (ih (by omega))
      (by rw [hidx]; simp only [NUM_SERVOS]; omega)

/-- A pulse width command of the parser followed by its commit leads from a
reachable state to a reachable state. -/
theorem reachableWithHold_commit (s : State) (h : ReachableWithHold s) (n pw moveTime : Nat)
    (t : State) (ht : servo_calculations_update (commandPW s n pw moveTime) = some t) :
    ReachableWithHold t :=
  ReachableWithHold.calculations _ t (ReachableWithHold.command s h _ moveTime) ht

/-- Instance of the rest of sentinel channels: servo 0 after the initialisations. -/
theorem sentinel_at_rest_witness :
    ∃ s, initState = some s ∧ ReachableWithHold s
      ∧ (s.ServoPulseDefs 0).targetPW = 0
      ∧ (s.ServoPulseDefs 0).currentPW_l16 = (s.ServoPulseDefs 0).targetPW * 65536
      ∧ (s.ServoPulseDefs 0).deltaPW_l16 = 0
      ∧ (s.ServoPulseDefs 0).currentPW_l16 / 65536 = (s.ServoPulseDefs 0).targetPW :=
  ⟨_, rfl, ReachableWithHold.init _ rfl, by decide,
    sentinel_at_rest _ (ReachableWithHold.init _ rfl) 0 (Or.inl (by decide))⟩

set_option maxRecDepth 100000 in
/-- C35 fails on the code in its last part: after the initialisations servo 0
is switched on at 834, then sent to 500 in 8 milliseconds, and the interrupt
outputs the 24 entries of the frame.  In the `servo_pulse_update` that follows,
the step is larger than the current width, the `uint32_t` addition of line 84
wraps and the clip of lines 85 to 89 misses it: the current width is 0xFFFF
while the stored target is 500.  In this reachable state the test of the stored
target finds no sentinel and the test of the current width finds one, so the
two tests are not the same. -/
theorem sentinel_tests_differ :
    ∃ s0 s1 s2, initState = some s0
      ∧ servo_calculations_update (commandPW s0 0 834 0) = some s1
      ∧ servo_calculations_update (commandPW s1 0 500 8) = some s2
      ∧ ReachableWithHold (servo_pulse_update (Nat.iterate ISR_TCA0_CMP0 24 s2))
      ∧ ((servo_pulse_update (Nat.iterate ISR_TCA0_CMP0 24 s2)).ServoPulseDefs 0).targetPW = 500
      ∧ ((servo_pulse_update (Nat.iterate ISR_TCA0_CMP0 24 s2)).ServoPulseDefs 0).currentPW_l16
          / 65536 = 0xFFFF :=
  ⟨_, _, _, rfl, rfl, rfl,
    ReachableWithHold.pulse _ (reachableWithHold_interrupts _
      (reachableWithHold_commit _
        (reachableWithHold_commit _ (ReachableWithHold.init _ rfl) 0 834 0 _ rfl)
        0 500 8 _ rfl) 24 (by decide)),
    by decide, by decide⟩

/-- The timer interrupt does not write the edge table, and each interrupt
before the end of the table moves the cursor on by one. -/
theorem ISR_iterate_edges (m : Nat) : ∀ s : State, s.EdgeIndex + m ≤ 24 →
    (Nat.iterate ISR_TCA0_CMP0 m s).EdgeIndex = s.EdgeIndex + m
    ∧ (Nat.iterate ISR_TCA0_CMP0 m s).ServoPulseEdges = s.ServoPulseEdges
    ∧ (Nat.iterate ISR_TCA0_CMP0 m s).LoopCount = s.LoopCount := by
  induction m with
  | zero => intro s _; exact ⟨rfl, rfl, rfl⟩
  | succ m ih =>
    intro s h
    rw [Function.iterate_succ_apply]
    have e : (ISR_TCA0_CMP0 s).EdgeIndex = s.EdgeIndex + 1 := by
      simp only [ISR_TCA0_CMP0, u8]; omega
    obtain ⟨h1, h2, h3⟩ := ih (ISR_TCA0_CMP0 s) (by rw [e]; omega)
    exact ⟨by rw [h1, e]; omega, by rw [h2]; rfl, by rw [h3]; rfl⟩

/-- C36, full drain re-arms regeneration: after a regenerating
`servo_pulse_update` the cursor is at 0; the interrupt number `j + 1`, for
`j < 24`, writes the bit map of entry `j` to the register of entry `j` and loads
the compare register with the `nextEdge` of entry `j`, the table being unchanged;
after `m ≤ 24` interrupts the cursor is at `m`; after 24 interrupts the cursor is
at 24 and the compare register at 0, and the next `servo_pulse_update`
regenerates (it resets the cursor, counts the frame and accumulates every
channel); after fewer than 24 interrupts `servo_pulse_update` returns the state
unchanged. -/
theorem full_drain (s : State) (h : 24 ≤ s.EdgeIndex) :
    (servo_pulse_update s).EdgeIndex = 0
    ∧ (∀ m, m ≤ 24 →
        (Nat.iterate ISR_TCA0_CMP0 m (servo_pulse_update s)).EdgeIndex = m
        ∧ (Nat.iterate ISR_TCA0_CMP0 m (servo_pulse_update s)).ServoPulseEdges
            = (servo_pulse_update s).ServoPulseEdges)
    ∧ (∀ j, j < 24 →
        (Nat.iterate ISR_TCA0_CMP0 (j + 1) (servo_pulse_update s)).PORT_OUT
            = writeReg (Nat.iterate ISR_TCA0_CMP0 j (servo_pulse_update s)).PORT_OUT
                ((servo_pulse_update s).ServoPulseEdges j).regAddr
                ((servo_pulse_update s).ServoPulseEdges j).bitMap
        ∧ (Nat.iterate ISR_TCA0_CMP0 (j + 1) (servo_pulse_update s)).TCA0_SINGLE_CMP0
            = ((servo_pulse_update s).ServoPulseEdges j).nextEdge)
    ∧ (Nat.iterate ISR_TCA0_CMP0 24 (servo_pulse_update s)).EdgeIndex = 24
    ∧ (Nat.iterate ISR_TCA0_CMP0 24 (servo_pulse_update s)).TCA0_SINGLE_CMP0 = 0
    ∧ (servo_pulse_update (Nat.iterate ISR_TCA0_CMP0 24 (servo_pulse_update s))).EdgeIndex = 0
    ∧ (servo_pulse_update (Nat.iterate ISR_TCA0_CMP0 24 (servo_pulse_update s))).LoopCount
        = u64 ((servo_pulse_update s).LoopCount + 1)
    ∧ (∀ n, n < 12 →
        (servo_pulse_update (Nat.iterate ISR_TCA0_CMP0 24 (servo_pulse_update s))).ServoPulseDefs n
          = accumulate ((servo_pulse_update s).ServoPulseDefs n))
    ∧ (∀ m, m < 24 →
        servo_pulse_update (Nat.iterate ISR_TCA0_CMP0 m (servo_pulse_update s))
          = Nat.iterate ISR_TCA0_CMP0 m (servo_pulse_update s)) := by
  have h0 : (servo_pulse_update s).EdgeIndex = 0 := by
    rw [servo_pulse_update_EdgeIndex, if_neg (by omega)]
  have hit : ∀ m, m ≤ 24 →
      (Nat.iterate ISR_TCA0_CMP0 m (servo_pulse_update s)).EdgeIndex = m
      ∧ (Nat.iterate ISR_TCA0_CMP0 m (servo_pulse_update s)).ServoPulseEdges
          = (servo_pulse_update s).ServoPulseEdges
      ∧ (Nat.iterate ISR_TCA0_CMP0 m (servo_pulse_update s)).LoopCount
          = (servo_pulse_update s).LoopCount := by
    intro m hm
    obtain ⟨e1, e2, e3⟩ := ISR_iterate_edges m (servo_pulse_update s) (by rw [h0]; omega)
    exact ⟨by rw [e1, h0]; omega, e2, e3⟩
  have hstep : ∀ j, j < 24 →
      (Nat.iterate ISR_TCA0_CMP0 (j + 1) (servo_pulse_update s)).PORT_OUT
          = writeReg (Nat.iterate ISR_TCA0_CMP0 j (servo_pulse_update s)).PORT_OUT
              ((servo_pulse_update s).ServoPulseEdges j).regAddr
              ((servo_pulse_update s).ServoPulseEdges j).bitMap
      ∧ (Nat.iterate ISR_TCA0_CMP0 (j + 1) (servo_pulse_update s)).TCA0_SINGLE_CMP0
          = ((servo_pulse_update s).ServoPulseEdges j).nextEdge := by
    intro j hj
    obtain ⟨e1, e2, -⟩ := hit j (by omega)
    rw [Function.iterate_succ_apply']
    simp only [ISR_TCA0_CMP0, e1, e2, and_self]
  obtain ⟨i1, i2, i3⟩ := hit 24 (le_refl _)
  have hlast : ((servo_pulse_update s).ServoPulseEdges 23).nextEdge = 0 := by
    obtain ⟨a, b, c, -, -, -, -, -, -, -, -, -, e5⟩ := group_nextEdges s h 3 (by omega)
    rw [e5]
    rfl
  refine ⟨h0, fun m hm => ⟨(hit m hm).1, (hit m hm).2.1⟩, hstep, i1, ?_, ?_, ?_, ?_, ?_⟩
  · rw [(hstep 23 (by omega)).2, hlast]
  · rw [servo_pulse_update_EdgeIndex, if_neg (by omega)]
  · rw [servo_pulse_update_LoopCount, if_neg (by omega), i3]
  · intro n hn
    obtain ⟨-, d⟩ := ISR_iterate 24 (servo_pulse_update s) (by rw [h0])
    rw [servo_pulse_update_defs _ (by omega) n, if_pos hn, d]
  · intro m hm
    exact servo_pulse_update_gated _ (by rw [(hit m (by omega)).1]; exact hm)

set_option maxRecDepth 100000 in
/-- Witness of C36: the frame that follows the idle state. -/
theorem full_drain_witness :
    24 ≤ idleState.EdgeIndex
    ∧ (Nat.iterate ISR_TCA0_CMP0 24 (servo_pulse_update idleState)).EdgeIndex = 24
    ∧ (Nat.iterate ISR_TCA0_CMP0 24 (servo_pulse_update idleState)).TCA0_SINGLE_CMP0 = 0
    ∧ servo_pulse_update (Nat.iterate ISR_TCA0_CMP0 23 (servo_pulse_update idleState))
        = Nat.iterate ISR_TCA0_CMP0 23 (servo_pulse_update idleState) :=
  ⟨by decide, (full_drain idleState (by decide)).2.2.2.1,
    (full_drain idleState (by decide)).2.2.2.2.1,
    (full_drain idleState (by decide)).2.2.2.2.2.2.2.2 23 (by decide)⟩

/-! ## The initialisations -/

/-- The function `servo_pulse_update` does not write the port registers. -/
theorem servo_pulse_update_PORT_OUT (s : State) :
    (servo_pulse_update s).PORT_OUT = s.PORT_OUT := by
  by_cases h : s.EdgeIndex < 24
  · rw [servo_pulse_update_gated s h]
  · rw [servo_pulse_update_regen s (by omega)]
    simp only [groupBody_frame]

theorem range12 : List.range 12 = [0, 1, 2, 3, 4, 5, 6, 7, 8, 9, 10, 11] := by decide

set_option maxRecDepth 100000 in
/-- The pin loop of `servo_pulse_init` clears the bits of the twelve servo pins
(bits 6 and 7 of port A, 0 to 5 of port B, 0 to 3 of port C) and keeps the other
bits of the three ports. -/
theorem servo_pulse_init_PORT_OUT (s : State) (h : ∀ p, s.PORT_OUT p < 256) :
    (servo_pulse_init s).PORT_OUT Port.A = s.PORT_OUT Port.A % 64
    ∧ (servo_pulse_init s).PORT_OUT Port.B = s.PORT_OUT Port.B / 64 * 64
    ∧ (servo_pulse_init s).PORT_OUT Port.C = s.PORT_OUT Port.C / 16 * 16 := by
  have hA : ∀ o, o < 256 →
      u8 (u8 (o &&& (255 ^^^ u8 64)) &&& (255 ^^^ u8 128)) = o % 64 := by decide
  have hB : ∀ o, o < 256 →
      u8 (u8 (u8 (u8 (u8 (u8 (o &&& (255 ^^^ u8 1)) &&& (255 ^^^ u8 2)) &&& (255 ^^^ u8 4))
        &&& (255 ^^^ u8 8)) &&& (255 ^^^ u8 16)) &&& (255 ^^^ u8 32)) = o / 64 * 64 := by decide
  have hC : ∀ o, o < 256 →
      u8 (u8 (u8 (u8 (o &&& (255 ^^^ u8 1)) &&& (255 ^^^ u8 2)) &&& (255 ^^^ u8 4))
        &&& (255 ^^^ u8 8)) = o / 16 * 16 := by decide
  unfold servo_pulse_init
  rw [servo_pulse_update_PORT_OUT]
  simp only [NUM_SERVOS, range12, List.foldl, ServoPinDefs, mkPin, writeReg, Function.update_apply]
  refine ⟨?_, ?_, ?_⟩
  · simpa using hA _ (h Port.A)
  · simpa using hB _ (h Port.B)
  · simpa using hC _ (h Port.C)

/-- The clear register of a servo pin is an `OUTCLR` register. -/
theorem outclr_is_clear (c : Nat) : ∃ p, (ServoPinDefs c).outclrRegAddr = RegAddr.OUTCLR p := by
  unfold ServoPinDefs
  split <;> exact ⟨_, rfl⟩

/-- A test that evaluates to true on the result of a computation is true of
that result. -/
theorem of_some_true {α : Type} (o : Option α) (f : α → Bool)
    (h : (match o with | some a => f a | none => false) = true)
    (a : α) (e : o = some a) : f a = true := by
  subst e
  exact h

/-- Entries that clear pins leave ports at level 0 at level 0. -/
theorem interrupts_keep_clear (m : Nat) : ∀ s : State, s.EdgeIndex + m ≤ 24 →
    (∀ k, k < 24 → ∃ p, (s.ServoPulseEdges k).regAddr = RegAddr.OUTCLR p) →
    (∀ p, s.PORT_OUT p = 0) →
    ∀ p, (Nat.iterate ISR_TCA0_CMP0 m s).PORT_OUT p = 0 := by
  induction m with
  | zero => intro s _ _ h0; exact h0
  | succ m ih =>
    intro s hm hclr h0
    rw [Function.iterate_succ_apply]
    have e : (ISR_TCA0_CMP0 s).EdgeIndex = s.EdgeIndex + 1 := by
      simp only [ISR_TCA0_CMP0, u8]; omega
    apply ih (ISR_TCA0_CMP0 s) (by rw [e]; omega) hclr
    intro p
    obtain ⟨q, hq⟩ := hclr s.EdgeIndex (by omega)
    simp only [ISR_TCA0_CMP0, hq, writeReg, Function.update_apply, h0, Nat.zero_and, u8]
    split_ifs <;> rfl

set_option maxRecDepth 100000 in
/-- C33, all outputs start OFF: `parse_commands_init`, `servo_calculations_init`
and `servo_pulse_init`, run in that order from the zeroed globals, complete and
leave every servo with `targetPW`, `currentPW_l16` and `deltaPW_l16` at 0; leave
entry `k` of the edge table, for each of the 24, with the clear register and the
pin bit of servo `3 * (k / 6) + k % 3`, so that the action of every entry is
clear, due at tick `3000 * (k / 6) + 20 * (k % 3)` at a rising position and 499
ticks later at a falling position, the last entry handing over to tick 0; leave
`EdgeIndex` at 0, one frame counted, no command waiting, the move time at 0 and
the twelve pending slots uncommanded at speed 65535; and leave the three ports
at level 0, where they stay while the interrupt outputs the 24 entries.  The pin
loop of `servo_pulse_init` drives the twelve servo pins to 0 whatever the levels
of the ports were before, and keeps the other bits of the ports. -/
theorem all_outputs_start_off :
    ∃ s1, servo_calculations_init (parse_commands_init zeroState) = some s1
      ∧ (∀ n, n < 12 → (servo_pulse_init s1).ServoPulseDefs n
          = { targetPW := 0, currentPW_l16 := 0, deltaPW_l16 := 0 })
      ∧ (∀ k, k < 24 →
          ((servo_pulse_init s1).ServoPulseEdges k).regAddr
              = (ServoPinDefs (3 * (k / 6) + k % 3)).outclrRegAddr
          ∧ ((servo_pulse_init s1).ServoPulseEdges k).bitMap
              = (ServoPinDefs (3 * (k / 6) + k % 3)).bitMap
          ∧ fireTime (servo_pulse_init s1).ServoPulseEdges k
              = 3000 * (k / 6) + 20 * (k % 3) + (if 3 ≤ k % 6 then 499 else 0))
      ∧ ((servo_pulse_init s1).ServoPulseEdges 23).nextEdge = 0
      ∧ (∀ k, k < 24 → ∃ p, ((servo_pulse_init s1).ServoPulseEdges k).regAddr = RegAddr.OUTCLR p)
      ∧ (servo_pulse_init s1).EdgeIndex = 0
      ∧ (servo_pulse_init s1).LoopCount = 1
      ∧ (servo_pulse_init s1).ServoCmdWaiting = false
      ∧ (servo_pulse_init s1).ServoCmdMoveTime = 0
      ∧ (∀ n, n < 12 → (servo_pulse_init s1).ServoCmdArray n
          = { isCommanded := false, targetPW := 0, targetSpeed := 65535 })
      ∧ (∀ p, (servo_pulse_init s1).PORT_OUT p = 0)
      ∧ (∀ m, m ≤ 24 → ∀ p,
          (Nat.iterate ISR_TCA0_CMP0 m (servo_pulse_init s1)).PORT_OUT p = 0)
      ∧ (∀ out : Port → Nat, (∀ p, out p < 256) →
          (servo_pulse_init { s1 with PORT_OUT := out }).PORT_OUT Port.A = out Port.A % 64
          ∧ (servo_pulse_init { s1 with PORT_OUT := out }).PORT_OUT Port.B = out Port.B / 64 * 64
          ∧ (servo_pulse_init { s1 with PORT_OUT := out }).PORT_OUT Port.C
              = out Port.C / 16 * 16) := by
  obtain ⟨s1, e⟩ : ∃ s1, servo_calculations_init (parse_commands_init zeroState) = some s1 :=
    ⟨_, rfl⟩
  have d1 := of_decide_eq_true (of_some_true _
    (fun s1 : State => decide (∀ n : Nat, n < 12 →
      (servo_pulse_init s1).ServoPulseDefs n
        = ({ targetPW := 0, currentPW_l16 := 0, deltaPW_l16 := 0 } : PulseDef)))
    (by decide) s1 e)
  have d2 := of_decide_eq_true (of_some_true _
    (fun s1 : State => decide (∀ k : Nat, k < 24 →
      ((servo_pulse_init s1).ServoPulseEdges k).regAddr
          = (ServoPinDefs (3 * (k / 6) + k % 3)).outclrRegAddr
      ∧ ((servo_pulse_init s1).ServoPulseEdges k).bitMap
          = (ServoPinDefs (3 * (k / 6) + k % 3)).bitMap
      ∧ fireTime (servo_pulse_init s1).ServoPulseEdges k
          = 3000 * (k / 6) + 20 * (k % 3) + (if 3 ≤ k % 6 then 499 else 0)))
    (by decide) s1 e)
  have d3 := of_decide_eq_true (of_some_true _
    (fun s1 : State => decide (
      ((servo_pulse_init s1).ServoPulseEdges 23).nextEdge = 0
      ∧ (servo_pulse_init s1).EdgeIndex = 0
      ∧ (servo_pulse_init s1).LoopCount = 1
      ∧ (servo_pulse_init s1).ServoCmdWaiting = false
      ∧ (servo_pulse_init s1).ServoCmdMoveTime = 0))
    (by decide) s1 e)
  have d4 := of_decide_eq_true (of_some_true _
    (fun s1 : State => decide (∀ n : Nat, n < 12 →
      (servo_pulse_init s1).ServoCmdArray n
        = ({ isCommanded := false, targetPW := 0, targetSpeed := 65535 } : ServoCmd)))
    (by decide) s1 e)
  have d5 := of_decide_eq_true (of_some_true _
    (fun s1 : State => decide (
      (servo_pulse_init s1).PORT_OUT Port.A = 0 ∧ (servo_pulse_init s1).PORT_OUT Port.B = 0
        ∧ (servo_pulse_init s1).PORT_OUT Port.C = 0))
    (by decide) s1 e)
  have hclr : ∀ k, k < 24 →
      ∃ p, ((servo_pulse_init s1).ServoPulseEdges k).regAddr = RegAddr.OUTCLR p := by
    intro k hk
    rw [(d2 k hk).1]
    exact outclr_is_clear _
  have hport : ∀ p, (servo_pulse_init s1).PORT_OUT p = 0 := by
    intro p
    cases p
    · exact d5.1
    · exact d5.2.1
    · exact d5.2.2
  refine ⟨s1, e, d1, d2, d3.1, hclr, d3.2.1, d3.2.2.1, d3.2.2.2.1, d3.2.2.2.2, d4, hport, ?_, ?_⟩
  · intro m hm
    exact interrupts_keep_clear m _ (by rw [d3.2.1]; omega) hclr hport
  · intro out hout
    exact servo_pulse_init_PORT_OUT _ hout

end SSC32M
